import Mathlib

/-!
# Edge scheduler: the node scheduling core

A shallow embedding of the node scheduler of `pkg/nodescheduler`
(`nodescheduler.go`, `nodegoalmanager.go`, `resourcemanager.go`), of the
knowledgebase client of `pkg/knowledgebase`, of the job validator of
`pkg/cloudscheduler` and of the parts of `pkg/datatype` they work on.

Modelling conventions.

* Go pointers to plugins (`*datatype.Plugin`) are addresses into a plugin
  store (`Heap`); a status update through a pointer is an update of the store
  at that address, so aliasing is kept. Science goals and sub-goals are never
  mutated by the code modelled here and are plain values.
* A Go `map[string]*ScienceGoal` is an association list; the order of the list
  stands for the (unspecified) iteration order of the map.
* Every handler of the `select` loop of `NodeScheduler.Run` is one function
  from the state to the next state and the list of the effects it performed, in
  program order: calls into the resource manager, sends on channels, messages
  to the logging collaborator, log lines. A channel send is recorded when it is
  executed; whether it has to wait for room in the channel, and which ready
  case the `select` picks, belong to the Go scheduler and are not modelled.
* Wall-clock time is an input `now` of the functions that stamp a status.
* Code of the repository that the modelled functions call but that is not in
  the sources at hand is either a parameter (`SchedulingPolicy`, `WillItFit`,
  `Checks`) or a definition marked `Modelled from the spec`.
* Library functions are parameters (`Unmarshal`, `json.Marshal`, the case
  table of `strings.ToLower` beyond ASCII) or, where their result is plain,
  computed (`strings.Join`, `path.Clean` and `path.Join`,
  `hex.EncodeToString`, the ASCII part of `strings.ToLower`).
* The Kubernetes API server is a cluster state (`k8s.Cluster`) together with
  the errors its calls return (`k8s.ApiErrors`).
* A field the sources read as `plugin.Version` or `plugin.DataShims` is the
  field of the spec embedded in the plugin (`plugin.PluginSpec.Version`).
-/

namespace datatype

/-- Scheduling status of a plugin: `datatype.Waiting`, `datatype.Ready`,
`datatype.Running`, `datatype.Stopped`. -/
inductive SchedulingStatus where
  | Waiting
  | Ready
  | Running
  | Stopped
  deriving DecidableEq, Repr, Inhabited

/-- Modelled from the spec: the declaration of `datatype.Resource` is not in the
sources at hand; section 3 gives its three components. -/
structure Resource where
  CPU : Nat := 0
  Memory : Nat := 0
  GPUMemory : Nat := 0
  deriving DecidableEq, Repr, Inhabited

/-- Modelled from the spec: the comparison of section 3, "a requirement fits a
capacity iff every component of requirement ≤ corresponding component of
capacity". -/
def Resource.fits (requirement capacity : Resource) : Bool :=
  decide (requirement.CPU ≤ capacity.CPU) && decide (requirement.Memory ≤ capacity.Memory)
    && decide (requirement.GPUMemory ≤ capacity.GPUMemory)

/-- Modelled from the spec: the declaration of `datatype.PluginSpec` is not in
the sources at hand. The sources read `Name`, `Version` and `DataShims`;
section 3 adds the hardware and architecture tags and the resource
requirement. -/
structure PluginSpec where
  Name : String := ""
  Version : String := ""
  Hardware : List String := []
  Architecture : List String := []
  Resource : Resource := {}
  DataShims : List String := []
  deriving DecidableEq, Repr, Inhabited

/-- Modelled from the spec: `datatype.PluginStatus`, of which the sources set
`SchedulingStatus`; section 4.1 says that setting a status also updates its
time stamp (`Since`). -/
structure PluginStatus where
  SchedulingStatus : SchedulingStatus := .Waiting
  Since : Nat := 0
  deriving DecidableEq, Repr, Inhabited

/-- A plugin object, `datatype.Plugin`, with the fields set by
`convertJobTemplateToScienceGoal`. -/
structure Plugin where
  Name : String := ""
  PluginSpec : PluginSpec := {}
  Status : PluginStatus := {}
  deriving DecidableEq, Repr, Inhabited

/-- Address of a plugin object: the value of a `*datatype.Plugin`. -/
abbrev Addr := Nat

/-- The plugin store: the plugin object at every address and the next address
to allocate. -/
structure Heap where
  mem : Addr → Plugin
  next : Addr

/-- Allocation of a fresh plugin object, `&datatype.Plugin{...}`. -/
def Heap.alloc (h : Heap) (p : Plugin) : Heap × Addr :=
  ({ mem := Function.update h.mem h.next p, next := h.next + 1 }, h.next)

/-- Scheduling status of the plugin at an address. -/
def Heap.status (h : Heap) (a : Addr) : SchedulingStatus :=
  (h.mem a).Status.SchedulingStatus

/-- Modelled from the spec: `Plugin.UpdatePluginSchedulingStatus`, not in the
sources at hand; section 4.1, SetStatus "updates status and timestamps". -/
def Plugin.UpdatePluginSchedulingStatus (p : Plugin) (now : Nat)
    (status : SchedulingStatus) : Plugin :=
  { p with Status := { SchedulingStatus := status, Since := now } }

/-- The call `plugin.UpdatePluginSchedulingStatus(status)` through the
pointer `plugin`. -/
def Heap.UpdatePluginSchedulingStatus (h : Heap) (now : Nat) (plugin : Addr)
    (status : SchedulingStatus) : Heap :=
  { h with
    mem := Function.update h.mem plugin ((h.mem plugin).UpdatePluginSchedulingStatus now status) }

/-- Two plugin stores that agree on the name, the spec and the scheduling
status of every plugin; they may differ in the time stamps. -/
def Heap.SameScheduling (h h' : Heap) : Prop :=
  ∀ plugin, (h.mem plugin).Name = (h'.mem plugin).Name ∧
    (h.mem plugin).PluginSpec = (h'.mem plugin).PluginSpec ∧
    h.status plugin = h'.status plugin

/-- A node, `datatype.Node`, of which the node scheduler sets `Name`. -/
structure Node where
  Name : String := ""
  deriving DecidableEq, Repr, Inhabited

/-- A sub-goal, `datatype.SubGoal`: the node it is bound to, the pointers to
its plugins in declaration order, its science rules. -/
structure SubGoal where
  Node : Node := {}
  Plugins : List Addr := []
  Sciencerules : List String := []
  deriving DecidableEq, Repr, Inhabited

/-- A science goal, `datatype.ScienceGoal`. -/
structure ScienceGoal where
  ID : String := ""
  Name : String := ""
  SubGoals : List SubGoal := []
  deriving DecidableEq, Repr, Inhabited

/-- A job template, `datatype.JobTemplate`, with the fields read by
`convertJobTemplateToScienceGoal`: its name and its plugin specs. -/
structure JobTemplate where
  Name : String := ""
  Plugins : List PluginSpec := []
  deriving DecidableEq, Repr, Inhabited

/-- Modelled from the spec: `ScienceGoal.GetMySubGoal`, not in the sources at
hand; section 4.1, `GetSubGoal(goal, nodeID) → SubGoal|not-found`, the
sub-goal "found by matching node identity". -/
def ScienceGoal.GetMySubGoal (g : ScienceGoal) (nodeName : String) : Option SubGoal :=
  g.SubGoals.find? (fun subGoal => subGoal.Node.Name == nodeName)

/-- Modelled from the spec: `SubGoal.GetPlugin`, not in the sources at hand;
section 4.1, `GetPlugin(subGoal, name) → Plugin|not-found`: the first plugin
of the ordered collection that bears the name. -/
def SubGoal.GetPlugin (sg : SubGoal) (h : Heap) (pluginName : String) : Option Addr :=
  sg.Plugins.find? (fun plugin => (h.mem plugin).Name == pluginName)

/-- Kinds of events on the internal queues. The sources name four; any other
kind is `Other`. -/
inductive EventType where
  | EventNewGoal
  | EventPluginStatusLaunched
  | EventPluginStatusComplete
  | EventPluginStatusFailed
  | Other (kind : String)
  deriving DecidableEq, Repr, Inhabited

/-- An event, `datatype.Event`: its kind (`Type` in the sources) and its body. -/
structure Event where
  Typ : EventType
  Body : String
  deriving DecidableEq, Repr, Inhabited

/-- The constructor `datatype.NewEvent(eventType, body)`. -/
def NewEvent (eventType : EventType) (body : String) : Event :=
  { Typ := eventType, Body := body }

/-- Modelled from the spec: `datatype.EventPluginContext`, whose declaration
is not in the sources at hand; section 6, the notifications `{pluginName,
status}` of the rule engine, with the goal id the scheduler reads from it. -/
structure EventPluginContext where
  GoalID : String := ""
  PluginName : String := ""
  Status : String := ""
  deriving DecidableEq, Repr, Inhabited

/-- A credential, `datatype.PluginCredential`, with the two fields the
resource manager sets. -/
structure PluginCredential where
  Username : String := ""
  Password : String := ""
  deriving DecidableEq, Repr, Inhabited

end datatype

namespace nodescheduler

open datatype

/-- What a handler does besides changing the state, in program order. -/
inductive Effect where
  | LogDebug
  | LogInfo
  | LogError
  | CleanUp
  | NeedScheduling (event : Event)
  | SendWaggleMessage (event : Event)
  | LaunchAndWatchPlugin (plugin : Addr)
  | ToScheduler (event : Event)
  | NewGoalToGoalManager (scienceGoal : ScienceGoal)
  deriving DecidableEq, Repr

/-- The goal table `map[string]*datatype.ScienceGoal`. -/
abbrev GoalTable := List (String × ScienceGoal)

/-- Keys of the goal table. -/
def GoalTable.keys (t : GoalTable) : List String := t.map Prod.fst

/-- The map read `t[k]` with its presence flag. -/
def GoalTable.get (t : GoalTable) (k : String) : Option ScienceGoal := List.lookup k t

/-- The map write `t[k] = g`: the entry under `k`, if any, is replaced. -/
def GoalTable.set (t : GoalTable) (k : String) (g : ScienceGoal) : GoalTable :=
  (k, g) :: t.filter (fun e => !(e.1 == k))

/-- The goal manager, `NodeGoalManager`, with the fields the loops read and
write. -/
structure NodeGoalManager where
  ScienceGoals : GoalTable := []
  NodeID : String := ""
  Simulate : Bool := false
  deriving DecidableEq, Repr, Inhabited

/-- `NodeGoalManager.GetScienceGoal`: the goal of the given id, or an error. -/
def NodeGoalManager.GetScienceGoal (ngm : NodeGoalManager) (goalID : String) :
    Except String ScienceGoal :=
  match ngm.ScienceGoals.get goalID with
  | some goal => .ok goal
  | none => .error ("The goal " ++ goalID ++ " does not exist")

/-- State of `NodeScheduler.Run`: the scheduler's fields, the local variable
`currentGoalID` and the plugin store. -/
structure NodeScheduler where
  NodeID : String := ""
  GoalManager : NodeGoalManager := {}
  currentGoalID : String := ""
  heap : Heap

/-- The scheduler state after `plugin.UpdatePluginSchedulingStatus(status)`. -/
def NodeScheduler.setStatus (ns : NodeScheduler) (now : Nat) (plugin : Addr)
    (status : SchedulingStatus) : NodeScheduler :=
  { ns with heap := ns.heap.UpdatePluginSchedulingStatus now plugin status }

/-- The body shared by the cases of the `switch event.Type` of
`NodeScheduler.Run` (lines 136-145 and 147-156): look the goal up, find the
plugin in the sub-goal of this node, set its status and forward the event.
The source calls `GetPlugin` on the result of `GetMySubGoal` without a nil
check; what that call does on a nil sub-goal is decided by code that is not in
the sources at hand, and the handler stops there (`none`). -/
def NodeScheduler.updatePluginStatus (ns : NodeScheduler) (now : Nat) (event : Event)
    (status : SchedulingStatus) : Option (NodeScheduler × List Effect) :=
  match ns.GoalManager.GetScienceGoal ns.currentGoalID with
  | .error _ => some (ns, [Effect.LogError])
  | .ok scienceGoal =>
    match scienceGoal.GetMySubGoal ns.NodeID with
    | none => none
    | some subGoal =>
      match subGoal.GetPlugin ns.heap event.Body with
      | none => some (ns, [])
      | some plugin =>
        some (ns.setStatus now plugin status, [Effect.SendWaggleMessage event])

/-- The case `event := <-ns.chanFromResourceManager` of `NodeScheduler.Run`. -/
def NodeScheduler.fromResourceManager (ns : NodeScheduler) (now : Nat) (event : Event) :
    Option (NodeScheduler × List Effect) :=
  let switched : Option (NodeScheduler × List Effect) :=
    match event.Typ with
    | .EventPluginStatusLaunched => ns.updatePluginStatus now event .Running
    | .EventPluginStatusComplete => ns.updatePluginStatus now event .Waiting
    | .EventPluginStatusFailed => ns.updatePluginStatus now event .Waiting
    | _ => some (ns, [])
  switched.map fun r => (r.1, [Effect.LogDebug] ++ r.2 ++ [Effect.NeedScheduling event])

/-- The case `event := <-ns.chanFromGoalManager` of `NodeScheduler.Run`. -/
def NodeScheduler.fromGoalManager (ns : NodeScheduler) (event : Event) :
    NodeScheduler × List Effect :=
  ({ ns with currentGoalID := event.Body },
   [Effect.LogDebug, Effect.CleanUp, Effect.NeedScheduling event])

/-- The scheduling policy `ns.SchedulingPolicy.SimpleScheduler`. Its code is
not in the sources at hand, so `NodeScheduler.Run` is modelled over any policy:
`PromotePlugins` may change the plugin store, `SelectBestTask` returns the
pair `(plugin, err)` of a plugin pointer (or nil) and an error (or nil). -/
structure SchedulingPolicy where
  PromotePlugins : Heap → Nat → Option SubGoal → Heap
  SelectBestTask : Heap → GoalTable → Resource → String → Option Addr × Option String

/-- The plugins of the sub-goals of a node over the goal table: goals in the
order of the table, plugins in declaration order within a goal. -/
def localPlugins (scienceGoals : GoalTable) (nodeID : String) : List Addr :=
  scienceGoals.flatMap fun e =>
    match e.2.GetMySubGoal nodeID with
    | none => []
    | some subGoal => subGoal.Plugins

/-- Modelled from the spec: the body of the loop of `PromotePlugins`, section
4.3: a plugin that is Waiting and whose rules are satisfied becomes Ready.
Rule satisfaction is decided by the knowledgebase, here `rulesSatisfied` on
the name of the plugin (constantly true in the no-rules mode). -/
def policy.SimpleScheduler.promoteOne (rulesSatisfied : String → Bool) (now : Nat) (h : Heap)
    (plugin : Addr) : Heap :=
  if h.status plugin = SchedulingStatus.Waiting ∧ rulesSatisfied (h.mem plugin).Name = true then
    h.UpdatePluginSchedulingStatus now plugin SchedulingStatus.Ready
  else h

/-- Modelled from the spec: `SimpleScheduler.PromotePlugins`, not in the
sources at hand; section 4.3, "for every Plugin in the SubGoal currently
Waiting, evaluate whether its registered rules are satisfied and, if so,
transition it to Ready". A sub-goal that was not found has no plugin. -/
def policy.SimpleScheduler.PromotePlugins (rulesSatisfied : String → Bool) (h : Heap) (now : Nat)
    (subGoal : Option SubGoal) : Heap :=
  match subGoal with
  | none => h
  | some sg => sg.Plugins.foldl (policy.SimpleScheduler.promoteOne rulesSatisfied now) h

/-- Modelled from the spec: `SimpleScheduler.SelectBestTask`, not in the
sources at hand; section 4.3, "iterate goals in a stable order, within a goal
iterate plugins in declaration order, and return the first Ready plugin whose
resource requirement fits the supplied availableResource", nil and no error
when there is none. -/
def policy.SimpleScheduler.SelectBestTask (h : Heap) (scienceGoals : GoalTable)
    (availableResource : Resource) (nodeID : String) : Option Addr × Option String :=
  ((localPlugins scienceGoals nodeID).find? (fun plugin =>
    h.status plugin == SchedulingStatus.Ready
      && (h.mem plugin).PluginSpec.Resource.fits availableResource), none)

/-- Modelled from the spec: the policy of section 4.3 as a `SchedulingPolicy`. -/
def policy.SimpleScheduler (rulesSatisfied : String → Bool) : SchedulingPolicy :=
  { PromotePlugins := policy.SimpleScheduler.PromotePlugins rulesSatisfied
    SelectBestTask := policy.SimpleScheduler.SelectBestTask }

/-- The resource handed to `SelectBestTask` by `NodeScheduler.Run` (lines
203-207). -/
def availableResource : Resource :=
  { CPU := 999999, Memory := 999999, GPUMemory := 999999 }

/-- The first loop of the scheduling pass (lines 195-199): `PromotePlugins` on
the sub-goal of this node of every goal of the table. -/
def NodeScheduler.promote (ns : NodeScheduler) (policy : SchedulingPolicy) (now : Nat) :
    NodeScheduler :=
  { ns with
    heap := ns.GoalManager.ScienceGoals.foldl
      (fun h e => policy.PromotePlugins h now (e.2.GetMySubGoal ns.GoalManager.NodeID)) ns.heap }

/-- The scheduling pass after selection (lines 210-222), on the result of
`SelectBestTask`. `WillItFit` is `ResourceManager.WillItFit`, whose code is
not in the sources at hand: any function of the plugin store and the pointer. -/
def NodeScheduler.afterSelection (ns : NodeScheduler) (WillItFit : Heap → Addr → Bool)
    (now : Nat) (selected : Option Addr × Option String) : NodeScheduler × List Effect :=
  match selected.2 with
  | some _ => (ns, [Effect.LogError])
  | none =>
    match selected.1 with
    | none => (ns, [])
    | some plugin =>
      if WillItFit ns.heap plugin then
        (ns.setStatus now plugin .Ready, [Effect.LogDebug, Effect.LaunchAndWatchPlugin plugin])
      else
        (ns, [Effect.LogDebug])

/-- The result of `SelectBestTask` in a scheduling pass: the policy is asked
after promotion, with the goal table, `availableResource` and the node id of
the goal manager. -/
def NodeScheduler.selected (ns : NodeScheduler) (policy : SchedulingPolicy) (now : Nat) :
    Option Addr × Option String :=
  policy.SelectBestTask (ns.promote policy now).heap ns.GoalManager.ScienceGoals
    availableResource ns.GoalManager.NodeID

/-- The case `event := <-ns.chanNeedScheduling` of `NodeScheduler.Run`: one
scheduling pass. The event is only logged. -/
def NodeScheduler.needScheduling (ns : NodeScheduler) (policy : SchedulingPolicy)
    (WillItFit : Heap → Addr → Bool) (now : Nat) (_event : Event) :
    NodeScheduler × List Effect :=
  let r := (ns.promote policy now).afterSelection WillItFit now (ns.selected policy now)
  (r.1, [Effect.LogDebug]
        ++ List.replicate ns.GoalManager.ScienceGoals.length Effect.LogDebug ++ r.2)

/-- What the loop received: the `select` of `NodeScheduler.Run`. -/
inductive Received where
  | FromGoalManager (event : Event)
  | FromResourceManager (event : Event)
  | NeedScheduling (event : Event)
  deriving DecidableEq, Repr

/-- One iteration of the loop of `NodeScheduler.Run`. -/
def NodeScheduler.Run (ns : NodeScheduler) (policy : SchedulingPolicy)
    (WillItFit : Heap → Addr → Bool) (now : Nat) (received : Received) :
    Option (NodeScheduler × List Effect) :=
  match received with
  | .FromGoalManager event => some (ns.fromGoalManager event)
  | .FromResourceManager event => ns.fromResourceManager now event
  | .NeedScheduling event => some (ns.needScheduling policy WillItFit now event)

/-- The plugins handed to `LaunchAndWatchPlugin`, in order. -/
def launched (effects : List Effect) : List Addr :=
  effects.filterMap fun e =>
    match e with
    | .LaunchAndWatchPlugin plugin => some plugin
    | _ => none

/-- The events sent on `chanNeedScheduling`, in order. -/
def triggers (effects : List Effect) : List Event :=
  effects.filterMap fun e =>
    match e with
    | .NeedScheduling event => some event
    | _ => none

/-- The loop of `convertJobTemplateToScienceGoal` (lines 117-125): one fresh
plugin object per plugin spec, Waiting, appended to the plugins of the
sub-goal. -/
def NodeGoalManager.appendPlugins (h : Heap) (plugins : List Addr)
    (pluginSpecs : List PluginSpec) : Heap × List Addr :=
  pluginSpecs.foldl
    (fun acc pluginSpec =>
      let r := acc.1.alloc
        { Name := pluginSpec.Name
          PluginSpec := pluginSpec
          Status := { SchedulingStatus := SchedulingStatus.Waiting } }
      (r.1, acc.2 ++ [r.2]))
    (h, plugins)

/-- `NodeGoalManager.convertJobTemplateToScienceGoal`. The string `u` is the
id drawn by `uuid.NewV4()`, whose generation is taken to succeed. The result
is the plugin store after the allocations and the pair returned by the
function. -/
def NodeGoalManager.convertJobTemplateToScienceGoal (gm : NodeGoalManager) (h : Heap)
    (u : String) (job : JobTemplate) : Heap × Except String ScienceGoal :=
  let r := NodeGoalManager.appendPlugins h [] job.Plugins
  let subGoal : SubGoal := { Node := { Name := gm.NodeID }, Plugins := r.2 }
  (r.1, .ok { ID := u, Name := job.Name, SubGoals := [subGoal] })

/-- The case `scienceGoal := <-ngm.chanNewGoalToGoalManager` of
`NodeGoalManager.Run`: one iteration of its loop. -/
def NodeGoalManager.Run (ngm : NodeGoalManager) (scienceGoal : ScienceGoal) :
    NodeGoalManager × List Effect :=
  ({ ngm with ScienceGoals := ngm.ScienceGoals.set scienceGoal.Name scienceGoal },
   [Effect.LogInfo, Effect.ToScheduler (NewEvent EventType.EventNewGoal scienceGoal.Name)])

/-- Kinds of watch events, `watch.EventType` of the Kubernetes client. -/
inductive WatchEventType where
  | Added
  | Modified
  | Deleted
  | Bookmark
  | Error
  deriving DecidableEq, Repr, Inhabited

/-- The object of a watch event, as far as the type assertion
`event.Object.(*apiv1.ConfigMap)` tells: a ConfigMap with its `Data`, or
anything else. -/
inductive WatchObject where
  | ConfigMap (Data : List (String × String))
  | NotConfigMap
  deriving DecidableEq, Repr, Inhabited

/-- A watch event, `watch.Event`. -/
structure WatchEvent where
  Typ : WatchEventType
  Object : WatchObject
  deriving DecidableEq, Repr, Inhabited

/-- The map read `Data[key]`: the empty string when the key is absent. -/
def configMapData (Data : List (String × String)) (key : String) : String :=
  (List.lookup key Data).getD ""

/-- The body of the loop of `NodeGoalManager.pullGoalsFromK3S` on one watch
event (lines 87-107). `Unmarshal` is `yaml.Unmarshal` into a job template, a
library function taken as a parameter; `u` is the id drawn for the goal. -/
def NodeGoalManager.pullGoalsFromK3S (ngm : NodeGoalManager)
    (Unmarshal : String → Except String JobTemplate) (h : Heap) (u : String)
    (event : WatchEvent) : Heap × List Effect :=
  match event.Typ with
  | .Added | .Modified =>
    match event.Object with
    | .ConfigMap Data =>
      match Unmarshal (configMapData Data "goals") with
      | .error _ => (h, [Effect.LogDebug, Effect.LogError])
      | .ok jobTemplate =>
        match ngm.convertJobTemplateToScienceGoal h u jobTemplate with
        | (h1, .error _) => (h1, [Effect.LogDebug, Effect.LogError])
        | (h1, .ok scienceGoal) =>
          (h1, [Effect.LogDebug, Effect.NewGoalToGoalManager scienceGoal])
    | .NotConfigMap => (h, [])
  | _ => (h, [])

/-- The goals sent on `chanNewGoalToGoalManager`, in order. -/
def submitted (effects : List Effect) : List ScienceGoal :=
  effects.filterMap fun e =>
    match e with
    | .NewGoalToGoalManager scienceGoal => some scienceGoal
    | _ => none

/-- The events sent to the scheduler by the goal manager, in order. -/
def toScheduler (effects : List Effect) : List Event :=
  effects.filterMap fun e =>
    match e with
    | .ToScheduler event => some event
    | _ => none

/-- One update of the goal source seen through to the goal table: the watch
event is handled by `pullGoalsFromK3S` and every goal it sent is received by
`NodeGoalManager.Run`. -/
def NodeGoalManager.goalSourceUpdate (ngm : NodeGoalManager)
    (Unmarshal : String → Except String JobTemplate) (h : Heap) (u : String)
    (event : WatchEvent) : NodeGoalManager × Heap :=
  let r := ngm.pullGoalsFromK3S Unmarshal h u event
  ((submitted r.2).foldl (fun gm scienceGoal => (gm.Run scienceGoal).1) ngm, r.1)

/-- A parser that accepts exactly the text `ok`, as the template `job1` with
one plugin. -/
def sampleUnmarshal (text : String) : Except String JobTemplate :=
  if text = "ok" then .ok { Name := "job1", Plugins := [{ Name := "p1", Version := "0.1" }] }
  else .error "yaml: unmarshal errors"

/-- The plugin object built by `convertJobTemplateToScienceGoal` for one
plugin spec (lines 118-124): name and spec of the spec, status Waiting. -/
def NodeGoalManager.newPlugin (pluginSpec : PluginSpec) : Plugin :=
  { Name := pluginSpec.Name
    PluginSpec := pluginSpec
    Status := { SchedulingStatus := SchedulingStatus.Waiting } }

/-- The scenario of section 8: plugin `p1` (address 0) requires
`{cpu:1, mem:1, gpu:0}`, plugin `p2` (address 1) requires `{cpu:4, mem:4,
gpu:0}`, both Ready. -/
def scenarioHeap : Heap :=
  { mem := fun a =>
      if a = 0 then
        { Name := "p1", PluginSpec := { Name := "p1", Resource := { CPU := 1, Memory := 1 } },
          Status := { SchedulingStatus := .Ready } }
      else
        { Name := "p2", PluginSpec := { Name := "p2", Resource := { CPU := 4, Memory := 4 } },
          Status := { SchedulingStatus := .Ready } },
    next := 2 }

/-- The goal table of the scenario of section 8: goal `G1` with the sub-goal of
node `n1` holding the plugins in the given order. -/
def scenarioTable (plugins : List Addr) : GoalTable :=
  [("G1", { ID := "u1", Name := "G1",
            SubGoals := [{ Node := { Name := "n1" }, Plugins := plugins }] })]

/-- A state whose active goal id is stale: the table holds one goal, the active
id names another. -/
def staleState : NodeScheduler :=
  { NodeID := "n1"
    GoalManager :=
      { ScienceGoals := [("g1", { ID := "u1", Name := "g1",
                                  SubGoals := [{ Node := { Name := "n1" }, Plugins := [0] }] })]
        NodeID := "n1" }
    currentGoalID := "gone"
    heap := { mem := fun _ => { Name := "p1" }, next := 1 } }

/-- A goal `g1` whose sub-goal for node `n1` holds two plugins, at the
addresses 0 and 1. -/
def liveGoal : ScienceGoal :=
  { ID := "u1", Name := "g1", SubGoals := [{ Node := { Name := "n1" }, Plugins := [0, 1] }] }

/-- A state whose active goal is in the table: `liveGoal`, with plugin `p1`
(address 0, Waiting) and plugin `p2` (address 1, Ready). -/
def liveState : NodeScheduler :=
  { NodeID := "n1"
    GoalManager := { ScienceGoals := [("g1", liveGoal)], NodeID := "n1" }
    currentGoalID := "g1"
    heap := { mem := fun a => if a = 0 then { Name := "p1" }
                              else { Name := "p2", Status := { SchedulingStatus := .Ready } },
              next := 2 } }

end nodescheduler

namespace strings

/-- `unicode.ToLower` on one rune: on ASCII the capital letters are shifted
to the small ones; beyond ASCII the result comes from the case tables of the
library, here `table`. -/
def toLowerRune (table : Char → Char) (r : Char) : Char :=
  if r.toNat < 128 then r.toLower else table r

/-- `strings.ToLower`: every rune of the string is lowered. -/
def ToLower (table : Char → Char) (s : String) : String :=
  ⟨s.data.map (toLowerRune table)⟩

/-- `strings.Join(elems, sep)`. -/
def Join (elems : List String) (sep : String) : String :=
  sep.intercalate elems

end strings

namespace path

/-- The inner loop of the `..` case of `Clean`: from the write index `w`, step
back while `w` is beyond `dotdot` and the byte at `w` is not a slash. -/
def Clean.backtrack (buf : List Char) (dotdot : Nat) : Nat → Nat
  | 0 => 0
  | w + 1 =>
    if w + 1 > dotdot ∧ buf.getD (w + 1) '/' ≠ '/' then Clean.backtrack buf dotdot w else w + 1

/-- The loop `for r < n` of `Clean` of the Go library `path`: the part of the
path still to read, the buffer written so far and the index `dotdot`. Every
turn reads at least one byte, so as many turns as the path has bytes are
enough (`fuel`). A slash and a dot are single bytes of UTF-8 and no other
character holds them, so the bytes of the Go string are read as characters. -/
def Clean.loop (rooted : Bool) : Nat → List Char → List Char → Nat → List Char
  | 0, _, out, _ => out
  | _ + 1, [], out, _ => out
  | fuel + 1, c :: rest, out, dotdot =>
    if c = '/' then
      Clean.loop rooted fuel rest out dotdot
    else if c = '.' ∧ (rest = [] ∨ rest.head? = some '/') then
      Clean.loop rooted fuel rest out dotdot
    else if c = '.' ∧ rest.head? = some '.' ∧ (rest.tail = [] ∨ rest.tail.head? = some '/') then
      if out.length > dotdot then
        Clean.loop rooted fuel rest.tail
          (out.take (Clean.backtrack out dotdot (out.length - 1))) dotdot
      else if !rooted then
        let out1 := (if out.length > 0 then out ++ ['/'] else out) ++ ['.', '.']
        Clean.loop rooted fuel rest.tail out1 out1.length
      else
        Clean.loop rooted fuel rest.tail out dotdot
    else
      let out1 :=
        if (rooted && out.length != 1) || (!rooted && out.length != 0) then out ++ ['/'] else out
      Clean.loop rooted fuel ((c :: rest).dropWhile (fun b => b != '/'))
        (out1 ++ (c :: rest).takeWhile (fun b => b != '/')) dotdot

/-- `path.Clean` of the Go library: the shortest path equivalent to `path` by
purely lexical processing (slashes collapsed, `.` elements dropped, `..`
elements resolved against the element before them). -/
def Clean (path : String) : String :=
  if path = "" then "."
  else
    let rooted := path.data.head? = some '/'
    let out :=
      if rooted then Clean.loop true path.length path.data.tail ['/'] 1
      else Clean.loop false path.length path.data [] 0
    if out.length = 0 then "." else String.mk out

/-- `path.Join` of the Go library: the elements from the first non-empty one
on, joined with slashes, and the result cleaned; the empty string when every
element is empty. -/
def Join (elem : List String) : String :=
  match elem.dropWhile (fun e => e == "") with
  | [] => ""
  | rest => Clean (strings.Join rest "/")

/-- A plain path element: not empty, without a slash, and neither `.` nor
`..`. -/
def plainElement (e : String) : Bool :=
  decide (e.data ≠ [] ∧ '/' ∉ e.data ∧ e.data ≠ ['.'] ∧ e.data ≠ ['.', '.'])

end path

namespace hex

/-- The digits of `encoding/hex`. -/
def hextable : List Char := "0123456789abcdef".data

/-- `hex.EncodeToString`: two digits per byte, high half first. A byte is a
natural number taken modulo 256. -/
def EncodeToString (src : List Nat) : String :=
  ⟨src.flatMap fun v =>
    [hextable.getD ((v % 256) / 16) '0', hextable.getD ((v % 256) % 16) '0']⟩

end hex

namespace knowledgebase

open datatype

/-- A request to the knowledgebase, `RequestToKB`; `Result` is an
`interface{}`, nil when the request is built. -/
structure RequestToKB where
  ReturnCode : Int := 0
  Command : String := ""
  Args : List String := []
  Result : Option String := none
  deriving DecidableEq, Repr, Inhabited

/-- What the functions of the knowledgebase do, in program order: log lines,
sends on `chanToKB` and on `chanContextEventToScheduler`, and the send on
`chanExit` that ends the listener. -/
inductive Effect where
  | LogInfo
  | LogError
  | ToKB (request : RequestToKB)
  | ContextEventToScheduler (event : EventPluginContext)
  | Exit (err : String)
  deriving DecidableEq, Repr

/-- `Knowledgebase.RegisterRules`. The result is what the function did and
whether it returned. The field read `mySubGoal.Sciencerules` goes through the
pointer returned by `GetMySubGoal` without a nil check: when no sub-goal is
found the function stops there with a nil dereference, after the log line and
before anything is sent. -/
def Knowledgebase.RegisterRules (scienceGoal : ScienceGoal) (nodeName : String) :
    List Effect × Bool :=
  match scienceGoal.GetMySubGoal nodeName with
  | none => ([Effect.LogInfo], false)
  | some mySubGoal =>
    ([Effect.LogInfo,
      Effect.ToKB { Command := "rule", Args := [scienceGoal.ID] ++ mySubGoal.Sciencerules }],
     true)

/-- The requests sent on `chanToKB`, in order. -/
def requests (effects : List Effect) : List RequestToKB :=
  effects.filterMap fun e =>
    match e with
    | .ToKB request => some request
    | _ => none

/-- The events sent on `chanContextEventToScheduler`, in order. -/
def forwarded (effects : List Effect) : List EventPluginContext :=
  effects.filterMap fun e =>
    match e with
    | .ContextEventToScheduler event => some event
    | _ => none

/-- One turn of the receive loop of the event listener of `Knowledgebase.Run`
(lines 59-73), on the outcome `frame` of `socket.RecvFrame()`. `Unmarshal` is
`json.Unmarshal` into a plugin-context event, `table` the case table of
`strings.ToLower`. The result is what the turn did and whether the loop goes
on to the next message. -/
def Knowledgebase.Run (Unmarshal : String → Except String EventPluginContext)
    (table : Char → Char) (frame : Except String String) : List Effect × Bool :=
  match frame with
  | .error err => ([Effect.Exit err], false)
  | .ok byteMessage =>
    match Unmarshal byteMessage with
    | .error _ => ([Effect.LogError], true)
    | .ok event =>
      ([Effect.ContextEventToScheduler
          { event with PluginName := strings.ToLower table event.PluginName },
        Effect.LogInfo], true)

/-- A goal with science rules on the sub-goal of node `n1` and a sub-goal of
another node before it. -/
def ruledGoal : ScienceGoal :=
  { ID := "u7", Name := "g7",
    SubGoals := [{ Node := { Name := "n0" }, Sciencerules := ["r0"] },
                 { Node := { Name := "n1" }, Plugins := [0], Sciencerules := ["r1", "r2"] }] }

/-- A parser of frames that accepts exactly the text `ok`. -/
def sampleFrameUnmarshal (text : String) : Except String EventPluginContext :=
  if text = "ok" then .ok { GoalID := "g7", PluginName := "Plugin-A", Status := "Runnable" }
  else .error "invalid character"

end knowledgebase

namespace k8s

/-- Object metadata, `metav1.ObjectMeta`, with the fields the resource manager
sets. -/
structure ObjectMeta where
  Name : String := ""
  Namespace : String := ""
  Labels : List (String × String) := []
  deriving DecidableEq, Repr, Inhabited

/-- A host path volume source, `apiv1.HostPathVolumeSource`; `Typ` is its
`Type`. -/
structure HostPathVolumeSource where
  Path : String := ""
  Typ : String := ""
  deriving DecidableEq, Repr, Inhabited

/-- A volume, `apiv1.Volume`: its name and, of its volume source, the host
path and the name of the config map. -/
structure Volume where
  Name : String := ""
  HostPath : Option HostPathVolumeSource := none
  ConfigMap : Option String := none
  deriving DecidableEq, Repr, Inhabited

/-- A volume mount, `apiv1.VolumeMount`. -/
structure VolumeMount where
  Name : String := ""
  MountPath : String := ""
  SubPath : String := ""
  deriving DecidableEq, Repr, Inhabited

/-- An environment variable, `apiv1.EnvVar`. -/
structure EnvVar where
  Name : String := ""
  Value : String := ""
  deriving DecidableEq, Repr, Inhabited

/-- A container, `apiv1.Container`; `EnvFrom` lists the names of the config
maps referred to; the resource requirements are the empty lists of the
source. -/
structure Container where
  Name : String := ""
  Image : String := ""
  Env : List EnvVar := []
  EnvFrom : List String := []
  VolumeMounts : List VolumeMount := []
  deriving DecidableEq, Repr, Inhabited

/-- A pod spec, `apiv1.PodSpec`. -/
structure PodSpec where
  Containers : List Container := []
  Volumes : List Volume := []
  deriving DecidableEq, Repr, Inhabited

/-- A pod template, `apiv1.PodTemplateSpec`. -/
structure PodTemplateSpec where
  ObjectMeta : ObjectMeta := {}
  Spec : PodSpec := {}
  deriving DecidableEq, Repr, Inhabited

/-- A label selector, `metav1.LabelSelector`. -/
structure LabelSelector where
  MatchLabels : List (String × String) := []
  deriving DecidableEq, Repr, Inhabited

/-- A deployment spec, `appsv1.DeploymentSpec`; `Replicas` and `Selector` are
pointers. -/
structure DeploymentSpec where
  Replicas : Option Int := none
  Selector : Option LabelSelector := none
  Template : PodTemplateSpec := {}
  deriving DecidableEq, Repr, Inhabited

/-- A deployment, `appsv1.Deployment`. -/
structure Deployment where
  ObjectMeta : ObjectMeta := {}
  Spec : DeploymentSpec := {}
  deriving DecidableEq, Repr, Inhabited

/-- A config map, `apiv1.ConfigMap`. -/
structure ConfigMap where
  Name : String := ""
  Data : List (String × String) := []
  deriving DecidableEq, Repr, Inhabited

/-- The cluster as the client set shows it in one namespace: its config maps
and its deployments. -/
structure Cluster where
  ConfigMaps : List ConfigMap := []
  Deployments : List Deployment := []
  deriving DecidableEq, Repr, Inhabited

/-- The errors the calls to the API server return during one operation, nil
(`none`) for a call that succeeds. -/
structure ApiErrors where
  ListConfigMaps : Option String := none
  CreateConfigMap : Option String := none
  ListDeployments : Option String := none
  DeleteDeployment : Option String := none
  deriving DecidableEq, Repr, Inhabited

end k8s

namespace nodescheduler

open datatype

/-- Library functions the resource manager calls and that are parameters:
the case table of `strings.ToLower` and `json.Marshal` of a list of data
shims. -/
structure Library where
  ToLowerTable : Char → Char
  JsonMarshal : List String → Except String String

/-- The resource manager, `ResourceManager`: its namespace and, of the
registry URL `ECRRegistry`, the path. -/
structure ResourceManager where
  Namespace : String := ""
  ECRRegistry : String := ""
  deriving DecidableEq, Repr, Inhabited

/-- What the resource manager does besides returning, in program order: log
lines, the dump printed by `CreateK3SDeployment`, and the writes it sends to
the API server. -/
inductive Call where
  | LogInfo
  | LogError
  | Print
  | CreateConfigMap (config : k8s.ConfigMap)
  | DeleteDeployment (name : String)
  deriving DecidableEq, Repr

/-- The names of the deployments the resource manager asked to delete. -/
def deleted (calls : List Call) : List String :=
  calls.filterMap fun c =>
    match c with
    | .DeleteDeployment name => some name
    | _ => none

/-- `generatePassword`. `read` is the outcome of `rand.Read(b)` on the 16
bytes of `b`: an error, on which the function panics (`none`), or the random
source, byte `i` of `b` being `random i` modulo 256. -/
def generatePassword (read : Except String (Nat → Nat)) : Option String :=
  match read with
  | .error _ => none
  | .ok random => some (hex.EncodeToString ((List.range 16).map fun i => random i % 256))

/-- `ResourceManager.CreatePluginCredential`: the credential and the error, or
`none` when `generatePassword` panics. -/
def ResourceManager.CreatePluginCredential (_rm : ResourceManager) (table : Char → Char)
    (read : Except String (Nat → Nat)) (plugin : Plugin) :
    Option (PluginCredential × Option String) :=
  match generatePassword read with
  | none => none
  | some password =>
    some ({ Username := strings.Join
              [strings.ToLower table plugin.Name, plugin.PluginSpec.Version] "-"
            Password := password }, none)

/-- `ResourceManager.CreateDataConfigMap`: the cluster afterwards, the calls
made and the error returned. -/
def ResourceManager.CreateDataConfigMap (_rm : ResourceManager) (lib : Library)
    (errs : k8s.ApiErrors) (cluster : k8s.Cluster) (configName : String)
    (datashims : List String) : k8s.Cluster × List Call × Option String :=
  match errs.ListConfigMaps with
  | some err => (cluster, [], some err)
  | none =>
    if cluster.ConfigMaps.any (fun c => c.Name == configName) then
      (cluster, [Call.LogInfo], none)
    else
      match lib.JsonMarshal datashims with
      | .error err => (cluster, [], some err)
      | .ok data =>
        let config : k8s.ConfigMap :=
          { Name := configName, Data := [("data-config.json", data)] }
        match errs.CreateConfigMap with
        | some err => (cluster, [Call.CreateConfigMap config], some err)
        | none =>
          ({ cluster with ConfigMaps := cluster.ConfigMaps ++ [config] },
           [Call.CreateConfigMap config], none)

/-- The volume `uploads` of `CreateK3SDeployment` (lines 78-88). -/
def uploadsVolume (pluginNameInLowcase version : String) : k8s.Volume :=
  { Name := "uploads"
    HostPath := some
      { Path := path.Join ["/media/plugin-data/uploads", pluginNameInLowcase, version]
        Typ := "DirectoryOrCreate" } }

/-- The volume mount `uploads` of `CreateK3SDeployment` (lines 89-94). -/
def uploadsMount : k8s.VolumeMount :=
  { Name := "uploads", MountPath := "/run/waggle/uploads" }

/-- The deployment object built by `CreateK3SDeployment` (lines 124-199) from
the volumes and mounts collected so far. -/
def ResourceManager.deployment (rm : ResourceManager) (plugin : Plugin)
    (credential : PluginCredential) (pluginNameInLowcase : String)
    (specVolumes : List k8s.Volume) (containerVoumeMounts : List k8s.VolumeMount) :
    k8s.Deployment :=
  { ObjectMeta := { Name := pluginNameInLowcase, Namespace := rm.Namespace }
    Spec :=
      { Replicas := some 1
        Selector := some { MatchLabels := [("app", pluginNameInLowcase)] }
        Template :=
          { ObjectMeta := { Labels := [("app", pluginNameInLowcase), ("role", "plugin")] }
            Spec :=
              { Containers :=
                  [{ Name := pluginNameInLowcase
                     Image := path.Join
                       [rm.ECRRegistry,
                        strings.Join [plugin.Name, plugin.PluginSpec.Version] ":"]
                     Env :=
                       [{ Name := "WAGGLE_PLUGIN_NAME",
                          Value := strings.Join [plugin.Name, plugin.PluginSpec.Version] ":" },
                        { Name := "WAGGLE_PLUGIN_VERSION", Value := plugin.PluginSpec.Version },
                        { Name := "WAGGLE_PLUGIN_USERNAME", Value := credential.Username },
                        { Name := "WAGGLE_PLUGIN_PASSWORD", Value := credential.Password },
                        { Name := "WAGGLE_PLUGIN_HOST", Value := "rabbitmq-server" },
                        { Name := "WAGGLE_PLUGIN_PORT", Value := "5672" }]
                     EnvFrom := ["waggle-config"]
                     VolumeMounts := containerVoumeMounts }]
                Volumes := specVolumes } } } }

/-- `ResourceManager.CreateK3SDeployment`: the cluster afterwards, the calls
made, and the pair (deployment, error) returned. -/
def ResourceManager.CreateK3SDeployment (rm : ResourceManager) (lib : Library)
    (errs : k8s.ApiErrors) (cluster : k8s.Cluster) (plugin : Plugin)
    (credential : PluginCredential) :
    k8s.Cluster × List Call × Option k8s.Deployment × Option String :=
  let pluginNameInLowcase := strings.ToLower lib.ToLowerTable plugin.Name
  let specVolumes := [uploadsVolume pluginNameInLowcase plugin.PluginSpec.Version]
  let containerVoumeMounts := [uploadsMount]
  if plugin.PluginSpec.DataShims.length > 0 then
    let configMapName :=
      strings.ToLower lib.ToLowerTable ("waggle-data-config-" ++ pluginNameInLowcase)
    match rm.CreateDataConfigMap lib errs cluster configMapName plugin.PluginSpec.DataShims with
    | (cluster1, calls, some err) => (cluster1, calls, none, some err)
    | (cluster1, calls, none) =>
      (cluster1, calls ++ [Call.Print],
       some (rm.deployment plugin credential pluginNameInLowcase
         (specVolumes ++ [{ Name := "waggle-data-config", ConfigMap := some configMapName }])
         (containerVoumeMounts ++
           [{ Name := "waggle-data-config", MountPath := "/run/waggle",
              SubPath := "data-config.json" }])),
       none)
  else
    (cluster, [Call.Print],
     some (rm.deployment plugin credential pluginNameInLowcase specVolumes
       containerVoumeMounts), none)

/-- `ResourceManager.TerminatePlugin`: the cluster afterwards, the calls made
and the error returned. A delete the API server accepts removes the deployment
of that name from the namespace. -/
def ResourceManager.TerminatePlugin (_rm : ResourceManager) (lib : Library)
    (errs : k8s.ApiErrors) (cluster : k8s.Cluster) (pluginName : String) :
    k8s.Cluster × List Call × Option String :=
  let pluginNameInLowcase := strings.ToLower lib.ToLowerTable pluginName
  match errs.ListDeployments with
  | some err => (cluster, [], some err)
  | none =>
    if cluster.Deployments.any (fun d => d.ObjectMeta.Name == pluginNameInLowcase) then
      match errs.DeleteDeployment with
      | some err => (cluster, [Call.DeleteDeployment pluginNameInLowcase], some err)
      | none =>
        ({ cluster with
           Deployments := cluster.Deployments.filter
             (fun d => !(d.ObjectMeta.Name == pluginNameInLowcase)) },
         [Call.DeleteDeployment pluginNameInLowcase, Call.LogInfo], none)
    else
      (cluster, [Call.LogError], none)

/-- A library for sample runs: no rune beyond ASCII is changed, the shims are
marshalled to a fixed text. -/
def sampleLibrary : Library :=
  { ToLowerTable := id
    JsonMarshal := fun _ => .ok "[]" }

/-- A plugin for sample runs, with capital letters in its name and one data
shim. -/
def samplePlugin : Plugin :=
  { Name := "Plugin-A", PluginSpec := { Name := "Plugin-A", Version := "0.1.0",
                                        DataShims := ["shim"] } }

/-- A plugin whose name is the parent-directory element `..`. -/
def parentNamedPlugin : Plugin :=
  { Name := "..", PluginSpec := { Name := "..", Version := "1.0" } }

/-- A plugin without a version. -/
def unversionedPlugin : Plugin :=
  { Name := "Plugin-A", PluginSpec := { Name := "Plugin-A" } }

/-- A resource manager for sample runs. -/
def sampleManager : ResourceManager :=
  { Namespace := "ses", ECRRegistry := "waggle/" }

/-- A credential for sample runs. -/
def sampleCredential : PluginCredential :=
  { Username := "plugin-a-0.1.0", Password := "00" }

/-- The config map of the data shims of `samplePlugin`. -/
def sampleConfigMap : k8s.ConfigMap :=
  { Name := "waggle-data-config-plugin-a", Data := [("data-config.json", "[]")] }

/-- The deployment of `samplePlugin`, with both volumes and both mounts. -/
def sampleDeployment : k8s.Deployment :=
  sampleManager.deployment samplePlugin sampleCredential "plugin-a"
    [uploadsVolume "plugin-a" "0.1.0",
     { Name := "waggle-data-config", ConfigMap := some "waggle-data-config-plugin-a" }]
    [uploadsMount,
     { Name := "waggle-data-config", MountPath := "/run/waggle", SubPath := "data-config.json" }]

/-- A cluster with three deployments, one of them named `plugin-a`. -/
def sampleCluster : k8s.Cluster :=
  { ConfigMaps := [sampleConfigMap]
    Deployments := [{ ObjectMeta := { Name := "other", Namespace := "ses" } },
                    sampleDeployment,
                    { ObjectMeta := { Name := "plugin-b", Namespace := "ses" } }] }

end nodescheduler

namespace cloudscheduler

open datatype

/-- A job, as `ValidateJobAndCreateScienceGoal` reads it: its id and name, its
plugins and nodes in order, its science rules. -/
structure Job where
  ID : String := ""
  Name : String := ""
  Plugins : List Plugin := []
  Nodes : List Node := []
  ScienceRules : List String := []
  deriving DecidableEq, Repr, Inhabited

/-- A device of a node, of which the validator reads the name. -/
structure Device where
  Name : String := ""
  deriving DecidableEq, Repr, Inhabited

/-- The methods of `datatype.Node`, `datatype.Device` and `datatype.Plugin`
the validator calls, whose code is not in the sources at hand: parameters.
`RemoveProfile` returns the plugin after the call and the error. -/
structure Checks where
  GetPluginHardwareUnsupportedList : Node → Plugin → Bool × List String
  GetPluginArchitectureSupportedDevices : Node → Plugin → Bool × List Device
  GetUnsupportedPluginProfiles : Device → Plugin → Bool × List String
  RemoveProfile : Plugin → String → Plugin × Option String

/-- The errors appended to the error list, each the format of its
`fmt.Errorf` with the arguments given to it. -/
inductive ValidationError where
  | NotExistInECR (name version : String)
  | HardwareNotSupported (name version node : String) (unsupported : List String)
  | ArchitectureNotSupported (name version node : String)
  | ResourceNotSupported (name version device node : String)
  deriving DecidableEq, Repr

/-- `pluginExistInArray`. -/
def pluginExistInArray (plugin : Plugin) (plugins : List Plugin) : Bool :=
  plugins.any fun pluginInArray =>
    pluginInArray.Name == plugin.Name
      && pluginInArray.PluginSpec.Version == plugin.PluginSpec.Version

/-- `pluginExists`, on the registry `plugins` of the package. -/
def pluginExists (plugins : List Plugin) (plugin : Plugin) : Bool :=
  pluginExistInArray plugin plugins

/-- Check 4 of `ValidateJobAndCreateScienceGoal` (lines 66-79), the loop over
the supported devices: a device that does not support the plugin adds an error
and the loop continues with the next device; for a device that does, the
unsupported profiles are removed from the plugin. The result is the plugin and
the error list after the loop. -/
def checkDevices (checks : Checks) (node : Node) (supportedDevices : List Device)
    (plugin : Plugin) (errorList : List ValidationError) : Plugin × List ValidationError :=
  supportedDevices.foldl
    (fun acc device =>
      let r := checks.GetUnsupportedPluginProfiles device acc.1
      if !r.1 then
        (acc.1, acc.2 ++ [ValidationError.ResourceNotSupported acc.1.Name
          acc.1.PluginSpec.Version device.Name node.Name])
      else
        (r.2.foldl (fun p profile => (checks.RemoveProfile p profile).1) acc.1, acc.2))
    (plugin, errorList)

/-- The state of the loop over the plugins of a job for one node: the plugin
store, the plugins of the sub-goal so far, the error list so far. -/
structure Progress where
  heap : Heap
  Plugins : List Addr
  errorList : List ValidationError

/-- The body of the loop over the plugins (lines 39-81) for one plugin: checks
1 to 3 each add an error and continue with the next plugin when they fail;
then check 4 runs, and the plugin, a fresh copy, is appended to the sub-goal. -/
def validatePlugin (plugins : List Plugin) (checks : Checks) (node : Node) (s : Progress)
    (plugin : Plugin) : Progress :=
  if !pluginExists plugins plugin then
    { s with errorList := s.errorList ++
        [ValidationError.NotExistInECR plugin.Name plugin.PluginSpec.Version] }
  else
    let hardware := checks.GetPluginHardwareUnsupportedList node plugin
    if !hardware.1 then
      { s with errorList := s.errorList ++
          [ValidationError.HardwareNotSupported plugin.Name plugin.PluginSpec.Version
            node.Name hardware.2] }
    else
      let architecture := checks.GetPluginArchitectureSupportedDevices node plugin
      if !architecture.1 then
        { s with errorList := s.errorList ++
            [ValidationError.ArchitectureNotSupported plugin.Name plugin.PluginSpec.Version
              node.Name] }
      else
        let checked := checkDevices checks node architecture.2 plugin s.errorList
        let allocated := s.heap.alloc checked.1
        { heap := allocated.1, Plugins := s.Plugins ++ [allocated.2], errorList := checked.2 }

/-- The state of the loop over the nodes of a job: the plugin store, the
science goal so far, the error list so far. -/
structure Validation where
  heap : Heap
  scienceGoal : ScienceGoal
  errorList : List ValidationError

/-- The body of the loop over the nodes (lines 36-90) for one node: a fresh
sub-goal, the loop over the plugins, and the sub-goal appended to the goal
when it holds a plugin. -/
def validateNode (plugins : List Plugin) (checks : Checks) (job : Job) (v : Validation)
    (node : Node) : Validation :=
  let s := job.Plugins.foldl (validatePlugin plugins checks node)
    { heap := v.heap, Plugins := [], errorList := v.errorList }
  if s.Plugins.length > 0 then
    { heap := s.heap
      scienceGoal :=
        { v.scienceGoal with
          SubGoals := v.scienceGoal.SubGoals ++
            [{ Node := node, Plugins := s.Plugins, Sciencerules := job.ScienceRules }] }
      errorList := s.errorList }
  else
    { heap := s.heap, scienceGoal := v.scienceGoal, errorList := s.errorList }

/-- `ValidateJobAndCreateScienceGoal`, on the registry `plugins` of the
package and the plugin store `h`: the store afterwards, the science goal and
the error list. Log lines are left out. -/
def ValidateJobAndCreateScienceGoal (plugins : List Plugin) (checks : Checks) (h : Heap)
    (job : Job) : Validation :=
  job.Nodes.foldl (validateNode plugins checks job)
    { heap := h, scienceGoal := { ID := job.ID, Name := job.Name }, errorList := [] }

/-- A registry with the plugin `p1:0.1`. -/
def sampleRegistry : List Plugin :=
  [{ Name := "p1", PluginSpec := { Name := "p1", Version := "0.1" } }]

/-- Checks of a node whose hardware and architecture support every plugin, on
the one device `d1`, which supports the required resource of none. -/
def resourceFailingChecks : Checks :=
  { GetPluginHardwareUnsupportedList := fun _ _ => (true, [])
    GetPluginArchitectureSupportedDevices := fun _ _ => (true, [{ Name := "d1" }])
    GetUnsupportedPluginProfiles := fun _ _ => (false, [])
    RemoveProfile := fun p _ => (p, none) }

/-- A job with the plugin `p1:0.1` for the node `n1`. -/
def sampleJob : Job :=
  { ID := "j1", Name := "job1"
    Plugins := [{ Name := "p1", PluginSpec := { Name := "p1", Version := "0.1" } }]
    Nodes := [{ Name := "n1" }]
    ScienceRules := ["rule1"] }

/-- An empty plugin store. -/
def emptyHeap : Heap :=
  { mem := fun _ => {}, next := 0 }

end cloudscheduler

namespace nodescheduler

open datatype

/-- `NoSchedulingStrategy` of `policy/simple.go`. The map `plugins` is given
as `range` walks it: its entries in the order of the iteration, which Go leaves
unspecified; a map holds each key once. -/
def policy.NoSchedulingStrategy (plugins : List (String × String))
    (_currentPlugins : List String) : List String :=
  plugins.foldl (fun prioritizedPlugins e => prioritizedPlugins ++ [e.1]) []

/-- A policy that tells which resource it was given: `SelectBestTask` returns
as its error the three components of the available resource it received. -/
def resourceEcho : SchedulingPolicy :=
  { PromotePlugins := fun h _ _ => h
    SelectBestTask := fun _ _ r _ =>
      (none, some (toString r.CPU ++ "," ++ toString r.Memory ++ ","
        ++ toString r.GPUMemory)) }

/-- A state with the goal of the scenario of section 8 holding only the plugin
`p2`, which requires `{cpu:4, mem:4, gpu:0}`. -/
def scenarioState : NodeScheduler :=
  { NodeID := "n1"
    GoalManager := { ScienceGoals := scenarioTable [1], NodeID := "n1" }
    currentGoalID := "G1"
    heap := scenarioHeap }

/-- A state whose active goal `g1` is in the table but has no sub-goal for the
node `n1` of the scheduler: its one sub-goal is for the node `n2`. -/
def noSubGoalState : NodeScheduler :=
  { NodeID := "n1"
    GoalManager :=
      { ScienceGoals := [("g1", { ID := "u1", Name := "g1",
                                  SubGoals := [{ Node := { Name := "n2" }, Plugins := [0] }] })]
        NodeID := "n1" }
    currentGoalID := "g1"
    heap := { mem := fun _ => { Name := "p1" }, next := 1 } }

/-- A state whose active goal `g1` holds, for the node `n1`, the plugins `p1`
(address 0) and `p2` (address 1), both Waiting. -/
def bothWaitingState : NodeScheduler :=
  { NodeID := "n1"
    GoalManager := { ScienceGoals := [("g1", liveGoal)], NodeID := "n1" }
    currentGoalID := "g1"
    heap := { mem := fun a => if a = 0 then { Name := "p1" } else { Name := "p2" }
              next := 2 } }

end nodescheduler

namespace cloudscheduler

open datatype

/-- Whether the loop over the plugins appends a plugin to the sub-goal of a
node (line 80): the three checks that `continue` with the next plugin pass. -/
def reachesAppend (plugins : List Plugin) (checks : Checks) (node : Node)
    (plugin : Plugin) : Bool :=
  pluginExists plugins plugin
    && (checks.GetPluginHardwareUnsupportedList node plugin).1
    && (checks.GetPluginArchitectureSupportedDevices node plugin).1

/-- The plugins of a job the loop appends to the sub-goal of a node (line 80),
in the order of the job: those that pass checks 1 to 3. -/
def included (plugins : List Plugin) (checks : Checks) (node : Node) (job : Job) :
    List Plugin :=
  job.Plugins.filter (reachesAppend plugins checks node)

/-- Acceptance in the words of the specification: a plugin is accepted for a
node when it passes the four checks, that is, it exists in the registry, the
node supports its hardware, the node supports its architecture, and every
supported device of the node supports its required resource. -/
def passesChecks (plugins : List Plugin) (checks : Checks) (node : Node)
    (plugin : Plugin) : Bool :=
  pluginExists plugins plugin
    && (checks.GetPluginHardwareUnsupportedList node plugin).1
    && (checks.GetPluginArchitectureSupportedDevices node plugin).1
    && (checks.GetPluginArchitectureSupportedDevices node plugin).2.all
        (fun device => (checks.GetUnsupportedPluginProfiles device plugin).1)

/-- The plugins of a job accepted for a node in the words of the
specification, in the order of the job. -/
def accepted (plugins : List Plugin) (checks : Checks) (node : Node) (job : Job) :
    List Plugin :=
  job.Plugins.filter (passesChecks plugins checks node)

/-- The object appended for an included plugin: the copy of the plugin of the
job after check 4 removed from it the profiles the devices do not support. -/
def appended (checks : Checks) (node : Node) (plugin : Plugin) : Plugin :=
  (checkDevices checks node (checks.GetPluginArchitectureSupportedDevices node plugin).2
    plugin []).1

/-- A sub-goal as the validator builds it for its node, read in the plugin
store `h`: the science rules of the job, and pointers to allocated objects
that are, in order, the objects appended for the included plugins of the node,
of which there is at least one. -/
def builtFor (plugins : List Plugin) (checks : Checks) (job : Job) (h : Heap)
    (subGoal : SubGoal) : Prop :=
  subGoal.Sciencerules = job.ScienceRules ∧
  (∀ a ∈ subGoal.Plugins, a < h.next) ∧
  subGoal.Plugins.map h.mem
    = (included plugins checks subGoal.Node job).map (appended checks subGoal.Node) ∧
  0 < (included plugins checks subGoal.Node job).length

/-- Checks of nodes of which only `n1` has the hardware, with one device that
supports every plugin once the profile `fast` is removed; removing a profile
records it in the hardware tags of the copy. -/
def sampleChecks : Checks :=
  { GetPluginHardwareUnsupportedList := fun node _ =>
      if node.Name = "n1" then (true, []) else (false, ["gpu"])
    GetPluginArchitectureSupportedDevices := fun _ _ => (true, [{ Name := "d1" }])
    GetUnsupportedPluginProfiles := fun _ _ => (true, ["fast"])
    RemoveProfile := fun p profile =>
      ({ p with PluginSpec := { p.PluginSpec with Hardware := p.PluginSpec.Hardware ++ [profile] } },
       none) }

/-- A job with three plugins, of which `p0:0.1` is not in the registry, for
the nodes `n0` and `n1`. -/
def sampleJob2 : Job :=
  { ID := "j2", Name := "job2"
    Plugins := [{ Name := "p1", PluginSpec := { Name := "p1", Version := "0.1" } },
                { Name := "p0", PluginSpec := { Name := "p0", Version := "0.1" } },
                { Name := "p2", PluginSpec := { Name := "p2", Version := "0.2" } }]
    Nodes := [{ Name := "n0" }, { Name := "n1" }]
    ScienceRules := ["rule1", "rule2"] }

/-- A registry with the plugins `p1:0.1` and `p2:0.2`. -/
def sampleRegistry2 : List Plugin :=
  [{ Name := "p1", PluginSpec := { Name := "p1", Version := "0.1" } },
   { Name := "p2", PluginSpec := { Name := "p2", Version := "0.2" } }]

/-- Checks of nodes whose hardware and architecture support every plugin; the
node `n1` has the one device `d1`, which supports the required resource of
`p2` only, every other node the one device `d2`, which supports that of no
plugin. -/
def partlyFailingChecks : Checks :=
  { GetPluginHardwareUnsupportedList := fun _ _ => (true, [])
    GetPluginArchitectureSupportedDevices := fun node _ =>
      if node.Name = "n1" then (true, [{ Name := "d1" }]) else (true, [{ Name := "d2" }])
    GetUnsupportedPluginProfiles := fun device plugin =>
      (decide (device.Name = "d1" ∧ plugin.Name = "p2"), [])
    RemoveProfile := fun p _ => (p, none) }

/-- A job with the plugins `p1:0.1` and `p2:0.2` for the nodes `n1` and `n2`. -/
def sampleJob3 : Job :=
  { ID := "j3", Name := "job3"
    Plugins := [{ Name := "p1", PluginSpec := { Name := "p1", Version := "0.1" } },
                { Name := "p2", PluginSpec := { Name := "p2", Version := "0.2" } }]
    Nodes := [{ Name := "n1" }, { Name := "n2" }]
    ScienceRules := ["rule1"] }

end cloudscheduler

/-! ## Theorems -/

namespace datatype

theorem Heap.status_update_self (h : Heap) (now : Nat) (a : Addr) (st : SchedulingStatus) :
    (h.UpdatePluginSchedulingStatus now a st).status a = st := by
  simp [Heap.status, Heap.UpdatePluginSchedulingStatus, Plugin.UpdatePluginSchedulingStatus]

theorem Heap.status_update_other (h : Heap) (now : Nat) (a b : Addr) (st : SchedulingStatus)
    (hne : b ≠ a) : (h.UpdatePluginSchedulingStatus now a st).status b = h.status b := by
  simp [Heap.status, Heap.UpdatePluginSchedulingStatus, Function.update_noteq hne]

theorem Heap.name_update (h : Heap) (now : Nat) (a b : Addr) (st : SchedulingStatus) :
    ((h.UpdatePluginSchedulingStatus now a st).mem b).Name = (h.mem b).Name := by
  by_cases hb : b = a
  · subst hb
    simp [Heap.UpdatePluginSchedulingStatus, Plugin.UpdatePluginSchedulingStatus]
  · simp [Heap.UpdatePluginSchedulingStatus, Function.update_noteq hb]

theorem Heap.spec_update (h : Heap) (now : Nat) (a b : Addr) (st : SchedulingStatus) :
    ((h.UpdatePluginSchedulingStatus now a st).mem b).PluginSpec = (h.mem b).PluginSpec := by
  by_cases hb : b = a
  · subst hb
    simp [Heap.UpdatePluginSchedulingStatus, Plugin.UpdatePluginSchedulingStatus]
  · simp [Heap.UpdatePluginSchedulingStatus, Function.update_noteq hb]

theorem Heap.SameScheduling.refl (h : Heap) : h.SameScheduling h :=
  fun _ => ⟨rfl, rfl, rfl⟩

theorem Heap.SameScheduling.symm {h h' : Heap} (hs : h.SameScheduling h') :
    h'.SameScheduling h :=
  fun a => ⟨(hs a).1.symm, (hs a).2.1.symm, (hs a).2.2.symm⟩

theorem Heap.SameScheduling.trans {h1 h2 h3 : Heap} (h12 : h1.SameScheduling h2)
    (h23 : h2.SameScheduling h3) : h1.SameScheduling h3 :=
  fun a => ⟨(h12 a).1.trans (h23 a).1, (h12 a).2.1.trans (h23 a).2.1,
    (h12 a).2.2.trans (h23 a).2.2⟩

theorem Heap.SameScheduling.update_same {h : Heap} (now : Nat) (a : Addr)
    (st : SchedulingStatus) (hst : h.status a = st) :
    (h.UpdatePluginSchedulingStatus now a st).SameScheduling h := by
  intro b
  refine ⟨Heap.name_update _ _ _ _ _, Heap.spec_update _ _ _ _ _, ?_⟩
  by_cases hb : b = a
  · subst hb
    rw [Heap.status_update_self, hst]
  · exact Heap.status_update_other _ _ _ _ _ hb

end datatype

namespace nodescheduler

open datatype

theorem GoalTable.get_eq_none_of_not_mem_keys (t : GoalTable) (k : String)
    (h : k ∉ t.keys) : t.get k = none := by
  induction t with
  | nil => rfl
  | cons e t ih =>
    obtain ⟨k', g⟩ := e
    simp only [GoalTable.keys, List.map_cons, List.mem_cons, not_or] at h
    have hne : (k == k') = false := by simpa using h.1
    simp only [GoalTable.get, List.lookup, hne]
    exact ih h.2

/-- C1: a plugin-status event (launched, complete or failed) handled while the
active goal id is not a key of the goal table makes `GetScienceGoal` return an
error; the handler completes, and the state after it (goal table, plugin store
and so every plugin status) is the state before it. -/
theorem fromResourceManager_stale_goal (ns : NodeScheduler) (now : Nat) (event : Event)
    (hev : event.Typ = EventType.EventPluginStatusLaunched ∨
           event.Typ = EventType.EventPluginStatusComplete ∨
           event.Typ = EventType.EventPluginStatusFailed)
    (hkey : ns.currentGoalID ∉ ns.GoalManager.ScienceGoals.keys) :
    ns.GoalManager.GetScienceGoal ns.currentGoalID
        = Except.error ("The goal " ++ ns.currentGoalID ++ " does not exist") ∧
    ns.fromResourceManager now event
        = some (ns, [Effect.LogDebug, Effect.LogError, Effect.NeedScheduling event]) := by
  have hget := GoalTable.get_eq_none_of_not_mem_keys _ _ hkey
  have hgoal : ns.GoalManager.GetScienceGoal ns.currentGoalID
      = Except.error ("The goal " ++ ns.currentGoalID ++ " does not exist") := by
    simp [NodeGoalManager.GetScienceGoal, hget]
  refine ⟨hgoal, ?_⟩
  rcases hev with h | h | h <;>
    simp [NodeScheduler.fromResourceManager, NodeScheduler.updatePluginStatus, h, hgoal]

/-- The stale-goal statement at `staleState`, on a plugin-complete event. -/
theorem fromResourceManager_stale_goal_witness :
    staleState.GoalManager.GetScienceGoal staleState.currentGoalID
        = Except.error ("The goal " ++ staleState.currentGoalID ++ " does not exist") ∧
    staleState.fromResourceManager 7 (NewEvent EventType.EventPluginStatusComplete "p1")
        = some (staleState, [Effect.LogDebug, Effect.LogError,
            Effect.NeedScheduling (NewEvent EventType.EventPluginStatusComplete "p1")]) :=
  fromResourceManager_stale_goal staleState 7 (NewEvent EventType.EventPluginStatusComplete "p1")
    (Or.inr (Or.inl rfl)) (by decide)


theorem SubGoal.GetPlugin_update (sg : SubGoal) (h : Heap) (now : Nat) (a : Addr)
    (st : SchedulingStatus) (pluginName : String) :
    sg.GetPlugin (h.UpdatePluginSchedulingStatus now a st) pluginName
      = sg.GetPlugin h pluginName := by
  simp only [SubGoal.GetPlugin, Heap.name_update]

theorem updatePluginStatus_found (ns : NodeScheduler) (now : Nat) (event : Event)
    (status : SchedulingStatus) (scienceGoal : ScienceGoal) (subGoal : SubGoal) (plugin : Addr)
    (hg : ns.GoalManager.GetScienceGoal ns.currentGoalID = Except.ok scienceGoal)
    (hs : scienceGoal.GetMySubGoal ns.NodeID = some subGoal)
    (hp : subGoal.GetPlugin ns.heap event.Body = some plugin) :
    ns.updatePluginStatus now event status
      = some (ns.setStatus now plugin status, [Effect.SendWaggleMessage event]) := by
  simp [NodeScheduler.updatePluginStatus, hg, hs, hp]

theorem fromResourceManager_found (ns : NodeScheduler) (now : Nat) (typ : EventType)
    (pluginName : String) (status : SchedulingStatus) (scienceGoal : ScienceGoal)
    (subGoal : SubGoal) (plugin : Addr)
    (hg : ns.GoalManager.GetScienceGoal ns.currentGoalID = Except.ok scienceGoal)
    (hs : scienceGoal.GetMySubGoal ns.NodeID = some subGoal)
    (hp : subGoal.GetPlugin ns.heap pluginName = some plugin)
    (htyp : typ = EventType.EventPluginStatusLaunched ∧ status = SchedulingStatus.Running ∨
        (typ = EventType.EventPluginStatusComplete ∨ typ = EventType.EventPluginStatusFailed) ∧
          status = SchedulingStatus.Waiting) :
    ns.fromResourceManager now (NewEvent typ pluginName)
      = some (ns.setStatus now plugin status,
          [Effect.LogDebug, Effect.SendWaggleMessage (NewEvent typ pluginName),
           Effect.NeedScheduling (NewEvent typ pluginName)]) := by
  have h := updatePluginStatus_found ns now (NewEvent typ pluginName) status scienceGoal subGoal
    plugin hg hs hp
  rcases htyp with ⟨rfl, rfl⟩ | ⟨rfl | rfl, rfl⟩ <;>
    · unfold NodeScheduler.fromResourceManager
      simp only [NewEvent] at h ⊢
      rw [h]
      rfl

/-- C2: when the plugin named by the event is found in the sub-goal of this
node of the active goal, a plugin-launched event sets its scheduling status to
Running and a plugin-complete or plugin-failed event sets it to Waiting; so a
Waiting plugin marked Ready by the pass, then launched, then completed (or
failed) is Waiting again. -/
theorem fromResourceManager_sets_status (ns : NodeScheduler) (t0 t1 t2 : Nat)
    (pluginName : String) (scienceGoal : ScienceGoal) (subGoal : SubGoal) (plugin : Addr)
    (hg : ns.GoalManager.GetScienceGoal ns.currentGoalID = Except.ok scienceGoal)
    (hs : scienceGoal.GetMySubGoal ns.NodeID = some subGoal)
    (hp : subGoal.GetPlugin ns.heap pluginName = some plugin) :
    (ns.fromResourceManager t1 (NewEvent EventType.EventPluginStatusLaunched pluginName)
        = some (ns.setStatus t1 plugin SchedulingStatus.Running,
            [Effect.LogDebug,
             Effect.SendWaggleMessage (NewEvent EventType.EventPluginStatusLaunched pluginName),
             Effect.NeedScheduling (NewEvent EventType.EventPluginStatusLaunched pluginName)])
      ∧ (ns.setStatus t1 plugin SchedulingStatus.Running).heap.status plugin
          = SchedulingStatus.Running) ∧
    (∀ typ, typ = EventType.EventPluginStatusComplete ∨ typ = EventType.EventPluginStatusFailed →
      ns.fromResourceManager t2 (NewEvent typ pluginName)
        = some (ns.setStatus t2 plugin SchedulingStatus.Waiting,
            [Effect.LogDebug, Effect.SendWaggleMessage (NewEvent typ pluginName),
             Effect.NeedScheduling (NewEvent typ pluginName)])
      ∧ (ns.setStatus t2 plugin SchedulingStatus.Waiting).heap.status plugin
          = SchedulingStatus.Waiting) ∧
    (∀ typ, typ = EventType.EventPluginStatusComplete ∨ typ = EventType.EventPluginStatusFailed →
      ((((ns.setStatus t0 plugin SchedulingStatus.Ready).fromResourceManager t1
            (NewEvent EventType.EventPluginStatusLaunched pluginName)).bind
          fun r => r.1.fromResourceManager t2 (NewEvent typ pluginName)).map
        fun r => r.1.heap.status plugin) = some SchedulingStatus.Waiting) := by
  have hfound : ∀ (ns1 : NodeScheduler) (t : Nat) (typ : EventType) (st : SchedulingStatus),
      ns1.GoalManager = ns.GoalManager → ns1.currentGoalID = ns.currentGoalID →
      ns1.NodeID = ns.NodeID → subGoal.GetPlugin ns1.heap pluginName = some plugin →
      (typ = EventType.EventPluginStatusLaunched ∧ st = SchedulingStatus.Running ∨
        (typ = EventType.EventPluginStatusComplete ∨ typ = EventType.EventPluginStatusFailed) ∧
          st = SchedulingStatus.Waiting) →
      ns1.fromResourceManager t (NewEvent typ pluginName)
        = some (ns1.setStatus t plugin st,
            [Effect.LogDebug, Effect.SendWaggleMessage (NewEvent typ pluginName),
             Effect.NeedScheduling (NewEvent typ pluginName)]) := by
    intro ns1 t typ st h1 h2 h3 h4 htyp
    exact fromResourceManager_found ns1 t typ pluginName st scienceGoal subGoal plugin
      (by rw [h1, h2]; exact hg) (by rw [h3]; exact hs) h4 htyp
  refine ⟨⟨?_, ?_⟩, ?_, ?_⟩
  · exact hfound ns t1 _ _ rfl rfl rfl hp (Or.inl ⟨rfl, rfl⟩)
  · exact Heap.status_update_self _ _ _ _
  · intro typ htyp
    exact ⟨hfound ns t2 typ _ rfl rfl rfl hp (Or.inr ⟨htyp, rfl⟩),
      Heap.status_update_self _ _ _ _⟩
  · intro typ htyp
    have hp0 : subGoal.GetPlugin (ns.setStatus t0 plugin SchedulingStatus.Ready).heap pluginName
        = some plugin := by
      rw [← hp]; exact SubGoal.GetPlugin_update _ _ _ _ _ _
    have hp1 : subGoal.GetPlugin
        ((ns.setStatus t0 plugin SchedulingStatus.Ready).setStatus t1 plugin
          SchedulingStatus.Running).heap pluginName = some plugin := by
      rw [← hp0]; exact SubGoal.GetPlugin_update _ _ _ _ _ _
    rw [hfound (ns.setStatus t0 plugin SchedulingStatus.Ready) t1 _ _ rfl rfl rfl hp0
      (Or.inl ⟨rfl, rfl⟩)]
    simp only [Option.some_bind]
    rw [hfound ((ns.setStatus t0 plugin SchedulingStatus.Ready).setStatus t1 plugin
      SchedulingStatus.Running) t2 typ SchedulingStatus.Waiting rfl rfl rfl hp1
      (Or.inr ⟨htyp, rfl⟩)]
    simp only [Option.map_some', NodeScheduler.setStatus, Heap.status_update_self]

/-- The status statement at `liveState`, for plugin `p1` at address 0. -/
theorem fromResourceManager_sets_status_witness :
    (liveState.fromResourceManager 11 (NewEvent EventType.EventPluginStatusLaunched "p1")
        = some (liveState.setStatus 11 0 SchedulingStatus.Running,
            [Effect.LogDebug,
             Effect.SendWaggleMessage (NewEvent EventType.EventPluginStatusLaunched "p1"),
             Effect.NeedScheduling (NewEvent EventType.EventPluginStatusLaunched "p1")])
      ∧ (liveState.setStatus 11 0 SchedulingStatus.Running).heap.status 0
          = SchedulingStatus.Running) ∧
    (∀ typ, typ = EventType.EventPluginStatusComplete ∨ typ = EventType.EventPluginStatusFailed →
      liveState.fromResourceManager 12 (NewEvent typ "p1")
        = some (liveState.setStatus 12 0 SchedulingStatus.Waiting,
            [Effect.LogDebug, Effect.SendWaggleMessage (NewEvent typ "p1"),
             Effect.NeedScheduling (NewEvent typ "p1")])
      ∧ (liveState.setStatus 12 0 SchedulingStatus.Waiting).heap.status 0
          = SchedulingStatus.Waiting) ∧
    (∀ typ, typ = EventType.EventPluginStatusComplete ∨ typ = EventType.EventPluginStatusFailed →
      ((((liveState.setStatus 10 0 SchedulingStatus.Ready).fromResourceManager 11
            (NewEvent EventType.EventPluginStatusLaunched "p1")).bind
          fun r => r.1.fromResourceManager 12 (NewEvent typ "p1")).map
        fun r => r.1.heap.status 0) = some SchedulingStatus.Waiting) :=
  fromResourceManager_sets_status liveState 10 11 12 "p1" liveGoal
    { Node := { Name := "n1" }, Plugins := [0, 1] } 0 rfl (by decide) (by decide)


theorem launched_replicate_logDebug (n : Nat) (rest : List Effect) :
    launched ([Effect.LogDebug] ++ List.replicate n Effect.LogDebug ++ rest) = launched rest := by
  induction n with
  | zero => simp [launched]
  | succ n ih =>
    simp only [launched, List.replicate_succ, List.filterMap_append, List.filterMap_cons,
      List.filterMap_nil, List.nil_append, List.append_assoc] at ih ⊢
    simp

theorem launched_needScheduling (ns : NodeScheduler) (policy : SchedulingPolicy)
    (WillItFit : Heap → Addr → Bool) (now : Nat) (event : Event) :
    launched (ns.needScheduling policy WillItFit now event).2
      = launched ((ns.promote policy now).afterSelection WillItFit now
          (ns.selected policy now)).2 := by
  simp only [NodeScheduler.needScheduling]
  exact launched_replicate_logDebug _ _

/-- C3: in one scheduling pass a plugin is handed to `LaunchAndWatchPlugin`
if and only if `SelectBestTask` returned it without error and `WillItFit` is
true for it, and then it is the only one launched and it is marked Ready; in
every other case (error, nil candidate, candidate that does not fit) nothing
is launched and the state after the pass is the state after promotion. -/
theorem needScheduling_launches_iff (ns : NodeScheduler) (policy : SchedulingPolicy)
    (WillItFit : Heap → Addr → Bool) (now : Nat) (event : Event) :
    (∀ plugin, plugin ∈ launched (ns.needScheduling policy WillItFit now event).2 ↔
        (ns.selected policy now = (some plugin, none) ∧
          WillItFit (ns.promote policy now).heap plugin = true)) ∧
    (∀ plugin, ns.selected policy now = (some plugin, none) →
        WillItFit (ns.promote policy now).heap plugin = true →
        (ns.needScheduling policy WillItFit now event).1
            = (ns.promote policy now).setStatus now plugin SchedulingStatus.Ready ∧
        (ns.needScheduling policy WillItFit now event).1.heap.status plugin
            = SchedulingStatus.Ready ∧
        launched (ns.needScheduling policy WillItFit now event).2 = [plugin]) ∧
    ((¬ ∃ plugin, ns.selected policy now = (some plugin, none) ∧
          WillItFit (ns.promote policy now).heap plugin = true) →
        (ns.needScheduling policy WillItFit now event).1 = ns.promote policy now ∧
        launched (ns.needScheduling policy WillItFit now event).2 = []) := by
  rw [launched_needScheduling]
  have hstate : (ns.needScheduling policy WillItFit now event).1
      = ((ns.promote policy now).afterSelection WillItFit now (ns.selected policy now)).1 := rfl
  rw [hstate]
  generalize ns.selected policy now = sel
  generalize ns.promote policy now = ns1
  match sel with
  | (_, some e) => simp [NodeScheduler.afterSelection, launched]
  | (none, none) => simp [NodeScheduler.afterSelection, launched]
  | (some a, none) =>
    by_cases hfit : WillItFit ns1.heap a = true
    · simp only [NodeScheduler.afterSelection, hfit, if_true, launched]
      refine ⟨?_, ?_, ?_⟩
      · intro plugin
        simp only [List.filterMap_cons, List.filterMap_nil, List.mem_singleton,
          Prod.mk.injEq, Option.some.injEq, and_true]
        constructor
        · rintro rfl; exact ⟨rfl, hfit⟩
        · rintro ⟨h, _⟩; exact h.symm
      · intro plugin hsel _
        simp only [Prod.mk.injEq, Option.some.injEq, and_true] at hsel
        subst hsel
        exact ⟨rfl, Heap.status_update_self _ _ _ _, rfl⟩
      · intro hno
        exact absurd ⟨a, rfl, hfit⟩ hno
    · simp only [NodeScheduler.afterSelection, hfit, launched]
      refine ⟨?_, ?_, ?_⟩
      · intro plugin
        simp only [Bool.false_eq_true, if_false, List.filterMap_cons, List.filterMap_nil,
          List.not_mem_nil, Prod.mk.injEq, Option.some.injEq, and_true, false_iff, not_and]
        rintro rfl
        exact hfit
      · intro plugin hsel hf
        simp only [Prod.mk.injEq, Option.some.injEq, and_true] at hsel
        subst hsel
        exact absurd hf hfit
      · intro _
        simp

/-- C4: handling one goal-changed event calls `CleanUp` exactly once, records
the body of the event as the active goal id, sends exactly one re-scheduling
trigger (the event itself), and leaves the goal table and the plugin store,
hence every plugin status, as they were. -/
theorem fromGoalManager_effects (ns : NodeScheduler) (event : Event) :
    (ns.fromGoalManager event).2.count Effect.CleanUp = 1 ∧
    (ns.fromGoalManager event).1.currentGoalID = event.Body ∧
    triggers (ns.fromGoalManager event).2 = [event] ∧
    launched (ns.fromGoalManager event).2 = [] ∧
    (ns.fromGoalManager event).1.heap = ns.heap ∧
    (ns.fromGoalManager event).1.GoalManager = ns.GoalManager ∧
    (∀ plugin, (ns.fromGoalManager event).1.heap.status plugin = ns.heap.status plugin) := by
  refine ⟨?_, rfl, ?_, ?_, rfl, rfl, fun _ => rfl⟩
  · simp [NodeScheduler.fromGoalManager, List.count_cons]
  · simp [NodeScheduler.fromGoalManager, triggers]
  · simp [NodeScheduler.fromGoalManager, launched]

/-- C5, as the code has it: the active goal `g1` of `noSubGoalState` is in the
table but has no sub-goal for the node `n1`, so `GetMySubGoal` finds none; on
each of the three kinds of event of the resource manager the handler calls
`GetPlugin` on that nil sub-goal and stops there, before the send of line 158:
no re-scheduling trigger is emitted. -/
theorem fromResourceManager_without_subgoal :
    (noSubGoalState.GoalManager.GetScienceGoal noSubGoalState.currentGoalID).toOption.map
        (fun scienceGoal => scienceGoal.GetMySubGoal noSubGoalState.NodeID)
      = some none ∧
    (noSubGoalState.fromResourceManager 3
        (NewEvent EventType.EventPluginStatusLaunched "p1")).map (fun r => triggers r.2)
      = none ∧
    (noSubGoalState.fromResourceManager 3
        (NewEvent EventType.EventPluginStatusComplete "p1")).map (fun r => triggers r.2)
      = none ∧
    (noSubGoalState.fromResourceManager 3
        (NewEvent EventType.EventPluginStatusFailed "p1")).map (fun r => triggers r.2)
      = none := by
  decide

/-- C5, amended: when the active goal, if it is in the table, has a sub-goal
for this node, every event received from the resource manager, whatever its
kind, makes the handler send exactly one re-scheduling trigger, the event
itself: when the active goal is not in the table, when the plugin is not in
the sub-goal and when it is. -/
theorem fromResourceManager_one_trigger (ns : NodeScheduler) (now : Nat) (event : Event)
    (hsub : ∀ scienceGoal, ns.GoalManager.GetScienceGoal ns.currentGoalID = Except.ok scienceGoal →
      scienceGoal.GetMySubGoal ns.NodeID ≠ none) :
    ∃ ns1 effects, ns.fromResourceManager now event = some (ns1, effects) ∧
      triggers effects = [event] := by
  have hupd : ∀ st, ∃ ns1 effects, ns.updatePluginStatus now event st = some (ns1, effects) ∧
      triggers effects = [] := by
    intro st
    cases hg : ns.GoalManager.GetScienceGoal ns.currentGoalID with
    | error e =>
      exact ⟨ns, [Effect.LogError], by simp [NodeScheduler.updatePluginStatus, hg],
        by simp [triggers]⟩
    | ok scienceGoal =>
      cases hs : scienceGoal.GetMySubGoal ns.NodeID with
      | none => exact absurd hs (hsub scienceGoal hg)
      | some subGoal =>
        cases hp : subGoal.GetPlugin ns.heap event.Body with
        | none =>
          exact ⟨ns, [], by simp [NodeScheduler.updatePluginStatus, hg, hs, hp],
            by simp [triggers]⟩
        | some plugin =>
          exact ⟨ns.setStatus now plugin st, [Effect.SendWaggleMessage event],
            by simp [NodeScheduler.updatePluginStatus, hg, hs, hp], by simp [triggers]⟩
  have hsw : ∃ ns1 effects,
      (match event.Typ with
        | .EventPluginStatusLaunched => ns.updatePluginStatus now event .Running
        | .EventPluginStatusComplete => ns.updatePluginStatus now event .Waiting
        | .EventPluginStatusFailed => ns.updatePluginStatus now event .Waiting
        | _ => some (ns, [])) = some (ns1, effects) ∧ triggers effects = [] := by
    cases event.Typ with
    | EventPluginStatusLaunched => exact hupd _
    | EventPluginStatusComplete => exact hupd _
    | EventPluginStatusFailed => exact hupd _
    | EventNewGoal => exact ⟨_, _, rfl, by simp [triggers]⟩
    | Other k => exact ⟨_, _, rfl, by simp [triggers]⟩
  obtain ⟨ns1, effects, heq, htr⟩ := hsw
  refine ⟨ns1, [Effect.LogDebug] ++ effects ++ [Effect.NeedScheduling event], ?_, ?_⟩
  · unfold NodeScheduler.fromResourceManager
    simp only [heq, Option.map_some']
  · simp only [triggers, List.filterMap_append, List.filterMap_cons, List.filterMap_nil,
      List.nil_append] at htr ⊢
    simp [htr]

/-- The trigger statement at `liveState`, on an event that names a plugin
the sub-goal does not hold. -/
theorem fromResourceManager_one_trigger_witness :
    ∃ ns1 effects,
      liveState.fromResourceManager 3 (NewEvent EventType.EventPluginStatusFailed "absent")
        = some (ns1, effects) ∧
      triggers effects = [NewEvent EventType.EventPluginStatusFailed "absent"] :=
  fromResourceManager_one_trigger liveState 3 (NewEvent EventType.EventPluginStatusFailed "absent")
    (fun scienceGoal hg => by
      have h : Except.ok liveGoal = Except.ok scienceGoal := hg
      cases h
      decide)

/-- C7, as the code has it: a plugin-launched event makes a Waiting plugin
Running in one step (the plugin `p1` of `liveState`), a change that is none of
Waiting->Ready, Ready->Running, Running->Waiting. -/
theorem launched_event_makes_waiting_running :
    (liveState.fromResourceManager 5 (NewEvent EventType.EventPluginStatusLaunched "p1")).map
        (fun r => (liveState.heap.status 0, r.1.heap.status 0))
      = some (SchedulingStatus.Waiting, SchedulingStatus.Running) := by
  decide

theorem updatePluginStatus_state (ns ns1 : NodeScheduler) (now : Nat) (event : Event)
    (st : SchedulingStatus) (effects : List Effect)
    (h : ns.updatePluginStatus now event st = some (ns1, effects)) :
    ns1 = ns ∨ ∃ plugin, ns1 = ns.setStatus now plugin st := by
  unfold NodeScheduler.updatePluginStatus at h
  split at h
  · simp only [Option.some.injEq, Prod.mk.injEq] at h
    exact Or.inl h.1.symm
  · split at h
    · exact absurd h (by simp)
    · split at h
      · simp only [Option.some.injEq, Prod.mk.injEq] at h
        exact Or.inl h.1.symm
      · simp only [Option.some.injEq, Prod.mk.injEq] at h
        exact Or.inr ⟨_, h.1.symm⟩

theorem setStatus_status_of_changed (ns : NodeScheduler) (now : Nat) (a b : Addr)
    (st : SchedulingStatus)
    (hchange : (ns.setStatus now a st).heap.status b ≠ ns.heap.status b) :
    b = a ∧ (ns.setStatus now a st).heap.status b = st := by
  by_cases hb : b = a
  · subst hb
    exact ⟨rfl, Heap.status_update_self _ _ _ _⟩
  · exact absurd (Heap.status_update_other _ _ _ _ _ hb) hchange

namespace policy.SimpleScheduler

theorem promoteOne_name (sat : String → Bool) (now : Nat) (h : Heap) (a b : Addr) :
    ((promoteOne sat now h a).mem b).Name = (h.mem b).Name := by
  unfold promoteOne
  split
  · exact Heap.name_update _ _ _ _ _
  · rfl

theorem promoteOne_spec (sat : String → Bool) (now : Nat) (h : Heap) (a b : Addr) :
    ((promoteOne sat now h a).mem b).PluginSpec = (h.mem b).PluginSpec := by
  unfold promoteOne
  split
  · exact Heap.spec_update _ _ _ _ _
  · rfl

theorem promoteOne_status (sat : String → Bool) (now : Nat) (h : Heap) (a b : Addr) :
    (promoteOne sat now h a).status b
      = if b = a ∧ h.status b = SchedulingStatus.Waiting ∧ sat (h.mem b).Name = true
        then SchedulingStatus.Ready else h.status b := by
  unfold promoteOne
  by_cases hb : b = a
  · subst hb
    by_cases hc : h.status b = SchedulingStatus.Waiting ∧ sat (h.mem b).Name = true
    · simp only [hc, and_self, if_true, Heap.status_update_self]
    · simp only [hc, and_false, if_false]
  · simp only [hb, false_and, if_false]
    split
    · exact Heap.status_update_other _ _ _ _ _ hb
    · rfl

theorem promoteList_name (sat : String → Bool) (now : Nat) (l : List Addr) (h : Heap) (b : Addr) :
    ((l.foldl (promoteOne sat now) h).mem b).Name = (h.mem b).Name := by
  induction l generalizing h with
  | nil => rfl
  | cons a l ih => rw [List.foldl_cons, ih, promoteOne_name]

theorem promoteList_spec (sat : String → Bool) (now : Nat) (l : List Addr) (h : Heap) (b : Addr) :
    ((l.foldl (promoteOne sat now) h).mem b).PluginSpec = (h.mem b).PluginSpec := by
  induction l generalizing h with
  | nil => rfl
  | cons a l ih => rw [List.foldl_cons, ih, promoteOne_spec]

theorem promoteList_status (sat : String → Bool) (now : Nat) (l : List Addr) (h : Heap)
    (b : Addr) :
    (l.foldl (promoteOne sat now) h).status b
      = if b ∈ l ∧ h.status b = SchedulingStatus.Waiting ∧ sat (h.mem b).Name = true
        then SchedulingStatus.Ready else h.status b := by
  induction l generalizing h with
  | nil => simp
  | cons a l ih =>
    rw [List.foldl_cons, ih, promoteOne_name, promoteOne_status]
    by_cases hb : b = a
    · subst hb
      by_cases hc : h.status b = SchedulingStatus.Waiting ∧ sat (h.mem b).Name = true
      · simp [hc]
      · simp [hc]
    · simp [hb]

end policy.SimpleScheduler

theorem promote_simple_heap (sat : String → Bool) (now : Nat) (nodeID : String)
    (t : GoalTable) (h : Heap) :
    t.foldl (fun h e => (policy.SimpleScheduler sat).PromotePlugins h now
        (e.2.GetMySubGoal nodeID)) h
      = (localPlugins t nodeID).foldl (policy.SimpleScheduler.promoteOne sat now) h := by
  induction t generalizing h with
  | nil => rfl
  | cons e t ih =>
    rw [List.foldl_cons, ih]
    simp only [localPlugins, List.flatMap_cons, List.foldl_append]
    congr 1
    simp only [policy.SimpleScheduler, policy.SimpleScheduler.PromotePlugins]
    cases e.2.GetMySubGoal nodeID <;> rfl

theorem promoteList_congr (sat : String → Bool) (t1 t2 : Nat) (l : List Addr) (h h' : Heap)
    (hs : h.SameScheduling h') :
    (l.foldl (policy.SimpleScheduler.promoteOne sat t1) h).SameScheduling
      (l.foldl (policy.SimpleScheduler.promoteOne sat t2) h') := by
  intro b
  refine ⟨?_, ?_, ?_⟩
  · rw [policy.SimpleScheduler.promoteList_name, policy.SimpleScheduler.promoteList_name]
    exact (hs b).1
  · rw [policy.SimpleScheduler.promoteList_spec, policy.SimpleScheduler.promoteList_spec]
    exact (hs b).2.1
  · rw [policy.SimpleScheduler.promoteList_status, policy.SimpleScheduler.promoteList_status,
      (hs b).1, (hs b).2.2]

theorem promoteList_idem (sat : String → Bool) (t1 t2 : Nat) (l : List Addr) (h : Heap) :
    (l.foldl (policy.SimpleScheduler.promoteOne sat t2)
        (l.foldl (policy.SimpleScheduler.promoteOne sat t1) h)).SameScheduling
      (l.foldl (policy.SimpleScheduler.promoteOne sat t1) h) := by
  intro b
  refine ⟨policy.SimpleScheduler.promoteList_name _ _ _ _ _,
    policy.SimpleScheduler.promoteList_spec _ _ _ _ _, ?_⟩
  rw [policy.SimpleScheduler.promoteList_status, policy.SimpleScheduler.promoteList_name,
    policy.SimpleScheduler.promoteList_status]
  by_cases hc : b ∈ l ∧ h.status b = SchedulingStatus.Waiting ∧ sat (h.mem b).Name = true
  · simp [hc]
  · simp only [hc, if_false]

theorem SelectBestTask_congr (h h' : Heap) (t : GoalTable) (r : Resource) (nodeID : String)
    (hs : h.SameScheduling h') :
    policy.SimpleScheduler.SelectBestTask h t r nodeID
      = policy.SimpleScheduler.SelectBestTask h' t r nodeID := by
  unfold policy.SimpleScheduler.SelectBestTask
  have hp : (fun plugin => h.status plugin == SchedulingStatus.Ready
        && (h.mem plugin).PluginSpec.Resource.fits r)
      = (fun plugin => h'.status plugin == SchedulingStatus.Ready
        && (h'.mem plugin).PluginSpec.Resource.fits r) := by
    funext plugin
    rw [(hs plugin).2.1, (hs plugin).2.2]
  rw [hp]

theorem SelectBestTask_ready (h : Heap) (t : GoalTable) (r : Resource) (nodeID : String)
    (a : Addr) (hsel : policy.SimpleScheduler.SelectBestTask h t r nodeID = (some a, none)) :
    h.status a = SchedulingStatus.Ready := by
  unfold policy.SimpleScheduler.SelectBestTask at hsel
  simp only [Prod.mk.injEq, and_true] at hsel
  have := List.find?_some hsel
  simp only [Bool.and_eq_true, beq_iff_eq] at this
  exact this.1

theorem launched_afterSelection (ns : NodeScheduler) (WillItFit : Heap → Addr → Bool)
    (now : Nat) (sel : Option Addr × Option String) :
    launched (ns.afterSelection WillItFit now sel).2
      = match sel with
        | (some a, none) => if WillItFit ns.heap a then [a] else []
        | _ => [] := by
  match sel with
  | (none, some e) => rfl
  | (some a, some e) => rfl
  | (none, none) => rfl
  | (some a, none) =>
    by_cases hfit : WillItFit ns.heap a = true
    · simp [NodeScheduler.afterSelection, hfit, launched]
    · simp [NodeScheduler.afterSelection, hfit, launched]

theorem afterSelection_sameScheduling (ns : NodeScheduler) (WillItFit : Heap → Addr → Bool)
    (now : Nat) (sel : Option Addr × Option String)
    (hready : ∀ a, sel = (some a, none) → ns.heap.status a = SchedulingStatus.Ready) :
    (ns.afterSelection WillItFit now sel).1.heap.SameScheduling ns.heap ∧
    (ns.afterSelection WillItFit now sel).1.GoalManager = ns.GoalManager := by
  match sel with
  | (_, some e) => exact ⟨Heap.SameScheduling.refl _, rfl⟩
  | (none, none) => exact ⟨Heap.SameScheduling.refl _, rfl⟩
  | (some a, none) =>
    by_cases hfit : WillItFit ns.heap a = true
    · simp only [NodeScheduler.afterSelection, hfit, if_true]
      exact ⟨Heap.SameScheduling.update_same now a _ (hready a rfl), rfl⟩
    · simp only [NodeScheduler.afterSelection, hfit]
      exact ⟨Heap.SameScheduling.refl _, rfl⟩

theorem needScheduling_simple (ns : NodeScheduler) (sat : String → Bool)
    (WillItFit : Heap → Addr → Bool) (now : Nat) (event : Event) :
    (ns.needScheduling (policy.SimpleScheduler sat) WillItFit now event).1.heap.SameScheduling
        ((localPlugins ns.GoalManager.ScienceGoals ns.GoalManager.NodeID).foldl
          (policy.SimpleScheduler.promoteOne sat now) ns.heap) ∧
    (ns.needScheduling (policy.SimpleScheduler sat) WillItFit now event).1.GoalManager
        = ns.GoalManager ∧
    launched (ns.needScheduling (policy.SimpleScheduler sat) WillItFit now event).2
      = match policy.SimpleScheduler.SelectBestTask
            ((localPlugins ns.GoalManager.ScienceGoals ns.GoalManager.NodeID).foldl
              (policy.SimpleScheduler.promoteOne sat now) ns.heap)
            ns.GoalManager.ScienceGoals availableResource ns.GoalManager.NodeID with
        | (some a, none) =>
          if WillItFit ((localPlugins ns.GoalManager.ScienceGoals ns.GoalManager.NodeID).foldl
              (policy.SimpleScheduler.promoteOne sat now) ns.heap) a then [a] else []
        | _ => [] := by
  have hheap : (ns.promote (policy.SimpleScheduler sat) now).heap
      = (localPlugins ns.GoalManager.ScienceGoals ns.GoalManager.NodeID).foldl
          (policy.SimpleScheduler.promoteOne sat now) ns.heap :=
    promote_simple_heap sat now _ _ _
  have hsel : ns.selected (policy.SimpleScheduler sat) now
      = policy.SimpleScheduler.SelectBestTask (ns.promote (policy.SimpleScheduler sat) now).heap
          ns.GoalManager.ScienceGoals availableResource ns.GoalManager.NodeID := rfl
  have h := afterSelection_sameScheduling (ns.promote (policy.SimpleScheduler sat) now)
    WillItFit now (ns.selected (policy.SimpleScheduler sat) now)
    (fun a ha => SelectBestTask_ready _ _ _ _ a (hsel ▸ ha))
  refine ⟨?_, h.2, ?_⟩
  · rw [← hheap]; exact h.1
  · rw [launched_needScheduling, launched_afterSelection, hsel, hheap]

theorem updatePluginStatus_named (ns ns1 : NodeScheduler) (now : Nat) (event : Event)
    (st : SchedulingStatus) (effects : List Effect)
    (h : ns.updatePluginStatus now event st = some (ns1, effects)) :
    ns1 = ns ∨
    ∃ plugin, (ns.heap.mem plugin).Name = event.Body ∧ ns1 = ns.setStatus now plugin st := by
  unfold NodeScheduler.updatePluginStatus at h
  cases hg : ns.GoalManager.GetScienceGoal ns.currentGoalID with
  | error e =>
    simp only [hg, Option.some.injEq, Prod.mk.injEq] at h
    exact Or.inl h.1.symm
  | ok scienceGoal =>
    cases hs : scienceGoal.GetMySubGoal ns.NodeID with
    | none => simp [hg, hs] at h
    | some subGoal =>
      cases hp : subGoal.GetPlugin ns.heap event.Body with
      | none =>
        simp only [hg, hs, hp, Option.some.injEq, Prod.mk.injEq] at h
        exact Or.inl h.1.symm
      | some plugin =>
        simp only [hg, hs, hp, Option.some.injEq, Prod.mk.injEq] at h
        have hname := List.find?_some hp
        simp only [beq_iff_eq] at hname
        exact Or.inr ⟨plugin, hname, h.1.symm⟩

theorem fromResourceManager_named (ns ns1 : NodeScheduler) (now : Nat) (event : Event)
    (effects : List Effect) (h : ns.fromResourceManager now event = some (ns1, effects)) :
    ns1 = ns ∨
    (∃ plugin, (ns.heap.mem plugin).Name = event.Body ∧
        event.Typ = EventType.EventPluginStatusLaunched ∧
        ns1 = ns.setStatus now plugin SchedulingStatus.Running) ∨
    (∃ plugin, (ns.heap.mem plugin).Name = event.Body ∧
        (event.Typ = EventType.EventPluginStatusComplete ∨
          event.Typ = EventType.EventPluginStatusFailed) ∧
        ns1 = ns.setStatus now plugin SchedulingStatus.Waiting) := by
  unfold NodeScheduler.fromResourceManager at h
  simp only [Option.map_eq_some', Prod.mk.injEq] at h
  obtain ⟨r, hr, h1, _⟩ := h
  subst h1
  obtain ⟨ns2, effs⟩ := r
  cases htyp : event.Typ with
  | EventPluginStatusLaunched =>
    rw [htyp] at hr
    rcases updatePluginStatus_named _ _ _ _ _ _ hr with h | ⟨a, hn, h⟩
    · exact Or.inl h
    · exact Or.inr (Or.inl ⟨a, hn, rfl, h⟩)
  | EventPluginStatusComplete =>
    rw [htyp] at hr
    rcases updatePluginStatus_named _ _ _ _ _ _ hr with h | ⟨a, hn, h⟩
    · exact Or.inl h
    · exact Or.inr (Or.inr ⟨a, hn, Or.inl rfl, h⟩)
  | EventPluginStatusFailed =>
    rw [htyp] at hr
    rcases updatePluginStatus_named _ _ _ _ _ _ hr with h | ⟨a, hn, h⟩
    · exact Or.inl h
    · exact Or.inr (Or.inr ⟨a, hn, Or.inr rfl, h⟩)
  | EventNewGoal =>
    rw [htyp] at hr
    simp only [Option.some.injEq, Prod.mk.injEq] at hr
    exact Or.inl hr.1.symm
  | Other kind =>
    rw [htyp] at hr
    simp only [Option.some.injEq, Prod.mk.injEq] at hr
    exact Or.inl hr.1.symm

theorem afterSelection_status_of_changed (ns : NodeScheduler) (WillItFit : Heap → Addr → Bool)
    (now : Nat) (sel : Option Addr × Option String) (plugin : Addr)
    (hchange : (ns.afterSelection WillItFit now sel).1.heap.status plugin
      ≠ ns.heap.status plugin) :
    sel = (some plugin, none) ∧ WillItFit ns.heap plugin = true ∧
    (ns.afterSelection WillItFit now sel).1.heap.status plugin = SchedulingStatus.Ready := by
  match sel with
  | (_, some e) => exact absurd rfl hchange
  | (none, none) => exact absurd rfl hchange
  | (some a, none) =>
    by_cases hfit : WillItFit ns.heap a = true
    · simp only [NodeScheduler.afterSelection, hfit, if_true] at hchange ⊢
      obtain ⟨h1, h2⟩ := setStatus_status_of_changed ns now a plugin _ hchange
      subst h1
      exact ⟨rfl, hfit, h2⟩
    · simp only [NodeScheduler.afterSelection, hfit] at hchange
      exact absurd rfl hchange

/-- C7, amended: every change of a scheduling status made by one turn of the
loop of `NodeScheduler.Run`, whatever the status was before. On an event of the
resource manager the plugin changed bears the name in the event, and it
becomes Running if the event is plugin-launched, Waiting if it is
plugin-complete or plugin-failed. In a scheduling pass a status is changed
either by `PromotePlugins` in the promotion loop (lines 195-199) or, after it,
for the plugin `SelectBestTask` returned and `WillItFit` accepted, which
becomes Ready; with the policy of section 4.3 every status a pass changes goes
from Waiting to Ready, for a plugin of this node whose rules are satisfied. The
goal-changed handler changes no status. At `liveState` a plugin-complete event
takes `p2` from Ready to Waiting; at `bothWaitingState` one pass takes both
plugins from Waiting to Ready and launches the first. -/
theorem status_change_targets (ns : NodeScheduler) (pol : SchedulingPolicy)
    (sat : String → Bool) (WillItFit : Heap → Addr → Bool) (now : Nat) (event : Event)
    (plugin : Addr) :
    (∀ ns1 effects, ns.Run pol WillItFit now (Received.FromResourceManager event)
        = some (ns1, effects) →
      ns1.heap.status plugin ≠ ns.heap.status plugin →
        (ns.heap.mem plugin).Name = event.Body ∧
        ((event.Typ = EventType.EventPluginStatusLaunched ∧
            ns1.heap.status plugin = SchedulingStatus.Running) ∨
          ((event.Typ = EventType.EventPluginStatusComplete ∨
              event.Typ = EventType.EventPluginStatusFailed) ∧
            ns1.heap.status plugin = SchedulingStatus.Waiting))) ∧
    (∀ ns1 effects, ns.Run pol WillItFit now (Received.NeedScheduling event)
        = some (ns1, effects) →
      ns1.heap.status plugin ≠ ns.heap.status plugin →
        ns1.heap.status plugin = (ns.promote pol now).heap.status plugin ∨
        (ns.selected pol now = (some plugin, none) ∧
          WillItFit (ns.promote pol now).heap plugin = true ∧
          ns1.heap.status plugin = SchedulingStatus.Ready)) ∧
    (∀ ns1 effects,
      ns.Run (policy.SimpleScheduler sat) WillItFit now (Received.NeedScheduling event)
        = some (ns1, effects) →
      ns1.heap.status plugin ≠ ns.heap.status plugin →
        ns.heap.status plugin = SchedulingStatus.Waiting ∧
        ns1.heap.status plugin = SchedulingStatus.Ready ∧
        sat (ns.heap.mem plugin).Name = true ∧
        plugin ∈ localPlugins ns.GoalManager.ScienceGoals ns.GoalManager.NodeID) ∧
    (∀ ns1 effects, ns.Run pol WillItFit now (Received.FromGoalManager event)
        = some (ns1, effects) →
      ns1.heap.status plugin = ns.heap.status plugin) ∧
    (liveState.Run (policy.SimpleScheduler fun _ => true) (fun _ _ => true) 5
        (Received.FromResourceManager (NewEvent EventType.EventPluginStatusComplete "p2"))).map
        (fun r => (liveState.heap.status 1, r.1.heap.status 1))
      = some (SchedulingStatus.Ready, SchedulingStatus.Waiting) ∧
    (bothWaitingState.Run (policy.SimpleScheduler fun _ => true) (fun _ _ => true) 5
        (Received.NeedScheduling (NewEvent EventType.EventNewGoal "g1"))).map
        (fun r => ([bothWaitingState.heap.status 0, bothWaitingState.heap.status 1],
                   [r.1.heap.status 0, r.1.heap.status 1], launched r.2))
      = some ([SchedulingStatus.Waiting, SchedulingStatus.Waiting],
              [SchedulingStatus.Ready, SchedulingStatus.Ready], [0]) := by
  refine ⟨?_, ?_, ?_, ?_, by decide, by decide⟩
  · intro ns1 effects hrun hchange
    rcases fromResourceManager_named ns ns1 now event effects hrun with
      h | ⟨a, hn, htyp, h⟩ | ⟨a, hn, htyp, h⟩
    · subst h
      exact absurd rfl hchange
    · subst h
      obtain ⟨hp, hst⟩ := setStatus_status_of_changed ns now a plugin _ hchange
      subst hp
      exact ⟨hn, Or.inl ⟨htyp, hst⟩⟩
    · subst h
      obtain ⟨hp, hst⟩ := setStatus_status_of_changed ns now a plugin _ hchange
      subst hp
      exact ⟨hn, Or.inr ⟨htyp, hst⟩⟩
  · intro ns1 effects hrun _
    have hns1 : ns1 = ((ns.promote pol now).afterSelection WillItFit now
        (ns.selected pol now)).1 := by
      simp only [NodeScheduler.Run, NodeScheduler.needScheduling, Option.some.injEq,
        Prod.mk.injEq] at hrun
      exact hrun.1.symm
    subst hns1
    by_cases hp : ((ns.promote pol now).afterSelection WillItFit now
        (ns.selected pol now)).1.heap.status plugin
        = (ns.promote pol now).heap.status plugin
    · exact Or.inl hp
    · exact Or.inr (afterSelection_status_of_changed _ WillItFit now _ plugin hp)
  · intro ns1 effects hrun hchange
    have hns1 : ns1 = (ns.needScheduling (policy.SimpleScheduler sat) WillItFit now event).1 := by
      simp only [NodeScheduler.Run, Option.some.injEq] at hrun
      rw [hrun]
    subst hns1
    have hsame := (needScheduling_simple ns sat WillItFit now event).1 plugin
    have hst := hsame.2.2
    rw [policy.SimpleScheduler.promoteList_status] at hst
    by_cases hc : plugin ∈ localPlugins ns.GoalManager.ScienceGoals ns.GoalManager.NodeID ∧
        ns.heap.status plugin = SchedulingStatus.Waiting ∧ sat (ns.heap.mem plugin).Name = true
    · rw [if_pos hc] at hst
      exact ⟨hc.2.1, hst, hc.2.2, hc.1⟩
    · rw [if_neg hc] at hst
      exact absurd hst hchange
  · intro ns1 effects hrun
    simp only [NodeScheduler.Run, NodeScheduler.fromGoalManager, Option.some.injEq,
      Prod.mk.injEq] at hrun
    rw [← hrun.1]

/-- C6, as the code has it: with the policy of section 4.3 and a resource
manager that accepts every plugin, two scheduling passes back to back on
`liveState` both hand plugin 0 to `LaunchAndWatchPlugin`; the second pass does
launch a plugin. -/
theorem second_pass_launches_again :
    launched (liveState.needScheduling (policy.SimpleScheduler fun _ => true)
        (fun _ _ => true) 1 (NewEvent EventType.EventNewGoal "g1")).2 = [0] ∧
    ¬ launched ((liveState.needScheduling (policy.SimpleScheduler fun _ => true)
          (fun _ _ => true) 1 (NewEvent EventType.EventNewGoal "g1")).1.needScheduling
        (policy.SimpleScheduler fun _ => true) (fun _ _ => true) 2
        (NewEvent EventType.EventNewGoal "g1")).2 = [] := by
  decide

/-- C6, amended: with the policy of section 4.3 and a `WillItFit` that reads
names, specs and scheduling statuses only, the second of two scheduling passes
handled back to back changes no scheduling status, and it hands to
`LaunchAndWatchPlugin` exactly what the first pass handed: the same plugin
once more if the first pass launched one, nothing if it launched nothing. -/
theorem second_pass_same_status_same_launch (ns : NodeScheduler) (sat : String → Bool)
    (WillItFit : Heap → Addr → Bool) (t1 t2 : Nat) (e1 e2 : Event)
    (hfit : ∀ h h' a, Heap.SameScheduling h h' → WillItFit h a = WillItFit h' a) :
    (∀ plugin,
      ((ns.needScheduling (policy.SimpleScheduler sat) WillItFit t1 e1).1.needScheduling
          (policy.SimpleScheduler sat) WillItFit t2 e2).1.heap.status plugin
        = (ns.needScheduling (policy.SimpleScheduler sat) WillItFit t1 e1).1.heap.status plugin) ∧
    launched ((ns.needScheduling (policy.SimpleScheduler sat) WillItFit t1 e1).1.needScheduling
        (policy.SimpleScheduler sat) WillItFit t2 e2).2
      = launched (ns.needScheduling (policy.SimpleScheduler sat) WillItFit t1 e1).2 := by
  obtain ⟨h1, hgm, hl1⟩ := needScheduling_simple ns sat WillItFit t1 e1
  obtain ⟨h2, _, hl2⟩ := needScheduling_simple
    (ns.needScheduling (policy.SimpleScheduler sat) WillItFit t1 e1).1 sat WillItFit t2 e2
  rw [hgm] at h2 hl2
  have hprom : ((localPlugins ns.GoalManager.ScienceGoals ns.GoalManager.NodeID).foldl
        (policy.SimpleScheduler.promoteOne sat t2)
        (ns.needScheduling (policy.SimpleScheduler sat) WillItFit t1 e1).1.heap).SameScheduling
      ((localPlugins ns.GoalManager.ScienceGoals ns.GoalManager.NodeID).foldl
        (policy.SimpleScheduler.promoteOne sat t1) ns.heap) :=
    (promoteList_congr sat t2 t2 _ _ _ h1).trans (promoteList_idem sat t1 t2 _ _)
  refine ⟨fun plugin => ?_, ?_⟩
  · exact ((h2.trans hprom).trans h1.symm plugin).2.2
  · rw [hl2, hl1, SelectBestTask_congr _ _ _ _ _ hprom]
    cases policy.SimpleScheduler.SelectBestTask
        ((localPlugins ns.GoalManager.ScienceGoals ns.GoalManager.NodeID).foldl
          (policy.SimpleScheduler.promoteOne sat t1) ns.heap)
        ns.GoalManager.ScienceGoals availableResource ns.GoalManager.NodeID with
    | mk o err =>
      cases err with
      | some e => cases o <;> rfl
      | none =>
        cases o with
        | none => rfl
        | some a => simp only [hfit _ _ a hprom]

/-- The two-pass statement at `liveState`, with every rule satisfied and a
resource manager that accepts every plugin. -/
theorem second_pass_same_status_same_launch_witness :
    (∀ plugin,
      ((liveState.needScheduling (policy.SimpleScheduler fun _ => true) (fun _ _ => true) 1
            (NewEvent EventType.EventNewGoal "g1")).1.needScheduling
          (policy.SimpleScheduler fun _ => true) (fun _ _ => true) 2
          (NewEvent EventType.EventPluginStatusFailed "p9")).1.heap.status plugin
        = (liveState.needScheduling (policy.SimpleScheduler fun _ => true) (fun _ _ => true) 1
            (NewEvent EventType.EventNewGoal "g1")).1.heap.status plugin) ∧
    launched ((liveState.needScheduling (policy.SimpleScheduler fun _ => true)
          (fun _ _ => true) 1 (NewEvent EventType.EventNewGoal "g1")).1.needScheduling
        (policy.SimpleScheduler fun _ => true) (fun _ _ => true) 2
        (NewEvent EventType.EventPluginStatusFailed "p9")).2
      = launched (liveState.needScheduling (policy.SimpleScheduler fun _ => true)
          (fun _ _ => true) 1 (NewEvent EventType.EventNewGoal "g1")).2 :=
  second_pass_same_status_same_launch liveState (fun _ => true) (fun _ _ => true) 1 2
    (NewEvent EventType.EventNewGoal "g1") (NewEvent EventType.EventPluginStatusFailed "p9")
    (fun _ _ _ _ => rfl)

theorem GoalTable.get_set_self (t : GoalTable) (k : String) (g : ScienceGoal) :
    (t.set k g).get k = some g := by
  simp [GoalTable.get, GoalTable.set, List.lookup]

theorem GoalTable.get_set_other (t : GoalTable) (k k' : String) (g : ScienceGoal)
    (hne : k' ≠ k) : (t.set k g).get k' = t.get k' := by
  have hk : (k' == k) = false := by simpa using hne
  simp only [GoalTable.get, GoalTable.set, List.lookup, hk]
  induction t with
  | nil => rfl
  | cons e t ih =>
    obtain ⟨k1, g1⟩ := e
    by_cases h1 : k1 = k
    · subst h1
      have hk1 : (k' == k1) = false := hk
      simp [List.filter_cons, List.lookup, hk1, ih]
    · have hk1 : (k1 == k) = false := by simpa using h1
      simp only [List.filter_cons, hk1, Bool.not_false, if_true, List.lookup]
      cases k' == k1 with
      | true => rfl
      | false => exact ih

theorem GoalTable.filter_set_self (t : GoalTable) (k : String) (g : ScienceGoal) :
    (t.set k g).filter (fun e => e.1 == k) = [(k, g)] := by
  simp only [GoalTable.set, List.filter_cons, beq_self_eq_true, if_true, List.filter_filter]
  simp

/-- C9: when `NodeGoalManager.Run` receives a science goal, the goal table
afterwards maps the key of the goal (its name) to exactly that goal, holds no
other entry under that key, and maps every other key as before; exactly one
event is published to the scheduler, of type `EventNewGoal` with that key as
body, and `GetScienceGoal` on the body of the event returns the goal. -/
theorem Run_inserts_goal (ngm : NodeGoalManager) (scienceGoal : ScienceGoal) :
    (ngm.Run scienceGoal).1.ScienceGoals.get scienceGoal.Name = some scienceGoal ∧
    (ngm.Run scienceGoal).1.ScienceGoals.filter (fun e => e.1 == scienceGoal.Name)
      = [(scienceGoal.Name, scienceGoal)] ∧
    (∀ key, key ≠ scienceGoal.Name →
      (ngm.Run scienceGoal).1.ScienceGoals.get key = ngm.ScienceGoals.get key) ∧
    toScheduler (ngm.Run scienceGoal).2
      = [{ Typ := EventType.EventNewGoal, Body := scienceGoal.Name }] ∧
    (∀ event ∈ toScheduler (ngm.Run scienceGoal).2,
      (ngm.Run scienceGoal).1.GetScienceGoal event.Body = Except.ok scienceGoal) ∧
    (ngm.Run scienceGoal).1.NodeID = ngm.NodeID := by
  refine ⟨GoalTable.get_set_self _ _ _, GoalTable.filter_set_self _ _ _,
    fun key hne => GoalTable.get_set_other _ _ _ _ hne, ?_, ?_, rfl⟩
  · simp [NodeGoalManager.Run, toScheduler, NewEvent]
  · intro event hev
    simp only [NodeGoalManager.Run, toScheduler, NewEvent, List.filterMap_cons,
      List.filterMap_nil, List.mem_singleton] at hev
    subst hev
    simp only [NodeGoalManager.GetScienceGoal, NodeGoalManager.Run,
      GoalTable.get_set_self]

/-- C10: for every job template (and every id drawn for the goal),
`convertJobTemplateToScienceGoal` returns no error and a science goal that
bears the name of the template and has exactly one sub-goal, whose node name
is the `NodeID` of the goal manager. -/
theorem convertJobTemplateToScienceGoal_one_subgoal (gm : NodeGoalManager) (h : Heap)
    (u : String) (job : JobTemplate) :
    ∃ scienceGoal subGoal,
      (gm.convertJobTemplateToScienceGoal h u job).2 = Except.ok scienceGoal ∧
      scienceGoal.SubGoals = [subGoal] ∧
      scienceGoal.SubGoals.length = 1 ∧
      subGoal.Node.Name = gm.NodeID ∧
      scienceGoal.GetMySubGoal gm.NodeID = some subGoal ∧
      scienceGoal.Name = job.Name ∧
      scienceGoal.ID = u :=
  ⟨_, _, rfl, rfl, rfl, rfl, by simp [ScienceGoal.GetMySubGoal], rfl, rfl⟩

/-- C8: `pullGoalsFromK3S` sends a goal to the goal manager exactly when the
watch event is Added or Modified, its object is a ConfigMap and the text under
`goals` parses; the goal sent is then the conversion of the parsed template.
In every other case (parse failure, other kind of event, other object) it
sends nothing and the goal table after the update is the table before it; a
parse failure is logged as an error. -/
theorem pullGoalsFromK3S_submits_iff (ngm : NodeGoalManager)
    (Unmarshal : String → Except String JobTemplate) (h : Heap) (u : String)
    (event : WatchEvent) :
    (∀ scienceGoal, scienceGoal ∈ submitted (ngm.pullGoalsFromK3S Unmarshal h u event).2 ↔
      ((event.Typ = WatchEventType.Added ∨ event.Typ = WatchEventType.Modified) ∧
        ∃ Data jobTemplate, event.Object = WatchObject.ConfigMap Data ∧
          Unmarshal (configMapData Data "goals") = Except.ok jobTemplate ∧
          (ngm.convertJobTemplateToScienceGoal h u jobTemplate).2 = Except.ok scienceGoal)) ∧
    (submitted (ngm.pullGoalsFromK3S Unmarshal h u event).2).length ≤ 1 ∧
    ((¬ ((event.Typ = WatchEventType.Added ∨ event.Typ = WatchEventType.Modified) ∧
        ∃ Data jobTemplate, event.Object = WatchObject.ConfigMap Data ∧
          Unmarshal (configMapData Data "goals") = Except.ok jobTemplate)) →
      submitted (ngm.pullGoalsFromK3S Unmarshal h u event).2 = [] ∧
      (ngm.goalSourceUpdate Unmarshal h u event).1 = ngm ∧
      (ngm.goalSourceUpdate Unmarshal h u event).1.ScienceGoals = ngm.ScienceGoals ∧
      (ngm.goalSourceUpdate Unmarshal h u event).2 = h) ∧
    (∀ Data err, (event.Typ = WatchEventType.Added ∨ event.Typ = WatchEventType.Modified) →
      event.Object = WatchObject.ConfigMap Data →
      Unmarshal (configMapData Data "goals") = Except.error err →
      Effect.LogError ∈ (ngm.pullGoalsFromK3S Unmarshal h u event).2) := by
  obtain ⟨typ, obj⟩ := event
  have hother : ∀ ev : WatchEvent,
      ngm.pullGoalsFromK3S Unmarshal h u ev = (h, []) →
      (¬ ((ev.Typ = WatchEventType.Added ∨ ev.Typ = WatchEventType.Modified) ∧
        ∃ Data jobTemplate, ev.Object = WatchObject.ConfigMap Data ∧
          Unmarshal (configMapData Data "goals") = Except.ok jobTemplate)) →
      (∀ scienceGoal, scienceGoal ∈ submitted (ngm.pullGoalsFromK3S Unmarshal h u ev).2 ↔
        ((ev.Typ = WatchEventType.Added ∨ ev.Typ = WatchEventType.Modified) ∧
          ∃ Data jobTemplate, ev.Object = WatchObject.ConfigMap Data ∧
            Unmarshal (configMapData Data "goals") = Except.ok jobTemplate ∧
            (ngm.convertJobTemplateToScienceGoal h u jobTemplate).2
              = Except.ok scienceGoal)) ∧
      (submitted (ngm.pullGoalsFromK3S Unmarshal h u ev).2).length ≤ 1 ∧
      ((¬ ((ev.Typ = WatchEventType.Added ∨ ev.Typ = WatchEventType.Modified) ∧
          ∃ Data jobTemplate, ev.Object = WatchObject.ConfigMap Data ∧
            Unmarshal (configMapData Data "goals") = Except.ok jobTemplate)) →
        submitted (ngm.pullGoalsFromK3S Unmarshal h u ev).2 = [] ∧
        (ngm.goalSourceUpdate Unmarshal h u ev).1 = ngm ∧
        (ngm.goalSourceUpdate Unmarshal h u ev).1.ScienceGoals = ngm.ScienceGoals ∧
        (ngm.goalSourceUpdate Unmarshal h u ev).2 = h) := by
    intro ev hev hno
    simp only [NodeGoalManager.goalSourceUpdate, hev, submitted, List.filterMap_nil,
      List.not_mem_nil, List.length_nil, Nat.zero_le, List.foldl_nil, true_and, and_self,
      implies_true, and_true, false_iff]
    rintro scienceGoal ⟨htyp, Data, job, hobj, hparse, _⟩
    exact hno ⟨htyp, Data, job, hobj, hparse⟩
  have hconfig : ∀ ev : WatchEvent, ∀ Data,
      (ev.Typ = WatchEventType.Added ∨ ev.Typ = WatchEventType.Modified) →
      ev.Object = WatchObject.ConfigMap Data →
      ngm.pullGoalsFromK3S Unmarshal h u ev
        = match Unmarshal (configMapData Data "goals") with
          | .error _ => (h, [Effect.LogDebug, Effect.LogError])
          | .ok jobTemplate =>
            ((ngm.convertJobTemplateToScienceGoal h u jobTemplate).1,
             [Effect.LogDebug, Effect.NewGoalToGoalManager
               { ID := u, Name := jobTemplate.Name,
                 SubGoals := [{ Node := { Name := ngm.NodeID },
                                Plugins := (NodeGoalManager.appendPlugins h []
                                  jobTemplate.Plugins).2 }] }]) := by
    intro ev Data htyp hobj
    obtain ⟨typ1, obj1⟩ := ev
    simp only at htyp hobj
    subst hobj
    rcases htyp with rfl | rfl <;>
      · simp only [NodeGoalManager.pullGoalsFromK3S]
        cases Unmarshal (configMapData Data "goals") <;> rfl
  by_cases hcfg : (typ = WatchEventType.Added ∨ typ = WatchEventType.Modified) ∧
      ∃ Data, obj = WatchObject.ConfigMap Data
  · obtain ⟨htyp, Data, hobj⟩ := hcfg
    have hpull := hconfig ⟨typ, obj⟩ Data htyp hobj
    cases hparse : Unmarshal (configMapData Data "goals") with
    | error err =>
      rw [hparse] at hpull
      have hno : ¬ ((typ = WatchEventType.Added ∨ typ = WatchEventType.Modified) ∧
          ∃ Data1 jobTemplate, obj = WatchObject.ConfigMap Data1 ∧
            Unmarshal (configMapData Data1 "goals") = Except.ok jobTemplate) := by
        rintro ⟨_, Data1, job, hobj1, hparse1⟩
        rw [hobj] at hobj1
        cases hobj1
        rw [hparse] at hparse1
        cases hparse1
      refine ⟨?_, ?_, ?_, ?_⟩
      · intro scienceGoal
        simp only [hpull, submitted, List.filterMap_cons, List.filterMap_nil,
          List.not_mem_nil, false_iff]
        rintro ⟨h1, Data1, job, h2, h3, _⟩
        exact hno ⟨h1, Data1, job, h2, h3⟩
      · simp [hpull, submitted]
      · intro _
        simp [NodeGoalManager.goalSourceUpdate, hpull, submitted]
      · intro _ _ _ _ _
        simp [hpull]
    | ok job =>
      rw [hparse] at hpull
      refine ⟨?_, ?_, ?_, ?_⟩
      · intro scienceGoal
        simp only [hpull, submitted, List.filterMap_cons, List.filterMap_nil,
          List.mem_singleton]
        constructor
        · rintro rfl
          exact ⟨htyp, Data, job, hobj, hparse, rfl⟩
        · rintro ⟨_, Data1, job1, hobj1, hparse1, hconv⟩
          rw [hobj] at hobj1
          cases hobj1
          rw [hparse] at hparse1
          cases hparse1
          exact (Except.ok.inj hconv).symm
      · simp [hpull, submitted]
      · intro hno
        exact absurd ⟨htyp, Data, job, hobj, hparse⟩ hno
      · intro Data1 err _ hobj1 hparse1
        rw [hobj] at hobj1
        cases hobj1
        rw [hparse] at hparse1
        cases hparse1
  · have hno : ¬ ((typ = WatchEventType.Added ∨ typ = WatchEventType.Modified) ∧
        ∃ Data1 jobTemplate, obj = WatchObject.ConfigMap Data1 ∧
          Unmarshal (configMapData Data1 "goals") = Except.ok jobTemplate) := by
      rintro ⟨h1, Data1, job, h2, _⟩
      exact hcfg ⟨h1, Data1, h2⟩
    have hpull : ngm.pullGoalsFromK3S Unmarshal h u ⟨typ, obj⟩ = (h, []) := by
      cases typ <;> cases obj
      case Added.ConfigMap Data => exact absurd ⟨Or.inl rfl, Data, rfl⟩ hcfg
      case Modified.ConfigMap Data => exact absurd ⟨Or.inr rfl, Data, rfl⟩ hcfg
      all_goals rfl
    obtain ⟨h1, h2, h3⟩ := hother ⟨typ, obj⟩ hpull hno
    refine ⟨h1, h2, h3, ?_⟩
    intro Data err htyp hobj _
    exact absurd ⟨htyp, Data, hobj⟩ hcfg

/-- A run of the loop body on two updates of the goal source: the text `ok`
yields one goal with a fresh plugin at address 2, any other text yields none. -/
theorem goalSource_sample_runs :
    submitted ((default : NodeGoalManager).pullGoalsFromK3S sampleUnmarshal
        liveState.heap "u2" ⟨WatchEventType.Modified, WatchObject.ConfigMap [("goals", "ok")]⟩).2
      = [{ ID := "u2", Name := "job1", SubGoals := [{ Node := { Name := "" }, Plugins := [2] }] }] ∧
    submitted ((default : NodeGoalManager).pullGoalsFromK3S sampleUnmarshal
        liveState.heap "u2" ⟨WatchEventType.Modified, WatchObject.ConfigMap [("goals", "-")]⟩).2
      = [] := by
  decide

theorem appendPlugins_cons (h : Heap) (acc : List Addr) (s : PluginSpec)
    (rest : List PluginSpec) :
    NodeGoalManager.appendPlugins h acc (s :: rest)
      = NodeGoalManager.appendPlugins (h.alloc (NodeGoalManager.newPlugin s)).1
          (acc ++ [h.next]) rest := rfl

theorem appendPlugins_spec (specs : List PluginSpec) :
    ∀ (h : Heap) (acc : List Addr), (∀ a ∈ acc, a < h.next) →
      (NodeGoalManager.appendPlugins h acc specs).2.map
          (NodeGoalManager.appendPlugins h acc specs).1.mem
        = acc.map h.mem ++ specs.map NodeGoalManager.newPlugin ∧
      (NodeGoalManager.appendPlugins h acc specs).2
        = acc ++ List.range' h.next specs.length ∧
      (NodeGoalManager.appendPlugins h acc specs).1.next = h.next + specs.length ∧
      (∀ a, a < h.next → (NodeGoalManager.appendPlugins h acc specs).1.mem a = h.mem a) := by
  induction specs with
  | nil =>
    intro h acc _
    simp [NodeGoalManager.appendPlugins]
  | cons s rest ih =>
    intro h acc hacc
    rw [appendPlugins_cons]
    have hnext : (h.alloc (NodeGoalManager.newPlugin s)).1.next = h.next + 1 := rfl
    have hmem : ∀ a, a < h.next → (h.alloc (NodeGoalManager.newPlugin s)).1.mem a = h.mem a := by
      intro a ha
      exact Function.update_noteq (Nat.ne_of_lt ha) _ _
    have hnew : (h.alloc (NodeGoalManager.newPlugin s)).1.mem h.next
        = NodeGoalManager.newPlugin s := by
      simp [Heap.alloc]
    have hacc1 : ∀ a ∈ acc ++ [h.next], a < (h.alloc (NodeGoalManager.newPlugin s)).1.next := by
      intro a ha
      rw [hnext]
      rcases List.mem_append.mp ha with ha | ha
      · exact Nat.lt_succ_of_lt (hacc a ha)
      · rw [List.mem_singleton.mp ha]
        exact Nat.lt_succ_self _
    obtain ⟨h1, h2, h3, h4⟩ := ih _ _ hacc1
    refine ⟨?_, ?_, ?_, ?_⟩
    · rw [h1, List.map_append, List.map_singleton, hnew, List.map_cons, List.append_assoc,
        List.singleton_append]
      congr 1
      exact List.map_congr_left fun a ha => hmem a (hacc a ha)
    · rw [h2, hnext, List.length_cons, List.range'_succ, List.append_assoc,
        List.singleton_append]
    · rw [h3, hnext, List.length_cons]
      rw [Nat.add_assoc, Nat.add_comm 1]
    · intro a ha
      rw [h4 a (by rw [hnext]; exact Nat.lt_succ_of_lt ha)]
      exact hmem a ha

/-- C11: for a job template with plugin specs `s_1..s_n`, the sub-goal built
by `convertJobTemplateToScienceGoal` holds exactly `n` plugin pointers, to
freshly allocated objects; read in order, the objects are those of `s_1..s_n`
in the same order, each with the name and the spec of its `s_i` and the
scheduling status Waiting; the plugin objects that existed before are left as
they were. -/
theorem convertJobTemplateToScienceGoal_plugins (gm : NodeGoalManager) (h : Heap)
    (u : String) (job : JobTemplate) :
    ∃ scienceGoal subGoal,
      (gm.convertJobTemplateToScienceGoal h u job).2 = Except.ok scienceGoal ∧
      scienceGoal.SubGoals = [subGoal] ∧
      subGoal.Plugins.length = job.Plugins.length ∧
      subGoal.Plugins = List.range' h.next job.Plugins.length ∧
      subGoal.Plugins.map (gm.convertJobTemplateToScienceGoal h u job).1.mem
        = job.Plugins.map NodeGoalManager.newPlugin ∧
      (∀ i : Nat, (subGoal.Plugins[i]?).map (gm.convertJobTemplateToScienceGoal h u job).1.mem
        = (job.Plugins[i]?).map fun s =>
            { Name := s.Name, PluginSpec := s,
              Status := { SchedulingStatus := SchedulingStatus.Waiting, Since := 0 } }) ∧
      (∀ plugin ∈ subGoal.Plugins,
        (gm.convertJobTemplateToScienceGoal h u job).1.status plugin
          = SchedulingStatus.Waiting) ∧
      (∀ a, a < h.next → (gm.convertJobTemplateToScienceGoal h u job).1.mem a = h.mem a) := by
  obtain ⟨h1, h2, _, h4⟩ := appendPlugins_spec job.Plugins h [] (by simp)
  simp only [List.map_nil, List.nil_append] at h1 h2
  refine ⟨_, _, rfl, rfl, ?_, h2, h1, ?_, ?_, h4⟩
  · show (NodeGoalManager.appendPlugins h [] job.Plugins).2.length = _
    rw [h2, List.length_range']
  · intro i
    have := congrArg (fun l => l[i]?) h1
    simpa [List.getElem?_map] using this
  · intro plugin hp
    have hm : (gm.convertJobTemplateToScienceGoal h u job).1.mem plugin
        ∈ job.Plugins.map NodeGoalManager.newPlugin := by
      rw [← h1]
      exact List.mem_map_of_mem _ hp
    obtain ⟨s, _, hs⟩ := List.mem_map.mp hm
    show ((gm.convertJobTemplateToScienceGoal h u job).1.mem plugin).Status.SchedulingStatus = _
    rw [← hs]
    rfl

theorem GoalTable.mem_of_get_eq_some (t : GoalTable) (k : String) (g : ScienceGoal)
    (h : t.get k = some g) : (k, g) ∈ t := by
  induction t with
  | nil => exact absurd h (by simp [GoalTable.get, List.lookup])
  | cons e t ih =>
    obtain ⟨k1, g1⟩ := e
    by_cases hk : k = k1
    · subst hk
      simp only [GoalTable.get, List.lookup, beq_self_eq_true, Option.some.injEq] at h
      subst h
      exact List.mem_cons_self _ _
    · have hne : (k == k1) = false := by simpa using hk
      simp only [GoalTable.get, List.lookup, hne] at h
      exact List.mem_cons_of_mem _ (ih h)

theorem GoalTable.get_isSome_of_mem_keys (t : GoalTable) (k : String) (h : k ∈ t.keys) :
    ∃ g, t.get k = some g := by
  induction t with
  | nil => exact absurd h (by simp [GoalTable.keys])
  | cons e t ih =>
    obtain ⟨k1, g1⟩ := e
    by_cases hk : k = k1
    · subst hk
      exact ⟨g1, by simp [GoalTable.get, List.lookup]⟩
    · have hne : (k == k1) = false := by simpa using hk
      simp only [GoalTable.keys, List.map_cons, List.mem_cons, hk, false_or] at h
      obtain ⟨g, hg⟩ := ih h
      exact ⟨g, by simpa [GoalTable.get, List.lookup, hne] using hg⟩

theorem GetScienceGoal_eq_ok_iff (ngm : NodeGoalManager) (goalID : String) (goal : ScienceGoal) :
    ngm.GetScienceGoal goalID = Except.ok goal ↔ ngm.ScienceGoals.get goalID = some goal := by
  unfold NodeGoalManager.GetScienceGoal
  cases ngm.ScienceGoals.get goalID with
  | none => simp
  | some g => simp

/-- C12: `GetScienceGoal(goalID)` returns a goal and a nil error if and only
if `goalID` is a key of the goal table, and the goal is then the one stored
under that key; otherwise it returns no goal and the error "The goal ... does
not exist". The function only reads the table: it returns no table, and the
handler of `NodeScheduler.Run` that calls it ends with the goal manager it
started with, whichever way the lookup went. -/
theorem GetScienceGoal_iff_key (ngm : NodeGoalManager) (goalID : String) :
    ((∃ goal, ngm.GetScienceGoal goalID = Except.ok goal) ↔
      goalID ∈ ngm.ScienceGoals.keys) ∧
    (∀ goal, ngm.GetScienceGoal goalID = Except.ok goal →
      ngm.ScienceGoals.get goalID = some goal ∧ (goalID, goal) ∈ ngm.ScienceGoals) ∧
    ((¬ goalID ∈ ngm.ScienceGoals.keys) ↔
      ngm.GetScienceGoal goalID
        = Except.error ("The goal " ++ goalID ++ " does not exist")) ∧
    (∀ (ns ns1 : NodeScheduler) (now : Nat) (event : Event) (status : SchedulingStatus)
        (effects : List Effect),
      ns.GoalManager = ngm → ns.updatePluginStatus now event status = some (ns1, effects) →
      ns1.GoalManager = ngm) := by
  have hkey : (∃ goal, ngm.GetScienceGoal goalID = Except.ok goal) ↔
      goalID ∈ ngm.ScienceGoals.keys := by
    constructor
    · rintro ⟨goal, hg⟩
      have hmem := GoalTable.mem_of_get_eq_some _ _ _
        ((GetScienceGoal_eq_ok_iff ngm goalID goal).mp hg)
      exact List.mem_map.mpr ⟨(goalID, goal), hmem, rfl⟩
    · intro hk
      obtain ⟨g, hg⟩ := GoalTable.get_isSome_of_mem_keys _ _ hk
      exact ⟨g, (GetScienceGoal_eq_ok_iff ngm goalID g).mpr hg⟩
  refine ⟨hkey, ?_, ?_, ?_⟩
  · intro goal hg
    have h := (GetScienceGoal_eq_ok_iff ngm goalID goal).mp hg
    exact ⟨h, GoalTable.mem_of_get_eq_some _ _ _ h⟩
  · constructor
    · intro hk
      simp [NodeGoalManager.GetScienceGoal, GoalTable.get_eq_none_of_not_mem_keys _ _ hk]
    · intro herr hk
      obtain ⟨g, hg⟩ := hkey.mpr hk
      rw [hg] at herr
      cases herr
  · intro ns ns1 now event status effects hgm hrun
    rcases updatePluginStatus_state ns ns1 now event status effects hrun with h | ⟨plugin, h⟩
    · rw [h]; exact hgm
    · rw [h]; exact hgm

theorem SelectBestTask_eq (h : Heap) (t : GoalTable) (r : Resource) (nodeID : String) :
    policy.SimpleScheduler.SelectBestTask h t r nodeID
      = ((localPlugins t nodeID).find? (fun plugin =>
          h.status plugin == SchedulingStatus.Ready
            && (h.mem plugin).PluginSpec.Resource.fits r), none) := rfl

/-- C13: `SelectBestTask` never returns an error; it returns a plugin exactly
when that plugin is Ready, its requirement fits the available resource
component-wise, and every plugin before it (goals in the order of the table,
plugins in declaration order within the sub-goal of the node) is not Ready or
does not fit; it returns nil exactly when no Ready plugin fits. In the scenario
of section 8 (`p1` requires `{1,1,0}`, `p2` requires `{4,4,0}`, both Ready,
available `{2,2,0}`) it returns `p1`, also when `p2` comes first. The
scheduling pass calls it on the plugin store after promotion, with the whole
goal table. -/
theorem SelectBestTask_first_ready_fit (h : Heap) (t : GoalTable) (r : Resource)
    (nodeID : String) :
    (policy.SimpleScheduler.SelectBestTask h t r nodeID).2 = none ∧
    (∀ plugin, (policy.SimpleScheduler.SelectBestTask h t r nodeID).1 = some plugin ↔
      (h.status plugin = SchedulingStatus.Ready ∧
        (h.mem plugin).PluginSpec.Resource.fits r = true ∧
        ∃ before after, localPlugins t nodeID = before ++ plugin :: after ∧
          ∀ other ∈ before, ¬ (h.status other = SchedulingStatus.Ready ∧
            (h.mem other).PluginSpec.Resource.fits r = true))) ∧
    ((policy.SimpleScheduler.SelectBestTask h t r nodeID).1 = none ↔
      ∀ plugin ∈ localPlugins t nodeID, ¬ (h.status plugin = SchedulingStatus.Ready ∧
        (h.mem plugin).PluginSpec.Resource.fits r = true)) ∧
    (∀ key goal rest, localPlugins ((key, goal) :: rest) nodeID
      = (match goal.GetMySubGoal nodeID with
          | none => []
          | some subGoal => subGoal.Plugins) ++ localPlugins rest nodeID) ∧
    (∀ requirement capacity : Resource, requirement.fits capacity = true ↔
      (requirement.CPU ≤ capacity.CPU ∧ requirement.Memory ≤ capacity.Memory ∧
        requirement.GPUMemory ≤ capacity.GPUMemory)) ∧
    (∀ (ns : NodeScheduler) (sat : String → Bool) (now : Nat),
      ns.selected (policy.SimpleScheduler sat) now
        = policy.SimpleScheduler.SelectBestTask (ns.promote (policy.SimpleScheduler sat) now).heap
            ns.GoalManager.ScienceGoals availableResource ns.GoalManager.NodeID) ∧
    policy.SimpleScheduler.SelectBestTask scenarioHeap (scenarioTable [0, 1])
        { CPU := 2, Memory := 2, GPUMemory := 0 } "n1" = (some 0, none) ∧
    policy.SimpleScheduler.SelectBestTask scenarioHeap (scenarioTable [1, 0])
        { CPU := 2, Memory := 2, GPUMemory := 0 } "n1" = (some 0, none) ∧
    policy.SimpleScheduler.SelectBestTask scenarioHeap (scenarioTable [1, 0])
        { CPU := 0, Memory := 0, GPUMemory := 0 } "n1" = (none, none) := by
  refine ⟨rfl, ?_, ?_, fun _ _ _ => rfl, ?_, fun _ _ _ => rfl, by decide, by decide,
    by decide⟩
  · intro plugin
    rw [SelectBestTask_eq]
    simp only [List.find?_eq_some, Bool.and_eq_true, beq_iff_eq, Bool.not_eq_true',
      Bool.and_eq_false_imp]
    constructor
    · rintro ⟨⟨h1, h2⟩, before, after, hl, hb⟩
      refine ⟨h1, h2, before, after, hl, ?_⟩
      rintro other ho ⟨h3, h4⟩
      have := hb other ho h3
      rw [h4] at this
      cases this
    · rintro ⟨h1, h2, before, after, hl, hb⟩
      refine ⟨⟨h1, h2⟩, before, after, hl, ?_⟩
      intro other ho h3
      cases hf : (h.mem other).PluginSpec.Resource.fits r with
      | false => rfl
      | true => exact absurd ⟨h3, hf⟩ (hb other ho)
  · rw [SelectBestTask_eq]
    simp only [List.find?_eq_none, Bool.and_eq_true, beq_iff_eq]
  · intro requirement capacity
    simp [Resource.fits, and_assoc]

end nodescheduler

namespace knowledgebase

open datatype

/-- C14, as the code has it: for a goal that has no sub-goal for the node
name (here a goal without sub-goals and the node `n1`), `RegisterRules` stops
at the nil sub-goal and no request is enqueued. -/
theorem RegisterRules_without_subgoal :
    requests (Knowledgebase.RegisterRules { ID := "u1", Name := "g1", SubGoals := [] } "n1").1
      = [] ∧
    (Knowledgebase.RegisterRules { ID := "u1", Name := "g1", SubGoals := [] } "n1").2
      = false := by
  decide

/-- C14, amended: for every science goal that has a sub-goal for the node
name, `RegisterRules` returns after enqueueing exactly one request to the
knowledgebase, whose `Command` is "rule" and whose `Args` is the ID of the goal
followed by the science rules of that sub-goal, in order. -/
theorem RegisterRules_one_request (scienceGoal : ScienceGoal) (nodeName : String)
    (mySubGoal : SubGoal) (hsub : scienceGoal.GetMySubGoal nodeName = some mySubGoal) :
    requests (Knowledgebase.RegisterRules scienceGoal nodeName).1
      = [{ ReturnCode := 0, Command := "rule",
           Args := scienceGoal.ID :: mySubGoal.Sciencerules, Result := none }] ∧
    (Knowledgebase.RegisterRules scienceGoal nodeName).2 = true ∧
    forwarded (Knowledgebase.RegisterRules scienceGoal nodeName).1 = [] := by
  simp [Knowledgebase.RegisterRules, hsub, requests, forwarded]

/-- The request statement at `ruledGoal` and node `n1`: the request carries
the id `u7` and the rules `r1`, `r2` of the second sub-goal. -/
theorem RegisterRules_one_request_witness :
    requests (Knowledgebase.RegisterRules ruledGoal "n1").1
      = [{ ReturnCode := 0, Command := "rule",
           Args := ruledGoal.ID :: ["r1", "r2"], Result := none }] ∧
    (Knowledgebase.RegisterRules ruledGoal "n1").2 = true ∧
    forwarded (Knowledgebase.RegisterRules ruledGoal "n1").1 = [] :=
  RegisterRules_one_request ruledGoal "n1"
    { Node := { Name := "n1" }, Plugins := [0], Sciencerules := ["r1", "r2"] } (by decide)

/-- C15: for every message received by the event listener, if the message
parses as a plugin-context event then exactly one event is forwarded to the
scheduler, the parsed event with its `PluginName` lower-cased and nothing else
changed; if it does not parse, nothing is forwarded and an error is logged; in
both cases the listener goes on to the next message. -/
theorem Run_forwards_lowercased (Unmarshal : String → Except String EventPluginContext)
    (table : Char → Char) (byteMessage : String) :
    forwarded (Knowledgebase.Run Unmarshal table (Except.ok byteMessage)).1
      = (match Unmarshal byteMessage with
          | .ok event =>
            [{ GoalID := event.GoalID,
               PluginName := strings.ToLower table event.PluginName,
               Status := event.Status }]
          | .error _ => []) ∧
    (Knowledgebase.Run Unmarshal table (Except.ok byteMessage)).2 = true ∧
    ((∃ err, Unmarshal byteMessage = Except.error err) →
      (Knowledgebase.Run Unmarshal table (Except.ok byteMessage)).1 = [Effect.LogError]) ∧
    forwarded (Knowledgebase.Run sampleFrameUnmarshal id (Except.ok "ok")).1
      = [{ GoalID := "g7", PluginName := "plugin-a", Status := "Runnable" }] ∧
    forwarded (Knowledgebase.Run sampleFrameUnmarshal id (Except.ok "junk")).1 = [] := by
  refine ⟨?_, ?_, ?_, by decide, by decide⟩
  · cases h : Unmarshal byteMessage <;> simp [Knowledgebase.Run, h, forwarded]
  · cases h : Unmarshal byteMessage <;> simp [Knowledgebase.Run, h]
  · rintro ⟨err, h⟩
    simp [Knowledgebase.Run, h]

end knowledgebase

namespace hex

theorem EncodeToString_length (src : List Nat) : (EncodeToString src).length = 2 * src.length := by
  unfold EncodeToString
  rw [String.length_mk]
  induction src with
  | nil => rfl
  | cons v rest ih =>
    rw [List.flatMap_cons, List.length_append, ih, List.length_cons]
    simp only [List.length_cons, List.length_nil]
    omega

theorem hextable_getD_mem : ∀ i, i < 16 → hextable.getD i '0' ∈ hextable := by
  decide

theorem hextable_not_upper : ∀ c ∈ hextable, c.isUpper = false := by
  decide

theorem EncodeToString_mem (src : List Nat) (c : Char) (hc : c ∈ (EncodeToString src).data) :
    c ∈ hextable := by
  unfold EncodeToString at hc
  simp only [List.mem_flatMap, List.mem_cons, List.mem_singleton, List.not_mem_nil,
    or_false] at hc
  obtain ⟨v, _, rfl | rfl⟩ := hc
  · exact hextable_getD_mem _ (Nat.div_lt_of_lt_mul (Nat.mod_lt _ (by decide)))
  · exact hextable_getD_mem _ (Nat.mod_lt _ (by decide))

end hex

namespace nodescheduler

open datatype

/-- C16: for every plugin, when `rand.Read` delivers its 16 bytes,
`CreatePluginCredential` returns a nil error and a credential whose `Username`
is the lower-cased plugin name, a hyphen and the version unchanged, and whose
`Password` is the hex encoding of the 16 bytes: 32 characters, each one of
`0123456789abcdef`. When `rand.Read` fails the function panics. -/
theorem CreatePluginCredential_spec (rm : ResourceManager) (table : Char → Char)
    (random : Nat → Nat) (plugin : Plugin) :
    ∃ credential,
      rm.CreatePluginCredential table (Except.ok random) plugin = some (credential, none) ∧
      credential.Username
        = strings.ToLower table plugin.Name ++ "-" ++ plugin.PluginSpec.Version ∧
      credential.Password
        = hex.EncodeToString ((List.range 16).map fun i => random i % 256) ∧
      credential.Password.length = 32 ∧
      (∀ c ∈ credential.Password.data, c ∈ "0123456789abcdef".data) ∧
      (∀ c ∈ credential.Password.data, c.isUpper = false) ∧
      (∀ err, rm.CreatePluginCredential table (Except.error err) plugin = none) := by
  refine ⟨_, rfl, rfl, rfl, ?_, ?_, ?_, fun _ => rfl⟩
  · show (hex.EncodeToString _).length = 32
    rw [hex.EncodeToString_length, List.length_map, List.length_range]
  · intro c hc
    exact hex.EncodeToString_mem _ c hc
  · intro c hc
    exact hex.hextable_not_upper c (hex.EncodeToString_mem _ c hc)

end nodescheduler

namespace strings

theorem ascii_toLower_not_upper : ∀ n, n < 128 → (Char.ofNat n).toLower.isUpper = false := by
  decide

theorem toLowerRune_not_upper (table : Char → Char)
    (htable : ∀ r : Char, 128 ≤ r.toNat → (table r).isUpper = false) (r : Char) :
    (toLowerRune table r).isUpper = false := by
  unfold toLowerRune
  split
  · next h =>
    have := ascii_toLower_not_upper r.toNat h
    rwa [Char.ofNat_toNat] at this
  · next h => exact htable r (Nat.le_of_not_lt h)

theorem ToLower_not_upper (table : Char → Char)
    (htable : ∀ r : Char, 128 ≤ r.toNat → (table r).isUpper = false) (s : String) :
    ∀ c ∈ (ToLower table s).data, c.isUpper = false := by
  intro c hc
  simp only [ToLower, List.mem_map] at hc
  obtain ⟨r, _, rfl⟩ := hc
  exact toLowerRune_not_upper table htable r

end strings

namespace path

theorem Clean.loop_nil (rooted : Bool) (fuel : Nat) (out : List Char) (dotdot : Nat) :
    Clean.loop rooted fuel [] out dotdot = out := by
  cases fuel <;> rfl

theorem Clean.loop_slash (rooted : Bool) (fuel : Nat) (rest out : List Char) (dotdot : Nat) :
    Clean.loop rooted (fuel + 1) ('/' :: rest) out dotdot = Clean.loop rooted fuel rest out dotdot := by
  simp [Clean.loop]

theorem dropWhile_length_le (l : List Char) (p : Char → Bool) :
    (l.dropWhile p).length ≤ l.length := by
  induction l with
  | nil => simp
  | cons c l ih =>
    rw [List.dropWhile_cons]
    split
    · exact Nat.le_succ_of_le ih
    · exact Nat.le_refl _

/-- The fuel of the loop of `Clean` is never used up: with at least as many
turns as the path still to read has bytes, the result is the same whatever the
number of turns allowed. -/
theorem Clean.loop_fuel (rooted : Bool) :
    ∀ (fuel fuel1 : Nat) (path out : List Char) (dotdot : Nat),
      path.length ≤ fuel → path.length ≤ fuel1 →
      Clean.loop rooted fuel path out dotdot = Clean.loop rooted fuel1 path out dotdot := by
  intro fuel
  induction fuel with
  | zero =>
    intro fuel1 path out dotdot h0 _
    have hnil : path = [] := List.length_eq_zero.mp (Nat.le_zero.mp h0)
    subst hnil
    rw [Clean.loop_nil, Clean.loop_nil]
  | succ fuel ih =>
    intro fuel1 path out dotdot h0 h1
    cases path with
    | nil => rw [Clean.loop_nil, Clean.loop_nil]
    | cons c rest =>
      cases fuel1 with
      | zero => simp at h1
      | succ fuel1 =>
        have hr0 : rest.length ≤ fuel := Nat.le_of_succ_le_succ h0
        have hr1 : rest.length ≤ fuel1 := Nat.le_of_succ_le_succ h1
        have ht0 : rest.tail.length ≤ fuel := by
          rw [List.length_tail]; exact Nat.le_trans (Nat.sub_le _ _) hr0
        have ht1 : rest.tail.length ≤ fuel1 := by
          rw [List.length_tail]; exact Nat.le_trans (Nat.sub_le _ _) hr1
        rw [Clean.loop, Clean.loop]
        by_cases hc : c = '/'
        · rw [if_pos hc, if_pos hc]
          exact ih _ _ _ _ hr0 hr1
        · rw [if_neg hc, if_neg hc]
          split
          · exact ih _ _ _ _ hr0 hr1
          · split
            · split
              · exact ih _ _ _ _ ht0 ht1
              · split
                · exact ih _ _ _ _ ht0 ht1
                · exact ih _ _ _ _ ht0 ht1
            · have hd : (c :: rest).dropWhile (fun b => b != '/')
                  = rest.dropWhile (fun b => b != '/') := by
                rw [List.dropWhile_cons_of_pos]
                simpa using hc
              rw [hd]
              exact ih _ _ _ _ (Nat.le_trans (dropWhile_length_le _ _) hr0)
                (Nat.le_trans (dropWhile_length_le _ _) hr1)

theorem takeWhile_plainElement (e rest : List Char) (hslash : '/' ∉ e)
    (hrest : rest = [] ∨ rest.head? = some '/') :
    (e ++ rest).takeWhile (fun b => b != '/') = e ∧
    (e ++ rest).dropWhile (fun b => b != '/') = rest := by
  induction e with
  | nil =>
    rcases hrest with h | h
    · subst h; simp
    · cases rest with
      | nil => simp
      | cons c r =>
        simp only [List.head?_cons, Option.some.injEq] at h
        subst h
        simp
  | cons c e ih =>
    have hc : c ≠ '/' := fun h => hslash (h ▸ List.mem_cons_self _ _)
    have he : '/' ∉ e := fun h => hslash (List.mem_cons_of_mem _ h)
    obtain ⟨h1, h2⟩ := ih he
    simp [hc, h1, h2]

theorem Clean.loop_element (fuel : Nat) (e rest out : List Char) (dotdot : Nat)
    (hne : e ≠ []) (hslash : '/' ∉ e) (hdot : e ≠ ['.']) (hdotdot : e ≠ ['.', '.'])
    (hrest : rest = [] ∨ rest.head? = some '/') :
    Clean.loop true (fuel + 1) (e ++ rest) out dotdot
      = Clean.loop true fuel rest ((if out.length = 1 then out else out ++ ['/']) ++ e) dotdot := by
  obtain ⟨htake, hdrop⟩ := takeWhile_plainElement e rest hslash hrest
  cases e with
  | nil => exact absurd rfl hne
  | cons c e1 =>
    have hc : c ≠ '/' := fun h => hslash (h ▸ List.mem_cons_self _ _)
    have he1 : '/' ∉ e1 := fun h => hslash (List.mem_cons_of_mem _ h)
    have h2 : ¬ (c = '.' ∧ (e1 ++ rest = [] ∨ (e1 ++ rest).head? = some '/')) := by
      rintro ⟨hcd, h⟩
      cases e1 with
      | nil => exact hdot (by rw [hcd])
      | cons d e2 =>
        rcases h with h | h
        · simp at h
        · simp only [List.cons_append, List.head?_cons, Option.some.injEq] at h
          exact he1 (h ▸ List.mem_cons_self _ _)
    have h3 : ¬ (c = '.' ∧ (e1 ++ rest).head? = some '.' ∧
        ((e1 ++ rest).tail = [] ∨ (e1 ++ rest).tail.head? = some '/')) := by
      rintro ⟨hcd, hd, h⟩
      cases e1 with
      | nil =>
        rcases hrest with hr | hr
        · subst hr; simp at hd
        · simp only [List.nil_append] at hd
          rw [hr] at hd
          exact absurd hd (by decide)
      | cons d e2 =>
        simp only [List.cons_append, List.head?_cons, Option.some.injEq] at hd
        cases e2 with
        | nil => exact hdotdot (by rw [hcd, hd])
        | cons f e3 =>
          rcases h with h | h
          · simp at h
          · simp only [List.cons_append, List.tail_cons, List.head?_cons,
              Option.some.injEq] at h
            exact he1 (h ▸ List.mem_cons_of_mem _ (List.mem_cons_self _ _))
    rw [List.cons_append] at htake hdrop ⊢
    rw [Clean.loop]
    rw [if_neg hc, if_neg h2, if_neg h3]
    simp only [htake, hdrop]
    by_cases hl : out.length = 1
    · simp [hl]
    · simp [hl]

theorem plainElement_iff (e : String) :
    plainElement e = true ↔
      e.data ≠ [] ∧ '/' ∉ e.data ∧ e.data ≠ ['.'] ∧ e.data ≠ ['.', '.'] := by
  simp only [plainElement, decide_eq_true_eq]

theorem Clean_rooted (l out : List Char) (fuel : Nat) (hfuel : l.length + 1 = fuel)
    (hloop : Clean.loop true fuel l ['/'] 1 = out) (hout : out ≠ []) :
    Clean (String.mk ('/' :: l)) = String.mk out := by
  subst hfuel
  have hlen : out.length ≠ 0 := fun h0 => hout (List.length_eq_zero.mp h0)
  have hne : String.mk ('/' :: l) ≠ "" := by
    intro h1
    have := congrArg String.data h1
    simp at this
  simp only [Clean, hne, if_false, List.head?_cons, if_true, List.tail_cons,
    String.length, List.length_cons, hloop, hlen]

theorem Join_uploads (name version : String) (hname : plainElement name = true)
    (hversion : plainElement version = true) :
    Join ["/media/plugin-data/uploads", name, version]
      = "/media/plugin-data/uploads/" ++ name ++ "/" ++ version := by
  obtain ⟨n1, n2, n3, n4⟩ := (plainElement_iff name).mp hname
  obtain ⟨v1, v2, v3, v4⟩ := (plainElement_iff version).mp hversion
  have hjoin : strings.Join ["/media/plugin-data/uploads", name, version] "/"
      = String.mk ('/' :: ("media".data ++ '/' :: ("plugin-data".data ++ '/' :: ("uploads".data
          ++ '/' :: (name.data ++ '/' :: (version.data ++ [])))))) := by
    apply String.ext
    simp [strings.Join, String.intercalate, String.intercalate.go, String.data_append]
  have hdrop : (["/media/plugin-data/uploads", name, version].dropWhile (fun e => e == ""))
      = ["/media/plugin-data/uploads", name, version] := by
    rw [List.dropWhile_cons_of_neg (by decide)]
  have hloop : ∀ k, Clean.loop true (k + 10)
      ("media".data ++ '/' :: ("plugin-data".data ++ '/' :: ("uploads".data
          ++ '/' :: (name.data ++ '/' :: (version.data ++ []))))) ['/'] 1
      = '/' :: ("media".data ++ '/' :: ("plugin-data".data ++ '/' :: ("uploads".data
          ++ '/' :: (name.data ++ '/' :: version.data)))) := by
    intro k
    rw [Clean.loop_element (k + 9) "media".data _ _ _ (by decide) (by decide) (by decide)
        (by decide),
      Clean.loop_slash,
      Clean.loop_element (k + 7) "plugin-data".data _ _ _ (by decide) (by decide) (by decide)
        (by decide),
      Clean.loop_slash,
      Clean.loop_element (k + 5) "uploads".data _ _ _ (by decide) (by decide) (by decide)
        (by decide),
      Clean.loop_slash,
      Clean.loop_element (k + 3) name.data _ _ _ n1 n2 n3 n4,
      Clean.loop_slash,
      Clean.loop_element (k + 1) version.data _ _ _ v1 v2 v3 v4,
      Clean.loop_nil]
    · simp
    all_goals first | exact Or.inr rfl | exact Or.inl rfl
  rw [Join, hdrop]
  show Clean (strings.Join ["/media/plugin-data/uploads", name, version] "/") = _
  rw [hjoin]
  rw [Clean_rooted _ _ (name.data.length + version.data.length + 18 + 10) ?_ (hloop _)
    (List.cons_ne_nil _ _)]
  · apply String.ext
    simp [String.data_append]
  · simp only [List.length_append, List.length_cons, List.length_nil, String.data]
    omega

end path

namespace nodescheduler

open datatype

theorem CreateK3SDeployment_no_shims (rm : ResourceManager) (lib : Library)
    (errs : k8s.ApiErrors) (cluster : k8s.Cluster) (plugin : Plugin)
    (credential : PluginCredential) (hshims : plugin.PluginSpec.DataShims = []) :
    rm.CreateK3SDeployment lib errs cluster plugin credential
      = (cluster, [Call.Print],
         some (rm.deployment plugin credential (strings.ToLower lib.ToLowerTable plugin.Name)
           [uploadsVolume (strings.ToLower lib.ToLowerTable plugin.Name)
              plugin.PluginSpec.Version]
           [uploadsMount]), none) := by
  simp [ResourceManager.CreateK3SDeployment, hshims]

theorem CreateK3SDeployment_shims_error (rm : ResourceManager) (lib : Library)
    (errs : k8s.ApiErrors) (cluster cluster1 : k8s.Cluster) (plugin : Plugin)
    (credential : PluginCredential) (calls : List Call) (err : String)
    (hshims : plugin.PluginSpec.DataShims ≠ [])
    (hmap : rm.CreateDataConfigMap lib errs cluster
        (strings.ToLower lib.ToLowerTable
          ("waggle-data-config-" ++ strings.ToLower lib.ToLowerTable plugin.Name))
        plugin.PluginSpec.DataShims = (cluster1, calls, some err)) :
    rm.CreateK3SDeployment lib errs cluster plugin credential
      = (cluster1, calls, none, some err) := by
  have hlen : plugin.PluginSpec.DataShims.length > 0 := List.length_pos.mpr hshims
  simp [ResourceManager.CreateK3SDeployment, hlen, hmap]

theorem CreateK3SDeployment_shims_ok (rm : ResourceManager) (lib : Library)
    (errs : k8s.ApiErrors) (cluster cluster1 : k8s.Cluster) (plugin : Plugin)
    (credential : PluginCredential) (calls : List Call)
    (hshims : plugin.PluginSpec.DataShims ≠ [])
    (hmap : rm.CreateDataConfigMap lib errs cluster
        (strings.ToLower lib.ToLowerTable
          ("waggle-data-config-" ++ strings.ToLower lib.ToLowerTable plugin.Name))
        plugin.PluginSpec.DataShims = (cluster1, calls, none)) :
    rm.CreateK3SDeployment lib errs cluster plugin credential
      = (cluster1, calls ++ [Call.Print],
         some (rm.deployment plugin credential (strings.ToLower lib.ToLowerTable plugin.Name)
           [uploadsVolume (strings.ToLower lib.ToLowerTable plugin.Name)
              plugin.PluginSpec.Version,
            { Name := "waggle-data-config",
              ConfigMap := some (strings.ToLower lib.ToLowerTable
                ("waggle-data-config-" ++ strings.ToLower lib.ToLowerTable plugin.Name)) }]
           [uploadsMount,
            { Name := "waggle-data-config", MountPath := "/run/waggle",
              SubPath := "data-config.json" }]), none) := by
  have hlen : plugin.PluginSpec.DataShims.length > 0 := List.length_pos.mpr hshims
  simp [ResourceManager.CreateK3SDeployment, hlen, hmap]

theorem CreateK3SDeployment_some (rm : ResourceManager) (lib : Library)
    (errs : k8s.ApiErrors) (cluster cluster1 : k8s.Cluster) (plugin : Plugin)
    (credential : PluginCredential) (calls : List Call) (d : k8s.Deployment)
    (e : Option String)
    (hok : rm.CreateK3SDeployment lib errs cluster plugin credential
      = (cluster1, calls, some d, e)) :
    e = none ∧ ∃ specVolumes containerVoumeMounts,
      d = rm.deployment plugin credential (strings.ToLower lib.ToLowerTable plugin.Name)
        specVolumes containerVoumeMounts := by
  by_cases hshims : plugin.PluginSpec.DataShims = []
  · rw [CreateK3SDeployment_no_shims rm lib errs cluster plugin credential hshims] at hok
    simp only [Prod.mk.injEq, Option.some.injEq] at hok
    exact ⟨hok.2.2.2.symm, _, _, hok.2.2.1.symm⟩
  · rcases hmap : rm.CreateDataConfigMap lib errs cluster
        (strings.ToLower lib.ToLowerTable
          ("waggle-data-config-" ++ strings.ToLower lib.ToLowerTable plugin.Name))
        plugin.PluginSpec.DataShims with ⟨c1, calls1, _ | err⟩
    · rw [CreateK3SDeployment_shims_ok rm lib errs cluster c1 plugin credential calls1 hshims
        hmap] at hok
      simp only [Prod.mk.injEq, Option.some.injEq] at hok
      exact ⟨hok.2.2.2.symm, _, _, hok.2.2.1.symm⟩
    · rw [CreateK3SDeployment_shims_error rm lib errs cluster c1 plugin credential calls1 err
        hshims hmap] at hok
      simp at hok

/-- C17: for every plugin for which `CreateK3SDeployment` returns a
deployment, the name of the deployment, the `app` label of its selector, the
`app` label of its pod template and the name of its single container are the
lower-cased plugin name, the replica count is 1, the namespace is that of the
resource manager and no error is returned; the lower-cased name holds none of
the letters `A`..`Z`, the case table of the library lowering no rune beyond
ASCII to one of them. -/
theorem CreateK3SDeployment_names (rm : ResourceManager) (lib : Library)
    (errs : k8s.ApiErrors) (cluster cluster1 : k8s.Cluster) (plugin : Plugin)
    (credential : PluginCredential) (calls : List Call) (d : k8s.Deployment)
    (e : Option String)
    (hok : rm.CreateK3SDeployment lib errs cluster plugin credential
      = (cluster1, calls, some d, e))
    (htable : ∀ r : Char, 128 ≤ r.toNat → (lib.ToLowerTable r).isUpper = false) :
    e = none ∧
    d.ObjectMeta.Name = strings.ToLower lib.ToLowerTable plugin.Name ∧
    d.Spec.Selector.map (fun s => s.MatchLabels.lookup "app")
      = some (some (strings.ToLower lib.ToLowerTable plugin.Name)) ∧
    d.Spec.Template.ObjectMeta.Labels.lookup "app"
      = some (strings.ToLower lib.ToLowerTable plugin.Name) ∧
    d.Spec.Template.Spec.Containers.map (fun c => c.Name)
      = [strings.ToLower lib.ToLowerTable plugin.Name] ∧
    d.Spec.Replicas = some 1 ∧
    d.ObjectMeta.Namespace = rm.Namespace ∧
    (∀ c ∈ (strings.ToLower lib.ToLowerTable plugin.Name).data, c.isUpper = false) := by
  obtain ⟨he, vols, mounts, hd⟩ :=
    CreateK3SDeployment_some rm lib errs cluster cluster1 plugin credential calls d e hok
  subst hd
  refine ⟨he, rfl, ?_, ?_, rfl, rfl, rfl, strings.ToLower_not_upper _ htable _⟩
  · simp [ResourceManager.deployment, List.lookup]
  · simp [ResourceManager.deployment, List.lookup]

/-- The statement on names for `samplePlugin` (`Plugin-A`) in an empty
cluster: every name is `plugin-a`. -/
theorem CreateK3SDeployment_names_witness :
    (none : Option String) = none ∧
    sampleDeployment.ObjectMeta.Name
      = strings.ToLower sampleLibrary.ToLowerTable samplePlugin.Name ∧
    sampleDeployment.Spec.Selector.map (fun s => s.MatchLabels.lookup "app")
      = some (some (strings.ToLower sampleLibrary.ToLowerTable samplePlugin.Name)) ∧
    sampleDeployment.Spec.Template.ObjectMeta.Labels.lookup "app"
      = some (strings.ToLower sampleLibrary.ToLowerTable samplePlugin.Name) ∧
    sampleDeployment.Spec.Template.Spec.Containers.map (fun c => c.Name)
      = [strings.ToLower sampleLibrary.ToLowerTable samplePlugin.Name] ∧
    sampleDeployment.Spec.Replicas = some 1 ∧
    sampleDeployment.ObjectMeta.Namespace = sampleManager.Namespace ∧
    (∀ c ∈ (strings.ToLower sampleLibrary.ToLowerTable samplePlugin.Name).data,
      c.isUpper = false) :=
  CreateK3SDeployment_names sampleManager sampleLibrary {} {} { ConfigMaps := [sampleConfigMap] }
    samplePlugin sampleCredential [Call.CreateConfigMap sampleConfigMap, Call.Print]
    sampleDeployment none (by decide)
    (fun r hr => by
      show (id r).isUpper = false
      simp only [id, Char.isUpper, Bool.and_eq_false_imp, decide_eq_true_eq,
        decide_eq_false_iff_not]
      intro _ h
      have h2 : r.val.toNat ≤ 90 := h
      have h3 : r.val.toNat = r.toNat := rfl
      omega)


theorem and_and_of_three {a b c d e : Prop} (h : a ∧ b ∧ c) (hd : d) (he : e) :
    a ∧ b ∧ c ∧ d ∧ e :=
  ⟨h.1, h.2.1, h.2.2, hd, he⟩

/-- C18, as the code has it: the host path of the volume `uploads` is the
result of `path.Join`, which cleans the path. For a plugin without a version
it is `/media/plugin-data/uploads/plugin-a`, with no element for the version;
for a plugin named `..` with version `1.0` it is `/media/plugin-data/1.0`,
outside the directory `uploads`. -/
theorem CreateK3SDeployment_uploads_path_cleaned :
    (sampleManager.CreateK3SDeployment sampleLibrary {} {} unversionedPlugin
        sampleCredential).2.2.1.map
        (fun d => d.Spec.Template.Spec.Volumes.map fun v => v.HostPath.map fun p => p.Path)
      = some [some "/media/plugin-data/uploads/plugin-a"] ∧
    (sampleManager.CreateK3SDeployment sampleLibrary {} {} parentNamedPlugin
        sampleCredential).2.2.1.map
        (fun d => d.Spec.Template.Spec.Volumes.map fun v => v.HostPath.map fun p => p.Path)
      = some [some "/media/plugin-data/1.0"] := by
  decide

/-- C18, amended: the deployment returned by `CreateK3SDeployment` always has
the volume `uploads`, a host path `path.Join("/media/plugin-data/uploads",
lower-cased name, version)`, and its container the mount `uploads`; it has the
config-map volume `waggle-data-config` and its mount if and only if the
`DataShims` of the plugin are not empty; when they are not empty and
`CreateDataConfigMap` returns an error, no deployment is returned, and that
error is. When the lower-cased name and the version are plain path elements
(not empty, without a slash, neither `.` nor `..`) the host path is
`/media/plugin-data/uploads/<lower-cased name>/<version>`; for `samplePlugin`
it is `/media/plugin-data/uploads/plugin-a/0.1.0`. -/
theorem CreateK3SDeployment_volumes (rm : ResourceManager) (lib : Library)
    (errs : k8s.ApiErrors) (cluster : k8s.Cluster) (plugin : Plugin)
    (credential : PluginCredential) :
    (∀ cluster1 calls d e,
      rm.CreateK3SDeployment lib errs cluster plugin credential = (cluster1, calls, some d, e) →
      d.Spec.Template.Spec.Volumes.filter (fun v => v.Name == "uploads")
        = [{ Name := "uploads",
             HostPath := some
               { Path := path.Join ["/media/plugin-data/uploads",
                   strings.ToLower lib.ToLowerTable plugin.Name, plugin.PluginSpec.Version],
                 Typ := "DirectoryOrCreate" },
             ConfigMap := none }] ∧
      d.Spec.Template.Spec.Containers.map
          (fun c => c.VolumeMounts.filter (fun mnt => mnt.Name == "uploads"))
        = [[{ Name := "uploads", MountPath := "/run/waggle/uploads", SubPath := "" }]] ∧
      (d.Spec.Template.Spec.Volumes.filter (fun v => v.Name == "waggle-data-config")
        = if plugin.PluginSpec.DataShims = [] then []
          else [{ Name := "waggle-data-config", HostPath := none,
                  ConfigMap := some (strings.ToLower lib.ToLowerTable
                    ("waggle-data-config-"
                      ++ strings.ToLower lib.ToLowerTable plugin.Name)) }]) ∧
      (d.Spec.Template.Spec.Containers.map
          (fun c => c.VolumeMounts.filter (fun mnt => mnt.Name == "waggle-data-config"))
        = if plugin.PluginSpec.DataShims = [] then [[]]
          else [[{ Name := "waggle-data-config", MountPath := "/run/waggle",
                   SubPath := "data-config.json" }]]) ∧
      ((∃ v ∈ d.Spec.Template.Spec.Volumes, v.Name = "waggle-data-config") ↔
        plugin.PluginSpec.DataShims ≠ []) ∧
      ((∃ c ∈ d.Spec.Template.Spec.Containers, ∃ mnt ∈ c.VolumeMounts,
          mnt.Name = "waggle-data-config") ↔ plugin.PluginSpec.DataShims ≠ [])) ∧
    (plugin.PluginSpec.DataShims ≠ [] →
      ∀ err,
        (rm.CreateDataConfigMap lib errs cluster
          (strings.ToLower lib.ToLowerTable
            ("waggle-data-config-" ++ strings.ToLower lib.ToLowerTable plugin.Name))
          plugin.PluginSpec.DataShims).2.2 = some err →
        (rm.CreateK3SDeployment lib errs cluster plugin credential).2.2 = (none, some err)) ∧
    ((∃ d, (rm.CreateK3SDeployment lib errs cluster plugin credential).2.2.1 = some d) ↔
      (plugin.PluginSpec.DataShims = [] ∨
        (rm.CreateDataConfigMap lib errs cluster
          (strings.ToLower lib.ToLowerTable
            ("waggle-data-config-" ++ strings.ToLower lib.ToLowerTable plugin.Name))
          plugin.PluginSpec.DataShims).2.2 = none)) ∧
    (path.plainElement (strings.ToLower lib.ToLowerTable plugin.Name) = true →
      path.plainElement plugin.PluginSpec.Version = true →
      path.Join ["/media/plugin-data/uploads", strings.ToLower lib.ToLowerTable plugin.Name,
          plugin.PluginSpec.Version]
        = "/media/plugin-data/uploads/" ++ strings.ToLower lib.ToLowerTable plugin.Name
            ++ "/" ++ plugin.PluginSpec.Version) ∧
    (sampleManager.CreateK3SDeployment sampleLibrary {} {} samplePlugin
        sampleCredential).2.2.1.map
        (fun d => d.Spec.Template.Spec.Volumes.map fun v => v.HostPath.map fun p => p.Path)
      = some [some "/media/plugin-data/uploads/plugin-a/0.1.0", none] := by
  refine and_and_of_three ?_ (fun hn hv => path.Join_uploads _ _ hn hv) (by decide)
  by_cases hshims : plugin.PluginSpec.DataShims = []
  · rw [CreateK3SDeployment_no_shims rm lib errs cluster plugin credential hshims]
    refine ⟨?_, fun h => absurd hshims h, ?_⟩
    · intro cluster1 calls d e hok
      simp only [Prod.mk.injEq, Option.some.injEq] at hok
      obtain ⟨_, _, hd, _⟩ := hok
      subst hd
      simp [ResourceManager.deployment, uploadsVolume, uploadsMount, hshims]
    · simp [hshims]
  · rcases hmap : rm.CreateDataConfigMap lib errs cluster
        (strings.ToLower lib.ToLowerTable
          ("waggle-data-config-" ++ strings.ToLower lib.ToLowerTable plugin.Name))
        plugin.PluginSpec.DataShims with ⟨c1, calls1, _ | err⟩
    · rw [CreateK3SDeployment_shims_ok rm lib errs cluster c1 plugin credential calls1 hshims
        hmap]
      refine ⟨?_, ?_, ?_⟩
      · intro cluster1 calls d e hok
        simp only [Prod.mk.injEq, Option.some.injEq] at hok
        obtain ⟨_, _, hd, _⟩ := hok
        subst hd
        simp [ResourceManager.deployment, uploadsVolume, uploadsMount, hshims]
      · intro _ err herr
        simp at herr
      · simp
    · rw [CreateK3SDeployment_shims_error rm lib errs cluster c1 plugin credential calls1 err
        hshims hmap]
      refine ⟨?_, ?_, ?_⟩
      · intro cluster1 calls d e hok
        simp at hok
      · intro _ err1 herr
        simp only [Option.some.injEq] at herr
        rw [herr]
      · simp [hshims]

/-- A run of `CreateK3SDeployment` on `samplePlugin` in an empty cluster: the
config map of the shims is created, the deployment is `sampleDeployment`, its
`uploads` volume is the host path `/media/plugin-data/uploads/plugin-a/0.1.0`
and its image is `waggle/Plugin-A:0.1.0`. -/
theorem CreateK3SDeployment_sample_run :
    sampleManager.CreateK3SDeployment sampleLibrary {} {} samplePlugin sampleCredential
      = ({ ConfigMaps := [sampleConfigMap] },
         [Call.CreateConfigMap sampleConfigMap, Call.Print], some sampleDeployment, none) ∧
    sampleDeployment.Spec.Template.Spec.Volumes.map (fun v => v.HostPath.map fun p => p.Path)
      = [some "/media/plugin-data/uploads/plugin-a/0.1.0", none] ∧
    sampleDeployment.Spec.Template.Spec.Containers.map (fun c => c.Image)
      = ["waggle/Plugin-A:0.1.0"] := by
  decide

/-- C19: `TerminatePlugin(name)` returns the error of a failed listing and
does nothing else; when the listing shows no deployment named as the
lower-cased plugin name, it sends no delete, leaves the cluster as it is and
returns nil; when there is one, it sends one delete, for that name: a failure
of the delete is returned as the error, and after a successful delete no
deployment of that name is left, every other deployment is, and nil is
returned. -/
theorem TerminatePlugin_spec (rm : ResourceManager) (lib : Library) (errs : k8s.ApiErrors)
    (cluster : k8s.Cluster) (pluginName : String) :
    (∀ err, errs.ListDeployments = some err →
      rm.TerminatePlugin lib errs cluster pluginName = (cluster, [], some err)) ∧
    (errs.ListDeployments = none →
      (∀ d ∈ cluster.Deployments,
        d.ObjectMeta.Name ≠ strings.ToLower lib.ToLowerTable pluginName) →
      rm.TerminatePlugin lib errs cluster pluginName = (cluster, [Call.LogError], none) ∧
      deleted (rm.TerminatePlugin lib errs cluster pluginName).2.1 = []) ∧
    (errs.ListDeployments = none →
      (∃ d ∈ cluster.Deployments,
        d.ObjectMeta.Name = strings.ToLower lib.ToLowerTable pluginName) →
      deleted (rm.TerminatePlugin lib errs cluster pluginName).2.1
        = [strings.ToLower lib.ToLowerTable pluginName] ∧
      (rm.TerminatePlugin lib errs cluster pluginName).2.2 = errs.DeleteDeployment ∧
      (∀ err, errs.DeleteDeployment = some err →
        (rm.TerminatePlugin lib errs cluster pluginName).1 = cluster) ∧
      (errs.DeleteDeployment = none →
        (rm.TerminatePlugin lib errs cluster pluginName).1.Deployments
          = cluster.Deployments.filter
              (fun d => !(d.ObjectMeta.Name == strings.ToLower lib.ToLowerTable pluginName)) ∧
        (∀ d ∈ (rm.TerminatePlugin lib errs cluster pluginName).1.Deployments,
          d.ObjectMeta.Name ≠ strings.ToLower lib.ToLowerTable pluginName) ∧
        (∀ d ∈ cluster.Deployments,
          d.ObjectMeta.Name ≠ strings.ToLower lib.ToLowerTable pluginName →
          d ∈ (rm.TerminatePlugin lib errs cluster pluginName).1.Deployments) ∧
        (rm.TerminatePlugin lib errs cluster pluginName).1.ConfigMaps = cluster.ConfigMaps)) ∧
    deleted (sampleManager.TerminatePlugin sampleLibrary {} sampleCluster "Plugin-A").2.1
      = ["plugin-a"] ∧
    (sampleManager.TerminatePlugin sampleLibrary {} sampleCluster "Plugin-A").1.Deployments.map
        (fun d => d.ObjectMeta.Name) = ["other", "plugin-b"] ∧
    sampleManager.TerminatePlugin sampleLibrary {} sampleCluster "Plugin-C"
      = (sampleCluster, [Call.LogError], none) := by
  refine ⟨?_, ?_, ?_, by decide, by decide, by decide⟩
  · intro err herr
    simp [ResourceManager.TerminatePlugin, herr]
  · intro hlist hnone
    have hany : cluster.Deployments.any
        (fun d => d.ObjectMeta.Name == strings.ToLower lib.ToLowerTable pluginName) = false := by
      rw [List.any_eq_false]
      intro d hd
      simpa using hnone d hd
    simp [ResourceManager.TerminatePlugin, hlist, hany, deleted]
  · intro hlist hsome
    have hany : cluster.Deployments.any
        (fun d => d.ObjectMeta.Name == strings.ToLower lib.ToLowerTable pluginName) = true := by
      rw [List.any_eq_true]
      obtain ⟨d, hd, hname⟩ := hsome
      exact ⟨d, hd, by simpa using hname⟩
    cases hdel : errs.DeleteDeployment with
    | some err => simp [ResourceManager.TerminatePlugin, hlist, hany, hdel, deleted]
    | none =>
      have hres : rm.TerminatePlugin lib errs cluster pluginName
          = ({ cluster with
               Deployments := cluster.Deployments.filter
                 (fun d => !(d.ObjectMeta.Name
                   == strings.ToLower lib.ToLowerTable pluginName)) },
             [Call.DeleteDeployment (strings.ToLower lib.ToLowerTable pluginName),
              Call.LogInfo], none) := by
        simp [ResourceManager.TerminatePlugin, hlist, hany, hdel]
      rw [hres]
      refine ⟨by simp [deleted], rfl, fun err herr => absurd herr (by simp),
        fun _ => ⟨rfl, ?_, ?_, rfl⟩⟩
      · intro d hd
        simpa using (List.mem_filter.mp hd).2
      · intro d hd hne
        exact List.mem_filter.mpr ⟨hd, by simpa using hne⟩

end nodescheduler

namespace cloudscheduler

open datatype

/-- What one turn of the loop over the plugins does to the sub-goal: the
plugin is appended, as a fresh object, exactly when checks 1 to 3 pass; the
outcome of check 4 plays no part. -/
theorem validatePlugin_Plugins (plugins : List Plugin) (checks : Checks) (node : Node)
    (s : Progress) (plugin : Plugin) :
    (validatePlugin plugins checks node s plugin).Plugins
      = if pluginExists plugins plugin = true ∧
            (checks.GetPluginHardwareUnsupportedList node plugin).1 = true ∧
            (checks.GetPluginArchitectureSupportedDevices node plugin).1 = true
        then s.Plugins ++ [s.heap.next] else s.Plugins := by
  unfold validatePlugin
  cases h1 : pluginExists plugins plugin <;>
    cases h2 : (checks.GetPluginHardwareUnsupportedList node plugin).1 <;>
    cases h3 : (checks.GetPluginArchitectureSupportedDevices node plugin).1 <;>
    simp [Heap.alloc, h2, h3]

/-- C20, at a failing input: the job `sampleJob` (plugin `p1:0.1`, node `n1`)
with a registry that holds the plugin and a node that passes checks 1 to 3 but
whose device `d1` does not support the required resource. Check 4 appends its
error for `p1` on `n1`, and the plugin is in the sub-goal of `n1` all the
same. -/
theorem ValidateJobAndCreateScienceGoal_check4_still_included :
    (ValidateJobAndCreateScienceGoal sampleRegistry resourceFailingChecks emptyHeap
        sampleJob).errorList
      = [ValidationError.ResourceNotSupported "p1" "0.1" "d1" "n1"] ∧
    (ValidateJobAndCreateScienceGoal sampleRegistry resourceFailingChecks emptyHeap
        sampleJob).scienceGoal
      = { ID := "j1", Name := "job1",
          SubGoals := [{ Node := { Name := "n1" }, Plugins := [0],
                         Sciencerules := ["rule1"] }] } ∧
    ((ValidateJobAndCreateScienceGoal sampleRegistry resourceFailingChecks emptyHeap
        sampleJob).heap.mem 0).Name = "p1" ∧
    ((ValidateJobAndCreateScienceGoal sampleRegistry resourceFailingChecks emptyHeap
        sampleJob).heap.mem 0).PluginSpec.Version = "0.1" := by
  decide

end cloudscheduler

namespace nodescheduler

open datatype

theorem NoSchedulingStrategy_foldl (plugins : List (String × String)) (acc : List String) :
    plugins.foldl (fun prioritizedPlugins e => prioritizedPlugins ++ [e.1]) acc
      = acc ++ plugins.map Prod.fst := by
  induction plugins generalizing acc with
  | nil => simp
  | cons e rest ih => rw [List.foldl_cons, ih, List.map_cons, List.append_assoc,
      List.singleton_append]

theorem NoSchedulingStrategy_eq_keys (plugins : List (String × String))
    (currentPlugins : List String) :
    policy.NoSchedulingStrategy plugins currentPlugins = plugins.map Prod.fst := by
  unfold policy.NoSchedulingStrategy
  rw [NoSchedulingStrategy_foldl, List.nil_append]

/-- C22: for every plugin map, walked by `range` in any order, and every
`currentPlugins`, `NoSchedulingStrategy` returns the keys of the map in the
order of the walk: every key of the map exactly once and nothing else, so the
length of the result is the size of the map and the result is empty for the
empty map; another order of the walk gives a permutation of the result, and
the result does not depend on `currentPlugins`. -/
theorem NoSchedulingStrategy_keys_once (plugins : List (String × String))
    (currentPlugins : List String) (hkeys : (plugins.map Prod.fst).Nodup) :
    policy.NoSchedulingStrategy plugins currentPlugins = plugins.map Prod.fst ∧
    (∀ key, key ∈ policy.NoSchedulingStrategy plugins currentPlugins ↔
      ∃ value, (key, value) ∈ plugins) ∧
    (∀ key value, (key, value) ∈ plugins →
      (policy.NoSchedulingStrategy plugins currentPlugins).count key = 1) ∧
    (policy.NoSchedulingStrategy plugins currentPlugins).Nodup ∧
    (policy.NoSchedulingStrategy plugins currentPlugins).length = plugins.length ∧
    policy.NoSchedulingStrategy [] currentPlugins = [] ∧
    (∀ walk : List (String × String), walk.Perm plugins →
      (policy.NoSchedulingStrategy walk currentPlugins).Perm
        (policy.NoSchedulingStrategy plugins currentPlugins)) ∧
    (∀ otherPlugins : List String,
      policy.NoSchedulingStrategy plugins otherPlugins
        = policy.NoSchedulingStrategy plugins currentPlugins) := by
  have hmem : ∀ key, key ∈ plugins.map Prod.fst ↔ ∃ value, (key, value) ∈ plugins := by
    intro key
    simp only [List.mem_map, Prod.exists, exists_and_right, exists_eq_right]
  refine ⟨NoSchedulingStrategy_eq_keys _ _, ?_, ?_, ?_, ?_, rfl, ?_, ?_⟩
  · intro key
    rw [NoSchedulingStrategy_eq_keys]
    exact hmem key
  · intro key value hkv
    rw [NoSchedulingStrategy_eq_keys]
    exact List.count_eq_one_of_mem hkeys ((hmem key).mpr ⟨value, hkv⟩)
  · rw [NoSchedulingStrategy_eq_keys]
    exact hkeys
  · rw [NoSchedulingStrategy_eq_keys, List.length_map]
  · intro walk hperm
    rw [NoSchedulingStrategy_eq_keys, NoSchedulingStrategy_eq_keys]
    exact hperm.map _
  · intro otherPlugins
    rw [NoSchedulingStrategy_eq_keys, NoSchedulingStrategy_eq_keys]

/-- The statement on `NoSchedulingStrategy` for a map of three plugins. -/
theorem NoSchedulingStrategy_keys_once_witness :
    policy.NoSchedulingStrategy [("b", "img-b"), ("a", "img-a"), ("c", "img-c")] ["a"]
      = [("b", "img-b"), ("a", "img-a"), ("c", "img-c")].map Prod.fst ∧
    (∀ key, key ∈ policy.NoSchedulingStrategy
        [("b", "img-b"), ("a", "img-a"), ("c", "img-c")] ["a"] ↔
      ∃ value, (key, value) ∈ [("b", "img-b"), ("a", "img-a"), ("c", "img-c")]) ∧
    (∀ key value, (key, value) ∈ [("b", "img-b"), ("a", "img-a"), ("c", "img-c")] →
      (policy.NoSchedulingStrategy
        [("b", "img-b"), ("a", "img-a"), ("c", "img-c")] ["a"]).count key = 1) ∧
    (policy.NoSchedulingStrategy [("b", "img-b"), ("a", "img-a"), ("c", "img-c")] ["a"]).Nodup ∧
    (policy.NoSchedulingStrategy [("b", "img-b"), ("a", "img-a"), ("c", "img-c")] ["a"]).length
      = [("b", "img-b"), ("a", "img-a"), ("c", "img-c")].length ∧
    policy.NoSchedulingStrategy [] ["a"] = [] ∧
    (∀ walk : List (String × String),
      walk.Perm [("b", "img-b"), ("a", "img-a"), ("c", "img-c")] →
      (policy.NoSchedulingStrategy walk ["a"]).Perm
        (policy.NoSchedulingStrategy [("b", "img-b"), ("a", "img-a"), ("c", "img-c")] ["a"])) ∧
    (∀ otherPlugins : List String,
      policy.NoSchedulingStrategy [("b", "img-b"), ("a", "img-a"), ("c", "img-c")] otherPlugins
        = policy.NoSchedulingStrategy
            [("b", "img-b"), ("a", "img-a"), ("c", "img-c")] ["a"]) :=
  NoSchedulingStrategy_keys_once [("b", "img-b"), ("a", "img-a"), ("c", "img-c")] ["a"]
    (by decide)

/-- C23: in every scheduling pass the available resource handed to
`SelectBestTask` is `{CPU: 999999, Memory: 999999, GPUMemory: 999999}`,
whatever the state of the scheduler (goal table, plugin store and so the
plugins that are Running) and whatever the policy: the policy is asked at that
resource only, a policy that echoes the resource it receives echoes these three
numbers on every state, and a plugin that requires `{4,4,0}` is selected though
no node capacity was consulted. -/
theorem needScheduling_available_resource (ns : NodeScheduler) (policy : SchedulingPolicy)
    (WillItFit : Heap → Addr → Bool) (now : Nat) (event : Event) :
    availableResource = { CPU := 999999, Memory := 999999, GPUMemory := 999999 } ∧
    ns.selected policy now
      = policy.SelectBestTask (ns.promote policy now).heap ns.GoalManager.ScienceGoals
          { CPU := 999999, Memory := 999999, GPUMemory := 999999 } ns.GoalManager.NodeID ∧
    ns.needScheduling policy WillItFit now event
      = ns.needScheduling
          { policy with
            SelectBestTask := fun h scienceGoals _ nodeID =>
              policy.SelectBestTask h scienceGoals
                { CPU := 999999, Memory := 999999, GPUMemory := 999999 } nodeID }
          WillItFit now event ∧
    ns.selected resourceEcho now = (none, some "999999,999999,999999") ∧
    scenarioState.selected (nodescheduler.policy.SimpleScheduler fun _ => true) now
      = (some 1, none) := by
  refine ⟨rfl, rfl, rfl, ?_, ?_⟩
  · show (none, some (toString 999999 ++ "," ++ toString 999999 ++ "," ++ toString 999999))
      = ((none : Option Addr), some "999999,999999,999999")
    decide
  · rfl

end nodescheduler


namespace cloudscheduler

open datatype

theorem checkDevices_fst (checks : Checks) (node : Node) (devices : List Device) :
    ∀ (plugin : Plugin) (e e' : List ValidationError),
      (checkDevices checks node devices plugin e).1
        = (checkDevices checks node devices plugin e').1 := by
  induction devices with
  | nil => intro _ _ _; rfl
  | cons device rest ih =>
    intro plugin e e'
    unfold checkDevices at ih ⊢
    rw [List.foldl_cons, List.foldl_cons]
    cases hsup : (checks.GetUnsupportedPluginProfiles device plugin).1
    · simp only [hsup, Bool.not_false, if_true]
      exact ih _ _ _
    · simp only [hsup, Bool.not_true, Bool.false_eq_true, if_false]
      exact ih _ _ _

theorem validatePlugin_heap (plugins : List Plugin) (checks : Checks) (node : Node)
    (s : Progress) (plugin : Plugin) :
    (validatePlugin plugins checks node s plugin).heap
      = if reachesAppend plugins checks node plugin = true
        then (s.heap.alloc (appended checks node plugin)).1 else s.heap := by
  unfold validatePlugin reachesAppend appended
  cases h1 : pluginExists plugins plugin <;>
    cases h2 : (checks.GetPluginHardwareUnsupportedList node plugin).1 <;>
    cases h3 : (checks.GetPluginArchitectureSupportedDevices node plugin).1 <;>
    simp [h2, h3]
  rw [checkDevices_fst checks node _ plugin s.errorList []]

theorem validatePlugin_Plugins_reaches (plugins : List Plugin) (checks : Checks) (node : Node)
    (s : Progress) (plugin : Plugin) :
    (validatePlugin plugins checks node s plugin).Plugins
      = if reachesAppend plugins checks node plugin = true
        then s.Plugins ++ [s.heap.next] else s.Plugins := by
  rw [validatePlugin_Plugins]
  simp only [reachesAppend, Bool.and_eq_true, and_assoc]

theorem validatePlugins_spec (plugins : List Plugin) (checks : Checks) (node : Node)
    (ps : List Plugin) :
    ∀ s : Progress, (∀ a ∈ s.Plugins, a < s.heap.next) →
      (ps.foldl (validatePlugin plugins checks node) s).Plugins.map
          (ps.foldl (validatePlugin plugins checks node) s).heap.mem
        = s.Plugins.map s.heap.mem
          ++ (ps.filter (reachesAppend plugins checks node)).map (appended checks node) ∧
      (ps.foldl (validatePlugin plugins checks node) s).Plugins
        = s.Plugins ++ List.range' s.heap.next
            (ps.filter (reachesAppend plugins checks node)).length ∧
      (ps.foldl (validatePlugin plugins checks node) s).heap.next
        = s.heap.next + (ps.filter (reachesAppend plugins checks node)).length ∧
      (∀ a, a < s.heap.next →
        (ps.foldl (validatePlugin plugins checks node) s).heap.mem a = s.heap.mem a) := by
  induction ps with
  | nil =>
    intro s _
    simp
  | cons p rest ih =>
    intro s hs
    rw [List.foldl_cons]
    have hheap := validatePlugin_heap plugins checks node s p
    have hplug := validatePlugin_Plugins_reaches plugins checks node s p
    cases hreach : reachesAppend plugins checks node p
    · simp only [hreach, Bool.false_eq_true, if_false] at hheap hplug
      have hs1 : ∀ a ∈ (validatePlugin plugins checks node s p).Plugins,
          a < (validatePlugin plugins checks node s p).heap.next := by
        rw [hheap, hplug]; exact hs
      obtain ⟨h1, h2, h3, h4⟩ := ih _ hs1
      simp only [hheap, hplug] at h1 h2 h3 h4
      rw [List.filter_cons_of_neg (by simp [hreach])]
      exact ⟨h1, h2, h3, h4⟩
    · simp only [hreach, if_true] at hheap hplug
      have hnext : (validatePlugin plugins checks node s p).heap.next = s.heap.next + 1 := by
        rw [hheap]; rfl
      have hmem : ∀ a, a < s.heap.next →
          (validatePlugin plugins checks node s p).heap.mem a = s.heap.mem a := by
        intro a ha
        rw [hheap]
        exact Function.update_noteq (Nat.ne_of_lt ha) _ _
      have hnew : (validatePlugin plugins checks node s p).heap.mem s.heap.next
          = appended checks node p := by
        rw [hheap]
        simp [Heap.alloc]
      have hs1 : ∀ a ∈ (validatePlugin plugins checks node s p).Plugins,
          a < (validatePlugin plugins checks node s p).heap.next := by
        intro a ha
        rw [hnext]
        rw [hplug] at ha
        rcases List.mem_append.mp ha with ha | ha
        · exact Nat.lt_succ_of_lt (hs a ha)
        · rw [List.mem_singleton.mp ha]
          exact Nat.lt_succ_self _
      obtain ⟨h1, h2, h3, h4⟩ := ih _ hs1
      rw [List.filter_cons_of_pos (by simp [hreach])]
      refine ⟨?_, ?_, ?_, ?_⟩
      · rw [h1, hplug, List.map_append, List.map_singleton, hnew, List.map_cons,
          List.append_assoc, List.singleton_append]
        congr 1
        exact List.map_congr_left fun a ha => hmem a (hs a ha)
      · rw [h2, hplug, hnext, List.length_cons, List.range'_succ, List.append_assoc,
          List.singleton_append]
      · rw [h3, hnext, List.length_cons, Nat.add_assoc, Nat.add_comm 1]
      · intro a ha
        rw [h4 a (by rw [hnext]; exact Nat.lt_succ_of_lt ha)]
        exact hmem a ha

theorem validateNode_spec (plugins : List Plugin) (checks : Checks) (job : Job)
    (v : Validation) (node : Node) :
    (validateNode plugins checks job v node).scienceGoal.ID = v.scienceGoal.ID ∧
    (validateNode plugins checks job v node).scienceGoal.Name = v.scienceGoal.Name ∧
    (validateNode plugins checks job v node).heap.next
      = v.heap.next + (included plugins checks node job).length ∧
    (∀ a, a < v.heap.next → (validateNode plugins checks job v node).heap.mem a = v.heap.mem a) ∧
    (validateNode plugins checks job v node).scienceGoal.SubGoals
      = v.scienceGoal.SubGoals ++
          (if 0 < (included plugins checks node job).length then
            [{ Node := node,
               Plugins := List.range' v.heap.next (included plugins checks node job).length,
               Sciencerules := job.ScienceRules }]
           else []) ∧
    (List.range' v.heap.next (included plugins checks node job).length).map
        (validateNode plugins checks job v node).heap.mem
      = (included plugins checks node job).map (appended checks node) := by
  obtain ⟨h1, h2, h3, h4⟩ := validatePlugins_spec plugins checks node job.Plugins
    { heap := v.heap, Plugins := [], errorList := v.errorList } (by simp)
  simp only [List.map_nil, List.nil_append] at h1 h2 h3 h4
  have hlen : (job.Plugins.foldl (validatePlugin plugins checks node)
      { heap := v.heap, Plugins := [], errorList := v.errorList }).Plugins.length
      = (included plugins checks node job).length := by
    rw [h2, List.length_range']
    rfl
  rw [h2] at h1
  by_cases hpos : 0 < (included plugins checks node job).length
  · have hpos1 : (job.Plugins.foldl (validatePlugin plugins checks node)
        { heap := v.heap, Plugins := [], errorList := v.errorList }).Plugins.length > 0 := by
      rw [hlen]; exact hpos
    simp only [validateNode, hpos1, if_true, hpos]
    exact ⟨trivial, trivial, h3, h4, by rw [h2]; rfl, h1⟩
  · have hpos1 : ¬ (job.Plugins.foldl (validatePlugin plugins checks node)
        { heap := v.heap, Plugins := [], errorList := v.errorList }).Plugins.length > 0 := by
      rw [hlen]; exact hpos
    simp only [validateNode, hpos1, if_false, hpos, List.append_nil]
    exact ⟨trivial, trivial, h3, h4, trivial, h1⟩

theorem builtFor_mono (plugins : List Plugin) (checks : Checks) (job : Job) (h h' : Heap)
    (subGoal : SubGoal) (hle : h.next ≤ h'.next)
    (hmem : ∀ a, a < h.next → h'.mem a = h.mem a)
    (hb : builtFor plugins checks job h subGoal) :
    builtFor plugins checks job h' subGoal := by
  obtain ⟨h1, h2, h3, h4⟩ := hb
  refine ⟨h1, fun a ha => Nat.lt_of_lt_of_le (h2 a ha) hle, ?_, h4⟩
  rw [← h3]
  exact List.map_congr_left fun a ha => hmem a (h2 a ha)

theorem validateNodes_spec (plugins : List Plugin) (checks : Checks) (job : Job)
    (nodes : List Node) :
    ∀ v : Validation,
      (∀ sg ∈ v.scienceGoal.SubGoals, builtFor plugins checks job v.heap sg) →
      (nodes.foldl (validateNode plugins checks job) v).scienceGoal.ID = v.scienceGoal.ID ∧
      (nodes.foldl (validateNode plugins checks job) v).scienceGoal.Name
        = v.scienceGoal.Name ∧
      (nodes.foldl (validateNode plugins checks job) v).scienceGoal.SubGoals.map
          (fun sg => sg.Node)
        = v.scienceGoal.SubGoals.map (fun sg => sg.Node)
          ++ nodes.filter (fun n => decide (0 < (included plugins checks n job).length)) ∧
      (∀ sg ∈ (nodes.foldl (validateNode plugins checks job) v).scienceGoal.SubGoals,
        builtFor plugins checks job (nodes.foldl (validateNode plugins checks job) v).heap sg) ∧
      v.heap.next ≤ (nodes.foldl (validateNode plugins checks job) v).heap.next ∧
      (∀ a, a < v.heap.next →
        (nodes.foldl (validateNode plugins checks job) v).heap.mem a = v.heap.mem a) := by
  induction nodes with
  | nil =>
    intro v hv
    exact ⟨rfl, rfl, by simp, hv, Nat.le_refl _, fun _ _ => rfl⟩
  | cons node rest ih =>
    intro v hv
    rw [List.foldl_cons]
    obtain ⟨n1, n2, n3, n4, n5, n6⟩ := validateNode_spec plugins checks job v node
    have hle : v.heap.next ≤ (validateNode plugins checks job v node).heap.next := by
      rw [n3]; exact Nat.le_add_right _ _
    have hv1 : ∀ sg ∈ (validateNode plugins checks job v node).scienceGoal.SubGoals,
        builtFor plugins checks job (validateNode plugins checks job v node).heap sg := by
      intro sg hsg
      rw [n5] at hsg
      rcases List.mem_append.mp hsg with hsg | hsg
      · exact builtFor_mono plugins checks job _ _ sg hle n4 (hv sg hsg)
      · by_cases hpos : 0 < (included plugins checks node job).length
        · simp only [hpos, if_true, List.mem_singleton] at hsg
          subst hsg
          refine ⟨rfl, ?_, n6, hpos⟩
          intro a ha
          obtain ⟨i, hi, rfl⟩ := List.mem_range'.mp ha
          rw [n3, Nat.one_mul]
          exact Nat.add_lt_add_left hi _
        · simp only [hpos, if_false, List.not_mem_nil] at hsg
    obtain ⟨r1, r2, r3, r4, r5, r6⟩ := ih _ hv1
    refine ⟨r1.trans n1, r2.trans n2, ?_, r4, Nat.le_trans hle r5, ?_⟩
    · rw [r3, n5, List.map_append, List.append_assoc]
      congr 1
      by_cases hpos : 0 < (included plugins checks node job).length
      · simp [hpos, List.filter_cons]
      · simp [hpos, List.filter_cons]
    · intro a ha
      rw [r6 a (Nat.lt_of_lt_of_le ha hle)]
      exact n4 a ha

theorem removeProfiles_keeps {α : Type} (f : Plugin → α) (checks : Checks)
    (hkeep : ∀ q profile, f (checks.RemoveProfile q profile).1 = f q) (profiles : List String) :
    ∀ p : Plugin,
      f (profiles.foldl (fun p profile => (checks.RemoveProfile p profile).1) p) = f p := by
  induction profiles with
  | nil => intro p; rfl
  | cons profile rest ih =>
    intro p
    rw [List.foldl_cons, ih, hkeep]

theorem checkDevices_keeps {α : Type} (f : Plugin → α) (checks : Checks)
    (hkeep : ∀ q profile, f (checks.RemoveProfile q profile).1 = f q) (node : Node)
    (devices : List Device) :
    ∀ (plugin : Plugin) (e : List ValidationError),
      f (checkDevices checks node devices plugin e).1 = f plugin := by
  induction devices with
  | nil => intro plugin e; rfl
  | cons device rest ih =>
    intro plugin e
    unfold checkDevices at ih ⊢
    rw [List.foldl_cons]
    cases hsup : (checks.GetUnsupportedPluginProfiles device plugin).1
    · simp only [hsup, Bool.not_false, if_true]
      exact ih plugin _
    · simp only [hsup, Bool.not_true, Bool.false_eq_true, if_false]
      rw [ih]
      exact removeProfiles_keeps f checks hkeep _ plugin

theorem appended_keeps {α : Type} (f : Plugin → α) (checks : Checks)
    (hkeep : ∀ q profile, f (checks.RemoveProfile q profile).1 = f q) (node : Node)
    (plugin : Plugin) : f (appended checks node plugin) = f plugin :=
  checkDevices_keeps f checks hkeep node _ plugin []

theorem mem_included (plugins : List Plugin) (checks : Checks) (node : Node) (job : Job)
    (p : Plugin) :
    p ∈ included plugins checks node job ↔
      p ∈ job.Plugins ∧ pluginExists plugins p = true
        ∧ (checks.GetPluginHardwareUnsupportedList node p).1 = true
        ∧ (checks.GetPluginArchitectureSupportedDevices node p).1 = true := by
  simp only [included, List.mem_filter, reachesAppend, Bool.and_eq_true, and_assoc]

theorem mem_accepted (plugins : List Plugin) (checks : Checks) (node : Node) (job : Job)
    (p : Plugin) :
    p ∈ accepted plugins checks node job ↔
      p ∈ job.Plugins ∧ pluginExists plugins p = true
        ∧ (checks.GetPluginHardwareUnsupportedList node p).1 = true
        ∧ (checks.GetPluginArchitectureSupportedDevices node p).1 = true
        ∧ ∀ device ∈ (checks.GetPluginArchitectureSupportedDevices node p).2,
            (checks.GetUnsupportedPluginProfiles device p).1 = true := by
  simp only [accepted, List.mem_filter, passesChecks, Bool.and_eq_true, and_assoc,
    List.all_eq_true]

theorem accepted_sublist_included (plugins : List Plugin) (checks : Checks) (node : Node)
    (job : Job) :
    (accepted plugins checks node job).Sublist (included plugins checks node job) := by
  apply List.monotone_filter_right
  intro p hp
  simp only [passesChecks, Bool.and_eq_true] at hp
  simp only [reachesAppend, Bool.and_eq_true]
  exact hp.1

/-- C21: what `ValidateJobAndCreateScienceGoal` returns, for every registry,
checks, plugin store and job, and where that departs from the specification.
The goal carries the id and the name of the job; its sub-goals are, in the order of the
nodes of the job, one for each node for which at least one plugin of the job
is included, that is, passes checks 1 to 3 and reaches the append of line 80;
each is bound to its node, carries the science rules of the job and points, in
the plugin order of the job, at the copies of the included plugins (with their
names when `RemoveProfile` keeps the name); the plugins already in the store
are untouched. The accepted plugins, those that pass checks 1 to 4, are among
the included ones, and when the two agree for every node of the job the
sub-goals are as specified: one for each node with an accepted plugin, listing
the accepted plugins. They do not agree in general: for `sampleJob3` under
`partlyFailingChecks` only `p2` is accepted for `n1` and no plugin for `n2`,
check 4 records its three errors, and the goal still has a sub-goal for `n1`
and one for `n2`, each listing `p1` and `p2`. For `sampleJob2` under
`sampleChecks`, where check 4 fails for no plugin, only `n1` gets a sub-goal,
with `p1` and `p2`. -/
theorem ValidateJobAndCreateScienceGoal_goal_shape (plugins : List Plugin) (checks : Checks)
    (h : Heap) (job : Job) :
    (ValidateJobAndCreateScienceGoal plugins checks h job).scienceGoal.ID = job.ID ∧
    (ValidateJobAndCreateScienceGoal plugins checks h job).scienceGoal.Name = job.Name ∧
    (ValidateJobAndCreateScienceGoal plugins checks h job).scienceGoal.SubGoals.map
        (fun sg => sg.Node)
      = job.Nodes.filter (fun n => decide (0 < (included plugins checks n job).length)) ∧
    (∀ sg ∈ (ValidateJobAndCreateScienceGoal plugins checks h job).scienceGoal.SubGoals,
      sg.Sciencerules = job.ScienceRules ∧
      sg.Plugins.map (ValidateJobAndCreateScienceGoal plugins checks h job).heap.mem
        = (included plugins checks sg.Node job).map (appended checks sg.Node) ∧
      sg.Plugins.length = (included plugins checks sg.Node job).length ∧
      sg.Plugins ≠ []) ∧
    (∀ (node : Node) (p : Plugin),
      p ∈ included plugins checks node job ↔
        p ∈ job.Plugins ∧ pluginExists plugins p = true
          ∧ (checks.GetPluginHardwareUnsupportedList node p).1 = true
          ∧ (checks.GetPluginArchitectureSupportedDevices node p).1 = true) ∧
    (∀ (node : Node) (p : Plugin),
      p ∈ accepted plugins checks node job ↔
        p ∈ job.Plugins ∧ pluginExists plugins p = true
          ∧ (checks.GetPluginHardwareUnsupportedList node p).1 = true
          ∧ (checks.GetPluginArchitectureSupportedDevices node p).1 = true
          ∧ ∀ device ∈ (checks.GetPluginArchitectureSupportedDevices node p).2,
              (checks.GetUnsupportedPluginProfiles device p).1 = true) ∧
    (∀ node : Node,
      (accepted plugins checks node job).Sublist (included plugins checks node job)) ∧
    ((∀ node ∈ job.Nodes, included plugins checks node job = accepted plugins checks node job) →
      (ValidateJobAndCreateScienceGoal plugins checks h job).scienceGoal.SubGoals.map
          (fun sg => sg.Node)
        = job.Nodes.filter (fun n => decide (0 < (accepted plugins checks n job).length)) ∧
      ∀ sg ∈ (ValidateJobAndCreateScienceGoal plugins checks h job).scienceGoal.SubGoals,
        sg.Plugins.map (ValidateJobAndCreateScienceGoal plugins checks h job).heap.mem
          = (accepted plugins checks sg.Node job).map (appended checks sg.Node)) ∧
    ((∀ q profile, (checks.RemoveProfile q profile).1.Name = q.Name) →
      ∀ sg ∈ (ValidateJobAndCreateScienceGoal plugins checks h job).scienceGoal.SubGoals,
        sg.Plugins.map
            (fun a => ((ValidateJobAndCreateScienceGoal plugins checks h job).heap.mem a).Name)
          = (included plugins checks sg.Node job).map (fun p => p.Name)) ∧
    (∀ a, a < h.next →
      (ValidateJobAndCreateScienceGoal plugins checks h job).heap.mem a = h.mem a) ∧
    (accepted sampleRegistry2 partlyFailingChecks { Name := "n1" } sampleJob3).map
        (fun p => p.Name) = ["p2"] ∧
    accepted sampleRegistry2 partlyFailingChecks { Name := "n2" } sampleJob3 = [] ∧
    (ValidateJobAndCreateScienceGoal sampleRegistry2 partlyFailingChecks emptyHeap
        sampleJob3).errorList
      = [ValidationError.ResourceNotSupported "p1" "0.1" "d1" "n1",
         ValidationError.ResourceNotSupported "p1" "0.1" "d2" "n2",
         ValidationError.ResourceNotSupported "p2" "0.2" "d2" "n2"] ∧
    (ValidateJobAndCreateScienceGoal sampleRegistry2 partlyFailingChecks emptyHeap
        sampleJob3).scienceGoal
      = { ID := "j3", Name := "job3"
          SubGoals := [{ Node := { Name := "n1" }, Plugins := [0, 1],
                         Sciencerules := ["rule1"] },
                       { Node := { Name := "n2" }, Plugins := [2, 3],
                         Sciencerules := ["rule1"] }] } ∧
    [0, 1, 2, 3].map (fun a =>
        ((ValidateJobAndCreateScienceGoal sampleRegistry2 partlyFailingChecks emptyHeap
            sampleJob3).heap.mem a).Name)
      = ["p1", "p2", "p1", "p2"] ∧
    (ValidateJobAndCreateScienceGoal sampleRegistry2 sampleChecks emptyHeap sampleJob2).scienceGoal
      = { ID := "j2", Name := "job2"
          SubGoals := [{ Node := { Name := "n1" }, Plugins := [0, 1],
                         Sciencerules := ["rule1", "rule2"] }] } ∧
    [0, 1].map (fun a =>
        ((ValidateJobAndCreateScienceGoal sampleRegistry2 sampleChecks emptyHeap
            sampleJob2).heap.mem a).Name)
      = ["p1", "p2"] := by
  obtain ⟨r1, r2, r3, r4, _, r6⟩ := validateNodes_spec plugins checks job job.Nodes
    { heap := h, scienceGoal := { ID := job.ID, Name := job.Name }, errorList := [] }
    (by intro sg hsg; cases hsg)
  have hmap : (ValidateJobAndCreateScienceGoal plugins checks h job).scienceGoal.SubGoals.map
      (fun sg => sg.Node)
      = job.Nodes.filter (fun n => decide (0 < (included plugins checks n job).length)) := by
    rw [ValidateJobAndCreateScienceGoal, r3]
    rfl
  have hbuilt : ∀ sg ∈ (ValidateJobAndCreateScienceGoal plugins checks h job).scienceGoal.SubGoals,
      builtFor plugins checks job (ValidateJobAndCreateScienceGoal plugins checks h job).heap sg :=
    r4
  have hlen : ∀ sg ∈ (ValidateJobAndCreateScienceGoal plugins checks h job).scienceGoal.SubGoals,
      sg.Plugins.length = (included plugins checks sg.Node job).length := by
    intro sg hsg
    have := congrArg List.length (hbuilt sg hsg).2.2.1
    simpa only [List.length_map] using this
  have hnode : ∀ sg ∈ (ValidateJobAndCreateScienceGoal plugins checks h job).scienceGoal.SubGoals,
      sg.Node ∈ job.Nodes := by
    intro sg hsg
    have hm : sg.Node ∈ (ValidateJobAndCreateScienceGoal plugins checks h
        job).scienceGoal.SubGoals.map (fun sg => sg.Node) := List.mem_map.mpr ⟨sg, hsg, rfl⟩
    rw [hmap] at hm
    exact (List.mem_filter.mp hm).1
  refine ⟨r1, r2, hmap, ?_, fun node p => mem_included plugins checks node job p,
    fun node p => mem_accepted plugins checks node job p,
    fun node => accepted_sublist_included plugins checks node job, ?_, ?_, r6,
    by decide, by decide, by decide, by decide, by decide, by decide, by decide⟩
  · intro sg hsg
    refine ⟨(hbuilt sg hsg).1, (hbuilt sg hsg).2.2.1, hlen sg hsg, ?_⟩
    intro hnil
    have h0 := hlen sg hsg
    rw [hnil] at h0
    have hpos := (hbuilt sg hsg).2.2.2
    rw [← h0] at hpos
    exact Nat.lt_irrefl _ hpos
  · intro hall
    refine ⟨?_, ?_⟩
    · rw [hmap]
      apply List.filter_congr
      intro n hn
      rw [hall n hn]
    · intro sg hsg
      rw [← hall sg.Node (hnode sg hsg)]
      exact (hbuilt sg hsg).2.2.1
  · intro hkeep sg hsg
    have hm := congrArg (List.map fun p : Plugin => p.Name) (hbuilt sg hsg).2.2.1
    rw [List.map_map, List.map_map] at hm
    rw [show (fun a => ((ValidateJobAndCreateScienceGoal plugins checks h job).heap.mem a).Name)
        = (fun p : Plugin => p.Name)
            ∘ (ValidateJobAndCreateScienceGoal plugins checks h job).heap.mem from rfl, hm]
    exact List.map_congr_left fun p _ =>
      appended_keeps (fun p => p.Name) checks hkeep sg.Node p

end cloudscheduler
